import Mathlib

/-!
# Verification of `betterknown` (WKT / EWKT ⇄ GeoJSON conversion)

A shallow embedding of `src/index.ts` of the `betterknown` repository.

Modelling conventions:

* The mutable scanner (`class WktParser`: a string `value` plus a cursor
  `position`) is modelled by the list of characters still to be read; every
  source operation only inspects `this.value` from `this.position` onwards,
  so the remaining suffix is a faithful state.  Advancing `position` by `n`
  corresponds to dropping `n` characters.
* JavaScript numbers are modelled exactly: a coordinate is either a rational
  (`JsNum.num`), `NaN` (`JsNum.nan`, the result of `parseFloat` on
  non-numeric text) or a signed infinity.  The parser performs no arithmetic
  on coordinates, so exact rationals are a faithful abstraction of IEEE
  doubles; every finite double is a rational with a finite decimal expansion.
* The regular expressions used by the source
  (`/^SRID=(\d+);/`, `/^(\S*)\s+([^\s,)]*)/` and its 3- and 4-slot
  variants) are embedded as an explicit backtracking matcher over their
  piece lists, with JavaScript's greedy, longest-first semantics.
* `do … while` loops and the `GEOMETRYCOLLECTION` recursion are embedded
  with an explicit fuel parameter; `wktToGeoJSON` supplies
  `input.length + 1` fuel and the development proves this fuel is never
  exhausted, which is exactly the termination argument of the source.
-/

namespace Betterknown

/-! ## Character classes -/

/-- JavaScript's `\s` class (WhiteSpace ∪ LineTerminator). -/
def isJsWs (c : Char) : Bool :=
  c == ' ' || c == '\t' || c == '\n' || c == '\r' ||
  c.val == 11 || c.val == 12 || c.val == 0xa0 || c.val == 0x1680 ||
  (0x2000 ≤ c.val && c.val ≤ 0x200a) || c.val == 0x2028 || c.val == 0x2029 ||
  c.val == 0x202f || c.val == 0x205f || c.val == 0x3000 || c.val == 0xfeff

/-- `\S` of JavaScript regexes. -/
def nonWs (c : Char) : Bool := !isJsWs c

/-- The class `[^\s,)]` terminating the final capture of each coordinate
regex in `WktParser.matchCoordinate`. -/
def notWsCommaParen (c : Char) : Bool :=
  !(isJsWs c || c == ',' || c == ')')

/-! ## Scanner (`class WktParser`)

The scanner state is the list of characters still to be read. -/

abbrev St := List Char

/-- `WktParser.skipWhitespaces`: the source only skips the literal space
character (`this.value[this.position] === " "`). -/
def skipWhitespaces (st : St) : St := st.dropWhile (fun c => c == ' ')

/-- `String.prototype.startsWith(token, position)` at the scanner state. -/
def startsWith : List Char → St → Bool
  | [], _ => true
  | _ :: _, [] => false
  | t :: ts, c :: cs => t == c && startsWith ts cs

/-- The token loop of `WktParser.match`: first token of the list that is a
prefix of the state (a case-sensitive comparison in this revision). -/
def findTok : List (List Char) → St → Option (List Char)
  | [], _ => none
  | t :: ts, st => if startsWith t st then some t else findTok ts st

/-- `WktParser.match(tokens)`: skip spaces, then try each token in order;
on success advance past it. -/
def matchTokens (tokens : List (List Char)) (st : St) :
    Option (List Char) × St :=
  let st1 := skipWhitespaces st
  match findTok tokens st1 with
  | some t => (some t, st1.drop t.length)
  | none => (none, st1)

/-- `WktParser.isMatch(token)` (single-token form of this revision). -/
def isMatch (tok : List Char) (st : St) : Bool × St :=
  let st1 := skipWhitespaces st
  if startsWith tok st1 then (true, st1.drop tok.length) else (false, st1)

/-! ## The coordinate regexes, with JavaScript backtracking semantics -/

/-- One piece of the coordinate regexes: a greedy star over a character
class (each star in these regexes is a capture group) or a greedy plus
(`\s+`, never capturing). -/
inductive RPiece where
  | star (cls : Char → Bool)
  | plus (cls : Char → Bool)

/-- All splits `(run-prefix, rest)` of `s` where the prefix lies in the
class, longest first — the candidate order of a greedy star. -/
def splitsDesc (cls : Char → Bool) : St → List (St × St)
  | [] => [([], [])]
  | c :: cs =>
    if cls c then
      ((splitsDesc cls cs).map (fun pr => (c :: pr.1, pr.2))) ++ [([], c :: cs)]
    else [([], c :: cs)]

/-- First success of `f` over a candidate list (backtracking order). -/
def firstSome {α β : Type} (f : α → Option β) : List α → Option β
  | [] => none
  | a :: as => match f a with
    | some b => some b
    | none => firstSome f as

/-- Anchored match of a piece list, returning the captures and the unread
rest.  This is the semantics of the concrete anchored regexes that
`WktParser.matchRegex` receives (each call site passes one regex). -/
def pmatch : List RPiece → St → Option (List St × St)
  | [], s => some ([], s)
  | .star cls :: ps, s =>
    firstSome
      (fun pr =>
        (pmatch ps pr.2).map
          (fun cr => (pr.1 :: cr.1, cr.2)))
      (splitsDesc cls s)
  | .plus cls :: ps, s =>
    firstSome
      (fun pr =>
        if pr.1.isEmpty then none
        else (pmatch ps pr.2).map (fun cr => (cr.1, cr.2)))
      (splitsDesc cls s)

/-- `/^(\S*)\s+([^\s,)]*)/` -/
def coordPat2 : List RPiece :=
  [.star nonWs, .plus isJsWs, .star notWsCommaParen]

/-- `/^(\S*)\s+(\S*)\s+([^\s,)]*)/` -/
def coordPat3 : List RPiece :=
  [.star nonWs, .plus isJsWs, .star nonWs, .plus isJsWs,
   .star notWsCommaParen]

/-- `/^(\S*)\s+(\S*)\s+(\S*)\s+([^\s,)]*)/` -/
def coordPat4 : List RPiece :=
  [.star nonWs, .plus isJsWs, .star nonWs, .plus isJsWs,
   .star nonWs, .plus isJsWs, .star notWsCommaParen]

/-! ## Numbers -/

/-- Value of a digit string (the radix-10 accumulation loop of
`parseInt`/`parseFloat`). -/
def digitsVal (ds : List Char) : Nat :=
  ds.foldl (fun n c => 10 * n + (c.toNat - 48)) 0

/-- An exact decimal `± mant · 10 ^ exp`.  Every finite IEEE double is such
a decimal (`m · 2^(-k) = m · 5^k · 10^(-k)`), and every value `parseFloat`
produces from a decimal literal is one, so this represents finite JS
numbers exactly; only structure-level equalities are ever needed, so the
canonical form below makes value equality structural. -/
structure Dec where
  neg : Bool
  mant : Nat
  exp : Int
deriving DecidableEq, Repr

/-- Strip factors of ten from the mantissa (fuel-bounded; `fuel = m`
always suffices since `10 ^ k ≤ m` bounds the strippable factors). -/
def stripZerosAux : Nat → Nat → Int → Nat × Int
  | 0, m, e => (m, e)
  | fuel + 1, m, e =>
    if m % 10 == 0 && m != 0 then stripZerosAux fuel (m / 10) (e + 1)
    else (m, e)

/-- Canonical decimal for the value `± m · 10 ^ e`: zero is
`⟨false, 0, 0⟩` (JS `-0` equals `0`), otherwise the mantissa is made
coprime to ten. -/
def Dec.make (neg : Bool) (m : Nat) (e : Int) : Dec :=
  if m == 0 then ⟨false, 0, 0⟩
  else
    let p := stripZerosAux m m e
    ⟨neg, p.1, p.2⟩

/-- The canonical-form invariant preserved by `Dec.make`. -/
def Dec.canonical (d : Dec) : Bool :=
  if d.mant == 0 then !d.neg && d.exp == 0 else d.mant % 10 != 0

/-- A JavaScript number: a finite value (exact decimal), `NaN`
(what `parseFloat` returns on non-numeric text), or a signed infinity. -/
inductive JsNum where
  | num (d : Dec)
  | nan
  | inf (neg : Bool)
deriving DecidableEq, Repr

/-- Readable constructor for finite expected values:
`jnum (-443) (-1)` is `-44.3`. -/
def jnum (n : Int) (e : Int) : JsNum :=
  .num (Dec.make (decide (n < 0)) n.natAbs e)

/-- Exponent part of a JS float literal (`e`/`E`, optional sign, digits);
an `e` not followed by digits is not part of the longest valid prefix. -/
def expVal (r : List Char) : ℤ :=
  let p : Bool × List Char :=
    match r with
    | '-' :: t => (true, t)
    | '+' :: t => (false, t)
    | _ => (false, r)
  let ds := p.2.takeWhile Char.isDigit
  if ds.isEmpty then 0
  else if p.1 then -(digitsVal ds : ℤ) else (digitsVal ds : ℤ)

/-- The optional sign of a JS float literal. -/
def parseSign (s : List Char) : Bool × List Char :=
  match s with
  | c :: r =>
    if c == '-' then (true, r)
    else if c == '+' then (false, r)
    else (false, c :: r)
  | [] => (false, [])

/-- The magnitude of a JS float literal after the sign: digits, optional
`.` and fraction digits, optional exponent; no digits at all gives
`NaN`.  The literal `d1 . d2 e±ds` has value
`digits(d1 ++ d2) · 10 ^ (ds - |d2|)`. -/
def parseFloatMag (neg : Bool) (s2 : List Char) : JsNum :=
  let d1 := s2.takeWhile Char.isDigit
  let r1 := s2.dropWhile Char.isDigit
  let fr : List Char × List Char :=
    match r1 with
    | '.' :: r => (r.takeWhile Char.isDigit, r.dropWhile Char.isDigit)
    | _ => ([], r1)
  if d1.isEmpty && fr.1.isEmpty then .nan
  else
    let e : ℤ :=
      match fr.2 with
      | 'e' :: r => expVal r
      | 'E' :: r => expVal r
      | _ => 0
    .num (Dec.make neg (digitsVal (d1 ++ fr.1)) (e - fr.1.length))

/-- `parseFloat`: leading whitespace is skipped, then the longest prefix
that is a JS decimal literal is converted exactly; no such prefix gives
`NaN`. -/
def parseFloat (s : List Char) : JsNum :=
  let p := parseSign (s.dropWhile isJsWs)
  if startsWith ("Infinity".data) p.2 then .inf p.1
  else parseFloatMag p.1 p.2

/-! ## The GeoJSON geometry model

The `Geometry` tagged union of the `geojson` typings, restricted to the
seven variants the source handles.  `GeometryCollection` children are a
mutually inductive list so that all recursion over geometries is
structural. -/

/-- A GeoJSON `Position`: an ordered tuple of numbers. -/
abbrev Posn := List JsNum

mutual
inductive Geometry where
  | point (coordinates : Posn)
  | lineString (coordinates : List Posn)
  | polygon (coordinates : List (List Posn))
  | multiPoint (coordinates : List Posn)
  | multiLineString (coordinates : List (List Posn))
  | multiPolygon (coordinates : List (List (List Posn)))
  | geometryCollection (geometries : GeometryList)
deriving DecidableEq, Repr

inductive GeometryList where
  | nil
  | cons (head : Geometry) (tail : GeometryList)
deriving DecidableEq, Repr
end

/-- Build a `GeometryList` from the accumulator list of the collection
parsing loop. -/
def GeometryList.ofList : List Geometry → GeometryList
  | [] => .nil
  | g :: gs => .cons g (GeometryList.ofList gs)

def GeometryList.isEmpty : GeometryList → Bool
  | .nil => true
  | .cons _ _ => false

/-- The children of a collection as a plain list. -/
def GeometryList.toList : GeometryList → List Geometry
  | .nil => []
  | .cons g gs => g :: GeometryList.toList gs

/-! ## Options -/

/-- `WktUserOptions`.  `emptyAsNull : Option Bool` models the JS field
being `undefined` (`none`), `true` or `false`; the source tests it with
truthiness, under which `undefined` and `false` coincide.  `proj` is the
caller-supplied reprojection callback. -/
structure WktUserOptions where
  emptyAsNull : Option Bool := some true
  proj : Option (String → String → Posn → Posn) := none

/-- The default value of the optional `options` parameter of
`wktToGeoJSON` (`{ emptyAsNull: true }`), used when the caller omits the
argument entirely. -/
def defaultWktUserOptions : WktUserOptions :=
  { emptyAsNull := some true, proj := none }

/-- Truthiness of `options.emptyAsNull` (`undefined` is falsy). -/
def emptyAsNullTruthy (o : WktUserOptions) : Bool := o.emptyAsNull.getD false

/-- `WktOptions = WktUserOptions & ZM & { srid: number | null }`. -/
structure WktOptions extends WktUserOptions where
  srid : Option Nat
  hasZ : Bool
  hasM : Bool

/-- The `{hasZ, hasM}` record returned by `matchDimension`. -/
structure ZMFlag where
  hasZ : Bool
  hasM : Bool

/-! ## Errors and results -/

/-- Parse outcomes: a thrown `Error(msg)`, or exhaustion of the fuel that
models loop/recursion steps (proved unreachable below). -/
inductive ParseErr where
  | err (msg : String)
  | fuelOut
deriving DecidableEq, Repr

/-! ## Grammar constants (`src/constants.ts`) -/

def WKT_GEOMETRY_TYPES : List (List Char) :=
  ["POINT".data, "LINESTRING".data, "POLYGON".data, "MULTIPOINT".data,
   "MULTILINESTRING".data, "MULTIPOLYGON".data, "GEOMETRYCOLLECTION".data]

def ZZM : List (List Char) := ["ZM".data, "Z".data, "M".data]

def EMPTY : List Char := "EMPTY".data

/-! ## Scanner-level productions -/

/-- `WktParser.matchType` (throws `Expected geometry type`). -/
def matchType (st : St) : Except ParseErr (List Char × St) :=
  match matchTokens WKT_GEOMETRY_TYPES st with
  | (some t, st1) => .ok (t, st1)
  | (none, _) => .error (.err "Expected geometry type")

/-- `WktParser.matchDimension`. -/
def matchDimension (st : St) : ZMFlag × St :=
  match matchTokens ZZM st with
  | (some t, st1) =>
    if t = "ZM".data then (⟨true, true⟩, st1)
    else if t = "Z".data then (⟨true, false⟩, st1)
    else (⟨false, true⟩, st1)
  | (none, st1) => (⟨false, false⟩, st1)

/-- `WktParser.expectGroupStart`. -/
def expectGroupStart (st : St) : Except ParseErr (Unit × St) :=
  match isMatch ("(".data) st with
  | (true, st1) => .ok ((), st1)
  | (false, _) => .error (.err "Expected group start")

/-- `WktParser.expectGroupEnd`. -/
def expectGroupEnd (st : St) : Except ParseErr (Unit × St) :=
  match isMatch (")".data) st with
  | (true, st1) => .ok ((), st1)
  | (false, _) => .error (.err "Expected group end")

/-- The `/^SRID=(\d+);/` match at the top of `wktToGeoJSONinner`
(`matchRegex` skips spaces first even when the regex fails; `\d+` is
greedy and `;` is not a digit, so the maximal digit run is exact).
`parseInt(match[1], 10)` is modelled exactly as a natural number. -/
def matchSrid (st : St) : Option Nat × St :=
  let st1 := skipWhitespaces st
  if startsWith ("SRID=".data) st1 then
    let after := st1.drop 5
    let ds := after.takeWhile Char.isDigit
    match after.drop ds.length with
    | ';' :: rest => if ds.isEmpty then (none, st1) else (some (digitsVal ds), rest)
    | _ => (none, st1)
  else (none, st1)

/-- `WktParser.matchCoordinate(options)`: pick the regex by the dimension
flags, convert captures with `parseFloat` (the M-only branch stores only
the first two captures), then apply the CRS gate
`options.srid && options.srid !== 4326` (JS truthiness: `null` and `0`
are both falsy). -/
def matchCoordinate (o : WktOptions) (st : St) : Except ParseErr (Posn × St) :=
  let pat := if o.hasZ && o.hasM then coordPat4
    else if o.hasZ || o.hasM then coordPat3
    else coordPat2
  let st1 := skipWhitespaces st
  match pmatch pat st1 with
  | none => .error (.err "Expected coordinates")
  | some (caps, st2) =>
    let f := fun i => parseFloat (caps.getD i [])
    let position : Posn :=
      if o.hasZ && o.hasM then [f 0, f 1, f 2, f 3]
      else if o.hasZ then [f 0, f 1, f 2]
      else if o.hasM then [f 0, f 1]
      else [f 0, f 1]
    if (match o.srid with | some n => n != 0 && n != 4326 | none => false) then
      match o.proj with
      | some pj =>
        .ok (pj ("EPSG:" ++ toString (o.srid.getD 0)) "EPSG:4326" position, st2)
      | none =>
        .error (.err ("EWKT data in an unknown SRID (" ++
          toString (o.srid.getD 0) ++
          ") was provided, but a proj function was not"))
    else .ok (position, st2)

/-- The `do … while (this.isMatch(","))` loop of
`WktParser.matchCoordinates`; each coordinate may be individually
parenthesized. -/
def matchCoordinatesLoop :
    Nat → WktOptions → List Posn → St → Except ParseErr (List Posn × St)
  | 0, _, _, _ => .error .fuelOut
  | fuel + 1, o, acc, st => do
    let sb := isMatch ("(".data) st
    let (c, st2) ← matchCoordinate o sb.2
    let st3 ←
      if sb.1 then do
        let (_, s) ← expectGroupEnd st2
        pure s
      else pure st2
    let cm := isMatch (",".data) st3
    if cm.1 then matchCoordinatesLoop fuel o (acc ++ [c]) cm.2
    else .ok (acc ++ [c], cm.2)

/-- `WktParser.matchCoordinates(options)`. -/
def matchCoordinates (fuel : Nat) (o : WktOptions) (st : St) : Except ParseErr (List Posn × St) :=
  matchCoordinatesLoop fuel o [] st

/-! ## Geometry productions (`parseWkt<Kind>` of `src/index.ts`) -/

/-- `parseWktPoint`. -/
def parseWktPoint (o : WktOptions) (st : St) :
    Except ParseErr (Option Geometry × St) :=
  match isMatch EMPTY st with
  | (true, st1) =>
    if emptyAsNullTruthy o.toWktUserOptions then .ok (none, st1)
    else .ok (some (.point []), st1)
  | (false, st1) => do
    let (_, st2) ← expectGroupStart st1
    let (c, st3) ← matchCoordinate o st2
    let (_, st4) ← expectGroupEnd st3
    .ok (some (.point c), st4)

/-- `parseWktLineString`. -/
def parseWktLineString (fuel : Nat) (o : WktOptions) (st : St) :
    Except ParseErr (Option Geometry × St) :=
  match isMatch EMPTY st with
  | (true, st1) =>
    if emptyAsNullTruthy o.toWktUserOptions then .ok (none, st1)
    else .ok (some (.lineString []), st1)
  | (false, st1) => do
    let (_, st2) ← expectGroupStart st1
    let (cs, st3) ← matchCoordinates fuel o st2
    let (_, st4) ← expectGroupEnd st3
    .ok (some (.lineString cs), st4)

/-- `parseWktMultiPoint`. -/
def parseWktMultiPoint (fuel : Nat) (o : WktOptions) (st : St) :
    Except ParseErr (Option Geometry × St) :=
  match isMatch EMPTY st with
  | (true, st1) =>
    if emptyAsNullTruthy o.toWktUserOptions then .ok (none, st1)
    else .ok (some (.multiPoint []), st1)
  | (false, st1) => do
    let (_, st2) ← expectGroupStart st1
    let (cs, st3) ← matchCoordinates fuel o st2
    let (_, st4) ← expectGroupEnd st3
    .ok (some (.multiPoint cs), st4)

/-- The `while (value.isMatch(","))` loop shared by `parseWktPolygon`
(interior rings) and `parseWktMultiPolygon` (interior rings of one
polygon): each iteration reads `( coordinate-list )`. -/
def ringsLoop :
    Nat → WktOptions → List (List Posn) → St →
    Except ParseErr (List (List Posn) × St)
  | 0, _, _, _ => .error .fuelOut
  | fuel + 1, o, acc, st =>
    match isMatch (",".data) st with
    | (true, st1) => do
      let (_, st2) ← expectGroupStart st1
      let (ring, st3) ← matchCoordinates fuel o st2
      let (_, st4) ← expectGroupEnd st3
      ringsLoop fuel o (acc ++ [ring]) st4
    | (false, st1) => .ok (acc, st1)

/-- `parseWktPolygon`. -/
def parseWktPolygon (fuel : Nat) (o : WktOptions) (st : St) :
    Except ParseErr (Option Geometry × St) :=
  match isMatch EMPTY st with
  | (true, st1) =>
    if emptyAsNullTruthy o.toWktUserOptions then .ok (none, st1)
    else .ok (some (.polygon []), st1)
  | (false, st1) => do
    let (_, st2) ← expectGroupStart st1
    let (_, st3) ← expectGroupStart st2
    let (ring1, st4) ← matchCoordinates fuel o st3
    let (_, st5) ← expectGroupEnd st4
    let (rings, st6) ← ringsLoop fuel o [ring1] st5
    let (_, st7) ← expectGroupEnd st6
    .ok (some (.polygon rings), st7)

/-- The `do … while` loop of `parseWktMultiLineString`. -/
def mlsLoop :
    Nat → WktOptions → List (List Posn) → St →
    Except ParseErr (List (List Posn) × St)
  | 0, _, _, _ => .error .fuelOut
  | fuel + 1, o, acc, st => do
    let (_, st1) ← expectGroupStart st
    let (line, st2) ← matchCoordinates fuel o st1
    let (_, st3) ← expectGroupEnd st2
    match isMatch (",".data) st3 with
    | (true, st4) => mlsLoop fuel o (acc ++ [line]) st4
    | (false, st4) => .ok (acc ++ [line], st4)

/-- `parseWktMultiLineString`. -/
def parseWktMultiLineString (fuel : Nat) (o : WktOptions) (st : St) :
    Except ParseErr (Option Geometry × St) :=
  match isMatch EMPTY st with
  | (true, st1) =>
    if emptyAsNullTruthy o.toWktUserOptions then .ok (none, st1)
    else .ok (some (.multiLineString []), st1)
  | (false, st1) => do
    let (_, st2) ← expectGroupStart st1
    let (lines, st3) ← mlsLoop fuel o [] st2
    let (_, st4) ← expectGroupEnd st3
    .ok (some (.multiLineString lines), st4)

/-- The outer `do … while` loop of `parseWktMultiPolygon`: one polygon is
`( ( exterior ) interior-rings )`, with `exteriorRing`/`interiorRings`
collected as `[exteriorRing, ...interiorRings]`. -/
def mpolyLoop :
    Nat → WktOptions → List (List (List Posn)) → St →
    Except ParseErr (List (List (List Posn)) × St)
  | 0, _, _, _ => .error .fuelOut
  | fuel + 1, o, acc, st => do
    let (_, st1) ← expectGroupStart st
    let (_, st2) ← expectGroupStart st1
    let (ext, st3) ← matchCoordinates fuel o st2
    let (_, st4) ← expectGroupEnd st3
    let (rings, st5) ← ringsLoop fuel o [ext] st4
    let (_, st6) ← expectGroupEnd st5
    match isMatch (",".data) st6 with
    | (true, st7) => mpolyLoop fuel o (acc ++ [rings]) st7
    | (false, st7) => .ok (acc ++ [rings], st7)

/-- `parseWktMultiPolygon`. -/
def parseWktMultiPolygon (fuel : Nat) (o : WktOptions) (st : St) :
    Except ParseErr (Option Geometry × St) :=
  match isMatch EMPTY st with
  | (true, st1) =>
    if emptyAsNullTruthy o.toWktUserOptions then .ok (none, st1)
    else .ok (some (.multiPolygon []), st1)
  | (false, st1) => do
    let (_, st2) ← expectGroupStart st1
    let (polys, st3) ← mpolyLoop fuel o [] st2
    let (_, st4) ← expectGroupEnd st3
    .ok (some (.multiPolygon polys), st4)

/-! ## `wktToGeoJSONinner` and `parseWktGeometryCollection`

`parseWktGeometryCollection` re-enters `wktToGeoJSONinner(value, options)`
for each child; `wktToGeoJSONinner` spreads `{...userOptions}` and then
overwrites `srid`/`hasZ`/`hasM`, so only the user fields of `options`
survive into the child (here: `options.toWktUserOptions`), and the SRID
prefix is re-matched on the child's own text. -/

mutual

def wktToGeoJSONinner :
    Nat → WktUserOptions → St → Except ParseErr (Option Geometry × St)
  | 0, _, _ => .error .fuelOut
  | fuel + 1, uo, st => do
    let sr := matchSrid st
    let (geometryType, st2) ← matchType sr.2
    let dim := matchDimension st2
    let o : WktOptions :=
      { toWktUserOptions := uo, srid := sr.1,
        hasZ := dim.1.hasZ, hasM := dim.1.hasM }
    if geometryType = "POINT".data then parseWktPoint o dim.2
    else if geometryType = "LINESTRING".data then
      parseWktLineString fuel o dim.2
    else if geometryType = "POLYGON".data then
      parseWktPolygon fuel o dim.2
    else if geometryType = "MULTIPOINT".data then
      parseWktMultiPoint fuel o dim.2
    else if geometryType = "MULTILINESTRING".data then
      parseWktMultiLineString fuel o dim.2
    else if geometryType = "MULTIPOLYGON".data then
      parseWktMultiPolygon fuel o dim.2
    else parseWktGeometryCollection fuel o dim.2

def parseWktGeometryCollection (fuel : Nat) (o : WktOptions) (st : St) :
    Except ParseErr (Option Geometry × St) :=
  match fuel with
  | 0 => .error .fuelOut
  | fuel + 1 =>
    match isMatch EMPTY st with
    | (true, st1) =>
      if emptyAsNullTruthy o.toWktUserOptions then .ok (none, st1)
      else .ok (some (.geometryCollection .nil), st1)
    | (false, st1) => do
      let (_, st2) ← expectGroupStart st1
      let (gs, st3) ← gcLoop fuel o [] st2
      let (_, st4) ← expectGroupEnd st3
      .ok (some (.geometryCollection (GeometryList.ofList gs)), st4)

/-- The `do … while` loop of `parseWktGeometryCollection`; a `null` child
(an `EMPTY` geometry under `emptyAsNull`) is not pushed. -/
def gcLoop (fuel : Nat) (o : WktOptions) (acc : List Geometry) (st : St) :
    Except ParseErr (List Geometry × St) :=
  match fuel with
  | 0 => .error .fuelOut
  | fuel + 1 => do
    let (g?, st1) ← wktToGeoJSONinner fuel o.toWktUserOptions st
    let acc1 := match g? with
      | some g => acc ++ [g]
      | none => acc
    match isMatch (",".data) st1 with
    | (true, st2) => gcLoop fuel o acc1 st2
    | (false, st2) => .ok (acc1, st2)

end

/-- `wktToGeoJSON(wkt, options = { emptyAsNull: true })`.  A caller that
omits the options argument passes `defaultWktUserOptions`.  The fuel
`wkt.length + 1` is sufficient (proved below), so the result is the
source's: a geometry, `null`, or a thrown error. -/
def wktToGeoJSON (wkt : List Char)
    (options : WktUserOptions := defaultWktUserOptions) :
    Except ParseErr (Option Geometry) :=
  (wktToGeoJSONinner (wkt.length + 1) options wkt).map (fun r => r.1)

/-! ## Serializer (`geoJSONToWkt` and the `stringify<Kind>` helpers)

JS template interpolation of an array joins its elements with `","`;
`Array.prototype.join(sep)` of an empty array is `""`. -/

/-- `Array.prototype.join(sep)`. -/
def joinSep (sep : List Char) : List (List Char) → List Char
  | [] => []
  | [x] => x
  | x :: xs => x ++ sep ++ joinSep sep xs

/-- Digits of a natural number, most significant first (fuel-bounded;
`fuel = n + 1` always suffices). -/
def natDigitsAux : Nat → Nat → List Char
  | 0, _ => []
  | fuel + 1, n =>
    if n < 10 then [Char.ofNat (48 + n)]
    else natDigitsAux fuel (n / 10) ++ [Char.ofNat (48 + n % 10)]

/-- Decimal rendering of a natural number. -/
def natToDigits (n : Nat) : List Char := natDigitsAux (n + 1) n

/-- Left-pad a digit string with zeros to length `k`. -/
def padZeros (k : Nat) (ds : List Char) : List Char :=
  List.replicate (k - ds.length) '0' ++ ds

/-- `String(x)` for a finite decimal: plain positional notation.  (JS
switches to exponential notation for `|x| ≥ 1e21` or very small values;
both spellings denote the same exact value and re-parse identically, and
positional notation keeps the rendering uniform.) -/
def decToString (d : Dec) : List Char :=
  let body :=
    if 0 ≤ d.exp then natToDigits (d.mant * 10 ^ d.exp.toNat)
    else
      let k := (-d.exp).toNat
      natToDigits (d.mant / 10 ^ k) ++ '.' :: padZeros k (natToDigits (d.mant % 10 ^ k))
  if d.neg && d.mant != 0 then '-' :: body else body

/-- `String(x)` for any JS number. -/
def numToString : JsNum → List Char
  | .num d => decToString d
  | .nan => "NaN".data
  | .inf false => "Infinity".data
  | .inf true => "-Infinity".data

/-- `stringifyCoordinate(point)`: `point.join(" ")`. -/
def stringifyCoordinate (p : Posn) : List Char :=
  joinSep (" ".data) (p.map numToString)

/-- `stringifyZM(position)`: `" Z "` exactly when the sampled position has
three components (`undefined` is `none`). -/
def stringifyZM (p : Option Posn) : List Char :=
  match p with
  | none => " ".data
  | some p => if p.length = 3 then " Z ".data else " ".data

/-- `stringifyPoint`. -/
def stringifyPoint (c : Posn) : List Char :=
  if c.length = 0 then "POINT EMPTY".data
  else
    "POINT".data ++ stringifyZM (some c) ++ "(".data ++
      stringifyCoordinate c ++ ")".data

/-- `stringifyLineString`. -/
def stringifyLineString (cs : List Posn) : List Char :=
  if cs.length = 0 then "LINESTRING EMPTY".data
  else
    "LINESTRING".data ++ stringifyZM cs.head? ++ "(".data ++
      joinSep (",".data) (cs.map stringifyCoordinate) ++ ")".data

/-- `stringifyMultiPoint`. -/
def stringifyMultiPoint (cs : List Posn) : List Char :=
  if cs.length = 0 then "MULTIPOINT EMPTY".data
  else
    "MULTIPOINT".data ++ stringifyZM cs.head? ++ "(".data ++
      joinSep (",".data) (cs.map stringifyCoordinate) ++ ")".data

/-- `stringifyMultiLineString` (the sampled position is
`coordinates[0][0]`, without optional chaining). -/
def stringifyMultiLineString (cs : List (List Posn)) : List Char :=
  if cs.length = 0 then "MULTILINESTRING EMPTY".data
  else
    "MULTILINESTRING".data ++ stringifyZM (cs.head?.bind List.head?) ++
      "(".data ++
      joinSep (",".data)
        (cs.map (fun ring =>
          "(".data ++ joinSep (",".data) (ring.map stringifyCoordinate) ++
            ")".data)) ++
      ")".data

/-- `stringifyPolygon` (sampled position `coordinates[0]?.[0]`). -/
def stringifyPolygon (cs : List (List Posn)) : List Char :=
  if cs.length = 0 then "POLYGON EMPTY".data
  else
    "POLYGON".data ++ stringifyZM (cs.head?.bind List.head?) ++ "(".data ++
      joinSep (",".data)
        (cs.map (fun ring =>
          "(".data ++ joinSep (",".data) (ring.map stringifyCoordinate) ++
            ")".data)) ++
      ")".data

/-- `stringifyMultiPolygon` (sampled position
`coordinates[0]?.[0]?.[0]`). -/
def stringifyMultiPolygon (ps : List (List (List Posn))) : List Char :=
  if ps.length = 0 then "MULTIPOLYGON EMPTY".data
  else
    "MULTIPOLYGON".data ++
      stringifyZM ((ps.head?.bind List.head?).bind List.head?) ++ "(".data ++
      joinSep (",".data)
        (ps.map (fun poly =>
          "(".data ++
            joinSep (",".data)
              (poly.map (fun ring =>
                "(".data ++
                  joinSep (",".data) (ring.map stringifyCoordinate) ++
                  ")".data)) ++
            ")".data)) ++
      ")".data

mutual

/-- `geoJSONToWkt(geometry)`: dispatch on the tag. -/
def geoJSONToWkt : Geometry → List Char
  | .point c => stringifyPoint c
  | .lineString cs => stringifyLineString cs
  | .multiPoint cs => stringifyMultiPoint cs
  | .geometryCollection gs =>
    if gs.isEmpty then "GEOMETRYCOLLECTION EMPTY".data
    else
      "GEOMETRYCOLLECTION".data ++ "(".data ++
        joinSep (",".data) (gcChildWkts gs) ++ ")".data
  | .polygon cs => stringifyPolygon cs
  | .multiPolygon ps => stringifyMultiPolygon ps
  | .multiLineString cs => stringifyMultiLineString cs

/-- The `geometries.map((geometry) => geoJSONToWkt(geometry))` of
`stringifyGeometryCollection`. -/
def gcChildWkts : GeometryList → List (List Char)
  | .nil => []
  | .cons g gs => geoJSONToWkt g :: gcChildWkts gs

end

/-- The serializer's collection body (children joined by `","`) in
cons-normal form. -/
def gcBody : GeometryList → St → St
  | .nil, rest => rest
  | .cons g .nil, rest => geoJSONToWkt g ++ rest
  | .cons g gs, rest => geoJSONToWkt g ++ (',' :: gcBody gs rest)

/-! ## Spec-modelled GeoSPARQL CRS handling

Modelled from the spec: the GeoSPARQL IRI-prefix recognition and the CRS
Resolver of spec §4.2/§4.3 are implemented by this repository but their
code is not under `src/` (`src/index.ts` only handles the `SRID=n;`
prefix; the feature is attested by `src/test/index.test.ts` and the
changelog).  The definitions below model the missing part from the spec's
words — "consume an optional CRS prefix (try EWKT numeric form, else
GeoSPARQL IRI form, else none)", resolved once per coordinate: pass-through
for no CRS or SRID 4326; axis-swap of the two leading values for the
GeoSPARQL IRI of EPSG:4326; delegate to `proj` (raw IRI as source) for
other recognized EPSG IRIs; unrecognized-CRS error otherwise, raised at
the first coordinate — composed with the grammar engine embedded above
from the source. -/

/-- The CRS descriptor of spec §3: implicit WGS84, numeric SRID, or the
raw IRI of a GeoSPARQL prefix. -/
inductive CrsSpec where
  | noCrs
  | sridCrs (n : Nat)
  | iriCrs (raw : List Char)

/-- `http://www.opengis.net/def/crs/EPSG/0/` — the recognized EPSG IRI
shape. -/
def epsgIriBase : List Char := "http://www.opengis.net/def/crs/EPSG/0/".data

/-- Recognize `<base><digits>` and extract the EPSG code. -/
def iriEpsgCode (raw : List Char) : Option Nat :=
  if startsWith epsgIriBase raw then
    let ds := raw.drop epsgIriBase.length
    if !ds.isEmpty && ds.all Char.isDigit then some (digitsVal ds) else none
  else none

/-- Swap the two leading coordinate values (GeoSPARQL literal order is
latitude-then-longitude; GeoJSON is longitude-then-latitude). -/
def swapLeading2 : Posn → Posn
  | a :: b :: r => b :: a :: r
  | p => p

/-- Options of the spec-modelled parse: the CRS descriptor read once at
the very start, plus the user options and dimension flags. -/
structure SpecOptions where
  crs : CrsSpec
  emptyAsNull : Option Bool
  proj : Option (String → String → Posn → Posn)
  hasZ : Bool
  hasM : Bool

/-- The CRS Resolver of spec §4.3, run once per coordinate. -/
def resolveCrsSpec (o : SpecOptions) (pos : Posn) : Except ParseErr Posn :=
  match o.crs with
  | .noCrs => .ok pos
  | .sridCrs n =>
    if n = 4326 then .ok pos
    else
      match o.proj with
      | some f => .ok (f ("EPSG:" ++ toString n) "EPSG:4326" pos)
      | none =>
        .error (.err ("EWKT data in an unknown SRID (" ++ toString n ++
          ") was provided, but a proj function was not"))
  | .iriCrs raw =>
    match iriEpsgCode raw with
    | some n =>
      if n = 4326 then .ok (swapLeading2 pos)
      else
        match o.proj with
        | some f => .ok (f (String.mk raw) "EPSG:4326" pos)
        | none =>
          .error (.err "GeoSPARQL data in an unknown CRS was provided, but a proj function was not")
    | none => .error (.err "GeoSPARQL IRI CRS not recognized")

/-- The IRI form of the CRS prefix: `<` up to the matching `>`. -/
def matchIri (st : St) : Option (List Char) × St :=
  let st1 := skipWhitespaces st
  match st1 with
  | '<' :: r =>
    let raw := r.takeWhile (fun c => c != '>')
    match r.drop raw.length with
    | '>' :: rest => (some raw, rest)
    | _ => (none, st1)
  | _ => (none, st1)

/-- Coordinate production of the spec model: the source's grammar
(`matchCoordinate` patterns, including the M-only discard) followed by the
spec's CRS Resolver. -/
def matchCoordinateSpec (o : SpecOptions) (st : St) :
    Except ParseErr (Posn × St) :=
  let pat := if o.hasZ && o.hasM then coordPat4
    else if o.hasZ || o.hasM then coordPat3
    else coordPat2
  let st1 := skipWhitespaces st
  match pmatch pat st1 with
  | none => .error (.err "Expected coordinates")
  | some (caps, st2) =>
    let f := fun i => parseFloat (caps.getD i [])
    let position : Posn :=
      if o.hasZ && o.hasM then [f 0, f 1, f 2, f 3]
      else if o.hasZ then [f 0, f 1, f 2]
      else if o.hasM then [f 0, f 1]
      else [f 0, f 1]
    match resolveCrsSpec o position with
    | .ok p => .ok (p, st2)
    | .error e => .error e

/-- `matchCoordinates` of the spec model. -/
def matchCoordinatesLoopSpec :
    Nat → SpecOptions → List Posn → St → Except ParseErr (List Posn × St)
  | 0, _, _, _ => .error .fuelOut
  | fuel + 1, o, acc, st => do
    let sb := isMatch ("(".data) st
    let (c, st2) ← matchCoordinateSpec o sb.2
    let st3 ←
      if sb.1 then do
        let (_, s) ← expectGroupEnd st2
        pure s
      else pure st2
    let cm := isMatch (",".data) st3
    if cm.1 then matchCoordinatesLoopSpec fuel o (acc ++ [c]) cm.2
    else .ok (acc ++ [c], cm.2)

/-- Interior-ring loop of the spec model. -/
def ringsLoopSpec :
    Nat → SpecOptions → List (List Posn) → St →
    Except ParseErr (List (List Posn) × St)
  | 0, _, _, _ => .error .fuelOut
  | fuel + 1, o, acc, st =>
    match isMatch (",".data) st with
    | (true, st1) => do
      let (_, st2) ← expectGroupStart st1
      let (ring, st3) ← matchCoordinatesLoopSpec fuel o [] st2
      let (_, st4) ← expectGroupEnd st3
      ringsLoopSpec fuel o (acc ++ [ring]) st4
    | (false, st1) => .ok (acc, st1)

/-- `parseWktMultiLineString` loop of the spec model. -/
def mlsLoopSpec :
    Nat → SpecOptions → List (List Posn) → St →
    Except ParseErr (List (List Posn) × St)
  | 0, _, _, _ => .error .fuelOut
  | fuel + 1, o, acc, st => do
    let (_, st1) ← expectGroupStart st
    let (line, st2) ← matchCoordinatesLoopSpec fuel o [] st1
    let (_, st3) ← expectGroupEnd st2
    match isMatch (",".data) st3 with
    | (true, st4) => mlsLoopSpec fuel o (acc ++ [line]) st4
    | (false, st4) => .ok (acc ++ [line], st4)

/-- `parseWktMultiPolygon` loop of the spec model. -/
def mpolyLoopSpec :
    Nat → SpecOptions → List (List (List Posn)) → St →
    Except ParseErr (List (List (List Posn)) × St)
  | 0, _, _, _ => .error .fuelOut
  | fuel + 1, o, acc, st => do
    let (_, st1) ← expectGroupStart st
    let (_, st2) ← expectGroupStart st1
    let (ext, st3) ← matchCoordinatesLoopSpec fuel o [] st2
    let (_, st4) ← expectGroupEnd st3
    let (rings, st5) ← ringsLoopSpec fuel o [ext] st4
    let (_, st6) ← expectGroupEnd st5
    match isMatch (",".data) st6 with
    | (true, st7) => mpolyLoopSpec fuel o (acc ++ [rings]) st7
    | (false, st7) => .ok (acc ++ [rings], st7)

/-- Truthiness of the spec model's `emptyAsNull`. -/
def emptyAsNullTruthySpec (o : SpecOptions) : Bool := o.emptyAsNull.getD false

mutual

/-- Geometry production of the spec model, entered after the single CRS
prefix was read: kind keyword, dimension suffix, body.  Nested collection
children re-enter here, threading the same CRS descriptor — the prefix is
never re-read (spec §3). -/
def parseGeometrySpec :
    Nat → SpecOptions → St → Except ParseErr (Option Geometry × St)
  | 0, _, _ => .error .fuelOut
  | fuel + 1, o, st => do
    let (geometryType, st2) ← matchType st
    let dim := matchDimension st2
    let o1 : SpecOptions := { o with hasZ := dim.1.hasZ, hasM := dim.1.hasM }
    if geometryType = "POINT".data then
      match isMatch EMPTY dim.2 with
      | (true, st3) =>
        if emptyAsNullTruthySpec o1 then .ok (none, st3)
        else .ok (some (.point []), st3)
      | (false, st3) => do
        let (_, st4) ← expectGroupStart st3
        let (c, st5) ← matchCoordinateSpec o1 st4
        let (_, st6) ← expectGroupEnd st5
        .ok (some (.point c), st6)
    else if geometryType = "LINESTRING".data then
      match isMatch EMPTY dim.2 with
      | (true, st3) =>
        if emptyAsNullTruthySpec o1 then .ok (none, st3)
        else .ok (some (.lineString []), st3)
      | (false, st3) => do
        let (_, st4) ← expectGroupStart st3
        let (cs, st5) ← matchCoordinatesLoopSpec fuel o1 [] st4
        let (_, st6) ← expectGroupEnd st5
        .ok (some (.lineString cs), st6)
    else if geometryType = "POLYGON".data then
      match isMatch EMPTY dim.2 with
      | (true, st3) =>
        if emptyAsNullTruthySpec o1 then .ok (none, st3)
        else .ok (some (.polygon []), st3)
      | (false, st3) => do
        let (_, st4) ← expectGroupStart st3
        let (_, st5) ← expectGroupStart st4
        let (ring1, st6) ← matchCoordinatesLoopSpec fuel o1 [] st5
        let (_, st7) ← expectGroupEnd st6
        let (rings, st8) ← ringsLoopSpec fuel o1 [ring1] st7
        let (_, st9) ← expectGroupEnd st8
        .ok (some (.polygon rings), st9)
    else if geometryType = "MULTIPOINT".data then
      match isMatch EMPTY dim.2 with
      | (true, st3) =>
        if emptyAsNullTruthySpec o1 then .ok (none, st3)
        else .ok (some (.multiPoint []), st3)
      | (false, st3) => do
        let (_, st4) ← expectGroupStart st3
        let (cs, st5) ← matchCoordinatesLoopSpec fuel o1 [] st4
        let (_, st6) ← expectGroupEnd st5
        .ok (some (.multiPoint cs), st6)
    else if geometryType = "MULTILINESTRING".data then
      match isMatch EMPTY dim.2 with
      | (true, st3) =>
        if emptyAsNullTruthySpec o1 then .ok (none, st3)
        else .ok (some (.multiLineString []), st3)
      | (false, st3) => do
        let (_, st4) ← expectGroupStart st3
        let (lines, st5) ← mlsLoopSpec fuel o1 [] st4
        let (_, st6) ← expectGroupEnd st5
        .ok (some (.multiLineString lines), st6)
    else if geometryType = "MULTIPOLYGON".data then
      match isMatch EMPTY dim.2 with
      | (true, st3) =>
        if emptyAsNullTruthySpec o1 then .ok (none, st3)
        else .ok (some (.multiPolygon []), st3)
      | (false, st3) => do
        let (_, st4) ← expectGroupStart st3
        let (polys, st5) ← mpolyLoopSpec fuel o1 [] st4
        let (_, st6) ← expectGroupEnd st5
        .ok (some (.multiPolygon polys), st6)
    else
      match isMatch EMPTY dim.2 with
      | (true, st3) =>
        if emptyAsNullTruthySpec o1 then .ok (none, st3)
        else .ok (some (.geometryCollection .nil), st3)
      | (false, st3) => do
        let (_, st4) ← expectGroupStart st3
        let (gs, st5) ← gcLoopSpec fuel o1 [] st4
        let (_, st6) ← expectGroupEnd st5
        .ok (some (.geometryCollection (GeometryList.ofList gs)), st6)

/-- Collection loop of the spec model. -/
def gcLoopSpec (fuel : Nat) (o : SpecOptions) (acc : List Geometry)
    (st : St) : Except ParseErr (List Geometry × St) :=
  match fuel with
  | 0 => .error .fuelOut
  | fuel + 1 => do
    let (g?, st1) ← parseGeometrySpec fuel o st
    let acc1 := match g? with
      | some g => acc ++ [g]
      | none => acc
    match isMatch (",".data) st1 with
    | (true, st2) => gcLoopSpec fuel o acc1 st2
    | (false, st2) => .ok (acc1, st2)

end

/-- Top-level parse of the spec model: one CRS descriptor is read at the
very start (EWKT numeric form first, else IRI form, else none) and applies
to every coordinate constructed during the parse. -/
def wktToGeoJSONSpec (wkt : List Char)
    (options : WktUserOptions := defaultWktUserOptions) :
    Except ParseErr (Option Geometry) :=
  let sr := matchSrid wkt
  let p : CrsSpec × St :=
    match sr.1 with
    | some n => (.sridCrs n, sr.2)
    | none =>
      match matchIri sr.2 with
      | (some raw, st1) => (.iriCrs raw, st1)
      | (none, st1) => (.noCrs, st1)
  let o : SpecOptions :=
    { crs := p.1, emptyAsNull := options.emptyAsNull, proj := options.proj,
      hasZ := false, hasM := false }
  (parseGeometrySpec (wkt.length + 1) o p.2).map (fun r => r.1)

/-! ## Structural validity

The instances quantified over by the round-trip property: coordinate
lists non-empty at every level, one uniform position arity per atomic
geometry, and every coordinate a finite JS number (canonical exact
decimal). -/

/-- A coordinate entry is a finite JS number in canonical form. -/
def numOk (x : JsNum) : Bool :=
  match x with
  | .num d => d.canonical
  | _ => false

/-- A position of arity `k` with finite entries. -/
def posOk (k : Nat) (p : Posn) : Bool :=
  p.length == k && p.all numOk

mutual

/-- Structural validity of a geometry (see section header). -/
def geomValid : Geometry → Bool
  | .point c => posOk 2 c || posOk 3 c
  | .lineString cs =>
    !cs.isEmpty && (cs.all (posOk 2) || cs.all (posOk 3))
  | .multiPoint cs =>
    !cs.isEmpty && (cs.all (posOk 2) || cs.all (posOk 3))
  | .polygon rs =>
    !rs.isEmpty && rs.all (fun r => !r.isEmpty) &&
      (rs.all (fun r => r.all (posOk 2)) || rs.all (fun r => r.all (posOk 3)))
  | .multiLineString rs =>
    !rs.isEmpty && rs.all (fun r => !r.isEmpty) &&
      (rs.all (fun r => r.all (posOk 2)) || rs.all (fun r => r.all (posOk 3)))
  | .multiPolygon ps =>
    !ps.isEmpty && ps.all (fun rs => !rs.isEmpty && rs.all (fun r => !r.isEmpty)) &&
      (ps.all (fun rs => rs.all (fun r => r.all (posOk 2))) ||
       ps.all (fun rs => rs.all (fun r => r.all (posOk 3))))
  | .geometryCollection gs => !gs.isEmpty && glValid gs

/-- Validity of a collection's children. -/
def glValid : GeometryList → Bool
  | .nil => true
  | .cons g gs => geomValid g && glValid gs

end

/-! # Lemmas

## Decimal rendering and `parseFloat` -/

/-- The character class of rendered number tokens. -/
def numChar (c : Char) : Bool :=
  c == '0' || c == '1' || c == '2' || c == '3' || c == '4' || c == '5' ||
  c == '6' || c == '7' || c == '8' || c == '9' || c == '-' || c == '.'

theorem numChar_cases (c : Char) (h : numChar c = true) :
    c = '0' ∨ c = '1' ∨ c = '2' ∨ c = '3' ∨ c = '4' ∨ c = '5' ∨ c = '6' ∨
    c = '7' ∨ c = '8' ∨ c = '9' ∨ c = '-' ∨ c = '.' := by
  have := h
  simp only [numChar, Bool.or_eq_true, beq_iff_eq] at this
  tauto

/-- Rendered number characters are inert for the scanner: not whitespace,
not a delimiter, and unable to start a keyword or sign mismatch. -/
theorem numChar_facts (c : Char) (h : numChar c = true) :
    isJsWs c = false ∧ nonWs c = true ∧ notWsCommaParen c = true ∧
    (c == ' ') = false ∧ (c == '(') = false ∧ (c == ')') = false ∧
    (c == ',') = false ∧ (('I' : Char) == c) = false := by
  rcases numChar_cases c h with h | h | h | h | h | h | h | h | h | h | h | h <;>
    subst h <;> exact ⟨rfl, rfl, rfl, rfl, rfl, rfl, rfl, rfl⟩

theorem numChar_not_minus_plus (c : Char) (h : numChar c = true)
    (hd : c.isDigit = true) : (c == '-') = false ∧ (c == '+') = false := by
  rcases numChar_cases c h with h | h | h | h | h | h | h | h | h | h | h | h <;>
    subst h <;> first
    | exact ⟨rfl, rfl⟩
    | exact absurd hd (by decide)

theorem digitsVal_foldl (ds : List Char) (n : Nat) :
    List.foldl (fun n c => 10 * n + (c.toNat - 48)) n ds =
      n * 10 ^ ds.length + digitsVal ds := by
  induction ds generalizing n with
  | nil => simp [digitsVal]
  | cons c cs ih =>
    simp only [List.foldl_cons, List.length_cons, digitsVal]
    rw [ih, ih (10 * 0 + (c.toNat - 48))]
    ring

theorem digitsVal_append (a b : List Char) :
    digitsVal (a ++ b) = digitsVal a * 10 ^ b.length + digitsVal b := by
  simp only [digitsVal, List.foldl_append]
  rw [digitsVal_foldl]
  rfl

theorem digitsVal_replicate_zero (j : Nat) :
    digitsVal (List.replicate j '0') = 0 := by
  induction j with
  | zero => rfl
  | succ j ih =>
    simp only [List.replicate_succ, digitsVal, List.foldl_cons]
    simpa [digitsVal] using ih

theorem digitsVal_padZeros (k : Nat) (ds : List Char) :
    digitsVal (padZeros k ds) = digitsVal ds := by
  simp [padZeros, digitsVal_append, digitsVal_replicate_zero]

theorem padZeros_length (k : Nat) (ds : List Char) (h : ds.length ≤ k) :
    (padZeros k ds).length = k := by
  simp [padZeros]
  omega

theorem natDigitsAux_spec (fuel : Nat) :
    ∀ n, n < fuel →
      natDigitsAux fuel n ≠ [] ∧
      (∀ c ∈ natDigitsAux fuel n, numChar c ∧ c.isDigit) ∧
      digitsVal (natDigitsAux fuel n) = n := by
  induction fuel with
  | zero => intro n h; omega
  | succ fuel ih =>
    intro n h
    by_cases h10 : n < 10
    · refine ⟨by simp [natDigitsAux, h10], ?_, ?_⟩
      · intro c hc
        simp only [natDigitsAux, if_pos h10, List.mem_singleton] at hc
        subst hc
        interval_cases n <;> exact ⟨by decide, by decide⟩
      · simp only [natDigitsAux, if_pos h10, digitsVal, List.foldl_cons,
          List.foldl_nil]
        interval_cases n <;> decide
    · have hdiv : n / 10 < fuel := by omega
      obtain ⟨hne, hcls, hval⟩ := ih (n / 10) hdiv
      have hmod : n % 10 < 10 := Nat.mod_lt _ (by omega)
      have hlast : numChar (Char.ofNat (48 + n % 10)) ∧
          (Char.ofNat (48 + n % 10)).isDigit := by
        have := hmod
        interval_cases h : (n % 10) <;> exact ⟨by decide, by decide⟩
      refine ⟨by simp [natDigitsAux, h10], ?_, ?_⟩
      · intro c hc
        simp only [natDigitsAux, if_neg h10, List.mem_append,
          List.mem_singleton] at hc
        rcases hc with hc | hc
        · exact hcls c hc
        · subst hc; exact hlast
      · simp only [natDigitsAux, if_neg h10]
        rw [digitsVal_append, hval]
        have : digitsVal [Char.ofNat (48 + n % 10)] = n % 10 := by
          have := hmod
          interval_cases h : (n % 10) <;> decide
        rw [this]
        simp only [List.length_singleton, pow_one]
        omega

theorem natToDigits_ne_nil (n : Nat) : natToDigits n ≠ [] :=
  (natDigitsAux_spec (n + 1) n (by omega)).1

theorem natToDigits_numChar (n : Nat) : ∀ c ∈ natToDigits n, numChar c :=
  fun c hc => ((natDigitsAux_spec (n + 1) n (by omega)).2.1 c hc).1

theorem natToDigits_isDigit (n : Nat) : ∀ c ∈ natToDigits n, c.isDigit :=
  fun c hc => ((natDigitsAux_spec (n + 1) n (by omega)).2.1 c hc).2

theorem digitsVal_natToDigits (n : Nat) : digitsVal (natToDigits n) = n :=
  (natDigitsAux_spec (n + 1) n (by omega)).2.2

theorem natDigitsAux_length (fuel : Nat) :
    ∀ n k, n < fuel → n < 10 ^ k → 0 < k →
      (natDigitsAux fuel n).length ≤ k := by
  induction fuel with
  | zero => intro n k h; omega
  | succ fuel ih =>
    intro n k h hk hk0
    by_cases h10 : n < 10
    · simp [natDigitsAux, h10]
      omega
    · have hk2 : 2 ≤ k := by
        by_contra hlt
        have : k = 1 := by omega
        subst this
        simp at hk
        omega
      have hdiv10 : n / 10 < 10 ^ (k - 1) := by
        have : 10 ^ k = 10 ^ (k - 1) * 10 := by
          rw [← pow_succ]
          congr 1
          omega
        omega
      have := ih (n / 10) (k - 1) (by omega) hdiv10 (by omega)
      simp only [natDigitsAux, if_neg h10, List.length_append,
        List.length_singleton]
      omega

theorem natToDigits_length_le (n k : Nat) (hk : n < 10 ^ k) (hk0 : 0 < k) :
    (natToDigits n).length ≤ k :=
  natDigitsAux_length (n + 1) n k (by omega) hk hk0

/-! ## `Dec.make` -/

theorem stripZerosAux_of_not_dvd (fuel m : Nat) (e : Int)
    (h : m % 10 ≠ 0) : stripZerosAux fuel m e = (m, e) := by
  cases fuel with
  | zero => rfl
  | succ fuel => simp [stripZerosAux, h]

theorem stripZerosAux_mul_pow (j : Nat) :
    ∀ fuel m e, j ≤ fuel → m % 10 ≠ 0 → m ≠ 0 →
      stripZerosAux fuel (m * 10 ^ j) e = (m, e + j) := by
  induction j with
  | zero =>
    intro fuel m e _ hmod _
    simpa using stripZerosAux_of_not_dvd fuel m e hmod
  | succ j ih =>
    intro fuel m e hf hmod h0
    obtain ⟨fuel, rfl⟩ : ∃ f, fuel = f + 1 := ⟨fuel - 1, by omega⟩
    have hdvd : m * 10 ^ (j + 1) % 10 = 0 := by
      have : m * 10 ^ (j + 1) = m * 10 ^ j * 10 := by ring
      omega
    have hne : m * 10 ^ (j + 1) ≠ 0 := by positivity
    have hdiv : m * 10 ^ (j + 1) / 10 = m * 10 ^ j := by
      have : m * 10 ^ (j + 1) = m * 10 ^ j * 10 := by ring
      omega
    rw [show stripZerosAux (fuel + 1) (m * 10 ^ (j + 1)) e =
        stripZerosAux fuel (m * 10 ^ (j + 1) / 10) (e + 1) from by
      simp [stripZerosAux, hdvd, hne]]
    rw [hdiv, ih fuel m (e + 1) (by omega) hmod h0]
    congr 1
    push_cast
    ring

theorem stripZerosAux_spec (fuel : Nat) :
    ∀ m e, m ≠ 0 → m ≤ fuel →
      (stripZerosAux fuel m e).1 ≠ 0 ∧ (stripZerosAux fuel m e).1 % 10 ≠ 0 := by
  induction fuel with
  | zero => intro m e h hf; omega
  | succ fuel ih =>
    intro m e h hf
    by_cases hmod : m % 10 = 0
    · have h10 : 10 ≤ m := by omega
      simp only [stripZerosAux, hmod, h, beq_self_eq_true, ne_eq,
        bne_iff_ne, not_false_eq_true, and_true, Bool.and_self]
      rw [if_pos (by simp [h])]
      exact ih (m / 10) (e + 1) (by omega) (by omega)
    · rw [show stripZerosAux (fuel + 1) m e = (m, e) from by
        simp [stripZerosAux, hmod]]
      exact ⟨h, hmod⟩

theorem Dec.make_canonical (neg : Bool) (m : Nat) (e : Int) :
    (Dec.make neg m e).canonical = true := by
  by_cases h : m = 0
  · simp [Dec.make, h, Dec.canonical]
  · obtain ⟨h1, h2⟩ := stripZerosAux_spec m m e h (le_refl m)
    simp [Dec.make, h, Dec.canonical, h1, h2]

theorem Dec.make_eq_self (d : Dec) (h : d.canonical = true) :
    Dec.make d.neg d.mant d.exp = d := by
  by_cases h0 : d.mant = 0
  · simp only [Dec.canonical, h0, beq_self_eq_true, if_true] at h
    obtain ⟨hneg, hexp⟩ := by simpa using h
    simp only [Dec.make, h0, beq_self_eq_true, if_true]
    cases d
    simp_all
  · have h' : d.mant % 10 ≠ 0 := by
      simpa [Dec.canonical, h0] using h
    simp [Dec.make, h0, stripZerosAux_of_not_dvd d.mant d.mant d.exp h']

theorem Dec.make_mul_pow (neg : Bool) (m : Nat) (e : Int) (j : Nat)
    (hmod : m % 10 ≠ 0) (h0 : m ≠ 0) :
    Dec.make neg (m * 10 ^ j) e = ⟨neg, m, e + j⟩ := by
  have hne : m * 10 ^ j ≠ 0 := by positivity
  have hfuel : j ≤ m * 10 ^ j := by
    calc j ≤ 10 ^ j := Nat.lt_pow_self (by omega) j |>.le
    _ ≤ m * 10 ^ j := Nat.le_mul_of_pos_left _ (by omega)
  simp [Dec.make, hne, stripZerosAux_mul_pow j (m * 10 ^ j) m e hfuel hmod h0]

/-! ## `takeWhile` / `dropWhile` on concatenations -/

theorem takeWhile_append_stop (p : Char → Bool) (a : List Char) (c : Char)
    (b : List Char) (ha : ∀ x ∈ a, p x = true) (hc : p c = false) :
    (a ++ c :: b).takeWhile p = a ∧ (a ++ c :: b).dropWhile p = c :: b := by
  induction a with
  | nil => simp [List.takeWhile, List.dropWhile, hc]
  | cons x xs ih =>
    have hx : p x = true := ha x (by simp)
    have := ih (fun y hy => ha y (by simp [hy]))
    simp [List.takeWhile_cons, List.dropWhile_cons, hx, this.1, this.2]

theorem takeWhile_all (p : Char → Bool) (a : List Char)
    (ha : ∀ x ∈ a, p x = true) :
    a.takeWhile p = a ∧ a.dropWhile p = [] := by
  induction a with
  | nil => simp
  | cons x xs ih =>
    have hx : p x = true := ha x (by simp)
    have := ih (fun y hy => ha y (by simp [hy]))
    simp [List.takeWhile_cons, List.dropWhile_cons, hx, this.1, this.2]

/-! ## `parseFloat ∘ decToString = id` on canonical decimals -/

theorem startsWith_infinity_false (c : Char) (r : List Char)
    (h : numChar c = true) : startsWith ("Infinity".data) (c :: r) = false := by
  show (('I' : Char) == c && _) = false
  rw [(numChar_facts c h).2.2.2.2.2.2.2]
  rfl

/-- `parseFloatMag` on an all-digit token. -/
theorem parseFloatMag_digits (neg : Bool) (ds : List Char) (hne : ds ≠ [])
    (hd : ∀ c ∈ ds, c.isDigit = true) :
    parseFloatMag neg ds = .num (Dec.make neg (digitsVal ds) 0) := by
  obtain ⟨htake, hdrop⟩ := takeWhile_all Char.isDigit ds hd
  rw [parseFloatMag]
  simp only [htake, hdrop]
  rw [if_neg (by simp [hne])]
  simp

/-- `parseFloatMag` on `intDigits . fracDigits`. -/
theorem parseFloatMag_digits_dot (neg : Bool) (a b : List Char)
    (hane : a ≠ []) (had : ∀ c ∈ a, c.isDigit = true)
    (hbd : ∀ c ∈ b, c.isDigit = true) :
    parseFloatMag neg (a ++ '.' :: b) =
      .num (Dec.make neg (digitsVal (a ++ b)) (-(b.length : Int))) := by
  obtain ⟨htake, hdrop⟩ :=
    takeWhile_append_stop Char.isDigit a '.' b had (by decide)
  obtain ⟨htakeb, hdropb⟩ := takeWhile_all Char.isDigit b hbd
  rw [parseFloatMag]
  simp only [htake, hdrop, htakeb, hdropb]
  rw [if_neg (by simp [hane])]
  simp

/-- `parseFloat` on a signed number-token with a digit after the sign. -/
theorem parseFloat_signed (neg : Bool) (body : List Char) (c : Char)
    (cs : List Char) (hbody : body = c :: cs) (hc : numChar c = true)
    (hcd : c.isDigit = true) (hn : ∀ x ∈ body, numChar x = true) :
    parseFloat ((if neg then ['-'] else []) ++ body) =
      parseFloatMag neg body := by
  subst hbody
  have hdropc : (c :: cs).dropWhile isJsWs = c :: cs := by
    simp [List.dropWhile_cons, (numChar_facts c hc).1]
  have hinf : startsWith ("Infinity".data) (c :: cs) = false :=
    startsWith_infinity_false c cs hc
  cases neg with
  | true =>
    have e1 : ((if (true = true) then ['-'] else ([] : List Char)) ++ c :: cs) =
        '-' :: c :: cs := rfl
    rw [parseFloat, e1]
    rw [show ('-' :: c :: cs).dropWhile isJsWs = '-' :: c :: cs from rfl]
    rw [show parseSign ('-' :: c :: cs) = (true, c :: cs) from rfl]
    simp [hinf]
  | false =>
    have e1 : ((if (false = true) then ['-'] else ([] : List Char)) ++ c :: cs) =
        c :: cs := rfl
    rw [parseFloat, e1, hdropc]
    obtain ⟨hm, hp⟩ := numChar_not_minus_plus c hc hcd
    rw [show parseSign (c :: cs) = (false, c :: cs) from by
      simp [parseSign, hm, hp]]
    simp [hinf]

/-- Character class of a rendered decimal. -/
theorem decToString_numChar (d : Dec) : ∀ c ∈ decToString d, numChar c = true := by
  intro c hc
  rw [decToString] at hc
  have hbody : ∀ x, (x ∈ natToDigits (d.mant * 10 ^ d.exp.toNat) ∨
      (x ∈ natToDigits (d.mant / 10 ^ (-d.exp).toNat) ∨ x = '.' ∨
        x ∈ padZeros (-d.exp).toNat (natToDigits (d.mant % 10 ^ (-d.exp).toNat)))) →
      numChar x = true := by
    intro x hx
    rcases hx with hx | hx | hx | hx
    · exact natToDigits_numChar _ x hx
    · exact natToDigits_numChar _ x hx
    · subst hx; rfl
    · rcases List.mem_append.mp hx with hx | hx
      · rw [List.eq_of_mem_replicate hx]; rfl
      · exact natToDigits_numChar _ x hx
  by_cases hneg : (d.neg && d.mant != 0) = true
  · rw [if_pos hneg] at hc
    rcases List.mem_cons.mp hc with hc | hc
    · subst hc; rfl
    · by_cases hexp : 0 ≤ d.exp
      · rw [if_pos hexp] at hc; exact hbody c (Or.inl hc)
      · rw [if_neg hexp] at hc
        rcases List.mem_append.mp hc with hc | hc
        · exact hbody c (Or.inr (Or.inl hc))
        · rcases List.mem_cons.mp hc with hc | hc
          · exact hbody c (Or.inr (Or.inr (Or.inl hc)))
          · exact hbody c (Or.inr (Or.inr (Or.inr hc)))
  · rw [if_neg hneg] at hc
    by_cases hexp : 0 ≤ d.exp
    · rw [if_pos hexp] at hc; exact hbody c (Or.inl hc)
    · rw [if_neg hexp] at hc
      rcases List.mem_append.mp hc with hc | hc
      · exact hbody c (Or.inr (Or.inl hc))
      · rcases List.mem_cons.mp hc with hc | hc
        · exact hbody c (Or.inr (Or.inr (Or.inl hc)))
        · exact hbody c (Or.inr (Or.inr (Or.inr hc)))

theorem decToString_ne_nil (d : Dec) : decToString d ≠ [] := by
  rw [decToString]
  by_cases hneg : (d.neg && d.mant != 0) = true
  · simp [hneg]
  · rw [if_neg hneg]
    by_cases hexp : 0 ≤ d.exp
    · rw [if_pos hexp]; exact natToDigits_ne_nil _
    · rw [if_neg hexp]
      intro h
      exact natToDigits_ne_nil _ (List.append_eq_nil.mp h).1

/-- Re-parsing a rendered canonical decimal recovers it exactly. -/
theorem parseFloat_decToString (d : Dec) (h : d.canonical = true) :
    parseFloat (decToString d) = .num d := by
  by_cases h0 : d.mant = 0
  · have hd : d = ⟨false, 0, 0⟩ := by
      have := h
      simp only [Dec.canonical, h0, beq_self_eq_true, if_true,
        Bool.and_eq_true, Bool.not_eq_true', beq_iff_eq] at this
      cases d
      simp_all
    subst hd
    decide
  · have hmod : d.mant % 10 ≠ 0 := by
      simpa [Dec.canonical, h0] using h
    have hsign : decToString d = (if d.neg then ['-'] else []) ++
        (if 0 ≤ d.exp then natToDigits (d.mant * 10 ^ d.exp.toNat)
         else natToDigits (d.mant / 10 ^ (-d.exp).toNat) ++ '.' ::
           padZeros (-d.exp).toNat (natToDigits (d.mant % 10 ^ (-d.exp).toNat))) := by
      rw [decToString]
      cases hneg : d.neg with
      | true => simp [h0]
      | false => simp [h0]
    by_cases hexp : 0 ≤ d.exp
    · -- integer rendering
      set body := natToDigits (d.mant * 10 ^ d.exp.toNat) with hbody
      have hM : d.mant * 10 ^ d.exp.toNat ≠ 0 := by positivity
      obtain ⟨c, cs, hcons⟩ : ∃ c cs, body = c :: cs := by
        cases hb : body with
        | nil => exact absurd hb (natToDigits_ne_nil _)
        | cons c cs => exact ⟨c, cs, rfl⟩
      have hcd : c.isDigit = true :=
        natToDigits_isDigit _ c (by rw [← hbody, hcons]; simp)
      have hcn : numChar c = true :=
        natToDigits_numChar _ c (by rw [← hbody, hcons]; simp)
      rw [hsign, if_pos hexp]
      rw [parseFloat_signed d.neg body c cs hcons hcn hcd
        (fun x hx => natToDigits_numChar (d.mant * 10 ^ d.exp.toNat) x (hbody ▸ hx))]
      rw [parseFloatMag_digits d.neg body (by rw [hcons]; simp)
        (fun x hx => natToDigits_isDigit (d.mant * 10 ^ d.exp.toNat) x (hbody ▸ hx))]
      rw [hbody, digitsVal_natToDigits,
        Dec.make_mul_pow d.neg d.mant 0 d.exp.toNat hmod h0]
      have he : (0 : Int) + (d.exp.toNat : Int) = d.exp := by omega
      rw [he]
    · -- fractional rendering
      set k := (-d.exp).toNat with hk
      have hkpos : 0 < k := by omega
      set a := natToDigits (d.mant / 10 ^ k) with ha
      set b := padZeros k (natToDigits (d.mant % 10 ^ k)) with hb
      have hblen : b.length = k := by
        rw [hb]
        exact padZeros_length k _
          (natToDigits_length_le _ k (Nat.mod_lt _ (by positivity)) hkpos)
      have had : ∀ x ∈ a, x.isDigit = true := fun x hx =>
        natToDigits_isDigit (d.mant / 10 ^ k) x (ha ▸ hx)
      have hbd : ∀ x ∈ b, x.isDigit = true := by
        intro x hx
        rw [hb, padZeros] at hx
        rcases List.mem_append.mp hx with hx | hx
        · rw [List.eq_of_mem_replicate hx]; rfl
        · exact natToDigits_isDigit _ x hx
      have hbn : ∀ x ∈ b, numChar x = true := by
        intro x hx
        rw [hb, padZeros] at hx
        rcases List.mem_append.mp hx with hx | hx
        · rw [List.eq_of_mem_replicate hx]; rfl
        · exact natToDigits_numChar _ x hx
      have hnall : ∀ x ∈ a ++ '.' :: b, numChar x = true := by
        intro x hx
        rcases List.mem_append.mp hx with hx | hx
        · exact natToDigits_numChar (d.mant / 10 ^ k) x (ha ▸ hx)
        · rcases List.mem_cons.mp hx with hx | hx
          · subst hx; rfl
          · exact hbn x hx
      obtain ⟨c, cs0, hacons⟩ : ∃ c cs0, a = c :: cs0 := by
        cases hx : a with
        | nil => exact absurd (ha ▸ hx) (ha ▸ natToDigits_ne_nil _)
        | cons c cs0 => exact ⟨c, cs0, rfl⟩
      have hcd : c.isDigit = true := had c (by rw [hacons]; simp)
      have hcn : numChar c = true := hnall c (by rw [hacons]; simp)
      have hcons : a ++ '.' :: b = c :: (cs0 ++ '.' :: b) := by
        rw [hacons]; rfl
      rw [hsign, if_neg hexp]
      rw [parseFloat_signed d.neg (a ++ '.' :: b) c (cs0 ++ '.' :: b) hcons
        hcn hcd hnall]
      rw [parseFloatMag_digits_dot d.neg a b (by rw [hacons]; simp) had hbd]
      have hvb : digitsVal b = d.mant % 10 ^ k := by
        rw [hb, digitsVal_padZeros, digitsVal_natToDigits]
      have hva : digitsVal a = d.mant / 10 ^ k := by
        rw [ha, digitsVal_natToDigits]
      have hsum : d.mant / 10 ^ k * 10 ^ k + d.mant % 10 ^ k = d.mant := by
        rw [Nat.mul_comm]
        exact Nat.div_add_mod d.mant (10 ^ k)
      rw [digitsVal_append, hblen, hvb, hva, hsum]
      have hexpk : -(k : Int) = d.exp := by omega
      rw [hexpk]
      exact congrArg JsNum.num (Dec.make_eq_self d h)

/-! ## Greedy-match lemmas for the coordinate regexes

On inputs whose tokens are class-homogeneous and delimiter-terminated the
backtracking matcher takes its first (all-greedy) branch; the lemmas below
compute it there. -/

/-- A scanner state that stops a star/plus over `cls`: empty, or led by a
character outside the class. -/
def stopsCls (cls : Char → Bool) (s : List Char) : Prop :=
  ∀ c, s.head? = some c → cls c = false

theorem splitsDesc_stop (cls : Char → Bool) (s : List Char)
    (h : stopsCls cls s) : splitsDesc cls s = [([], s)] := by
  cases s with
  | nil => rfl
  | cons c cs =>
    have := h c rfl
    simp [splitsDesc, this]

theorem firstSome_map {α β γ : Type} (f : β → Option γ) (g : α → β)
    (l : List α) : firstSome f (l.map g) = firstSome (fun a => f (g a)) l := by
  induction l with
  | nil => rfl
  | cons a as ih => simp only [List.map_cons, firstSome, ih]

theorem firstSome_append {α β : Type} (f : α → Option β) (l1 l2 : List α) :
    firstSome f (l1 ++ l2) =
      match firstSome f l1 with
      | some b => some b
      | none => firstSome f l2 := by
  induction l1 with
  | nil => rfl
  | cons a as ih =>
    simp only [List.cons_append, firstSome, ih]
    cases f a with
    | none => simpa using ih
    | some b => rfl

theorem pmatch_star_stop (cls : Char → Bool) (ps : List RPiece)
    (s : List Char) (h : stopsCls cls s) :
    pmatch (.star cls :: ps) s =
      (pmatch ps s).map (fun cr => ([] :: cr.1, cr.2)) := by
  rw [pmatch, splitsDesc_stop cls s h]
  simp only [firstSome]
  cases pmatch ps s <;> rfl

theorem firstSome_cons_capture (ps : List RPiece) (c : Char) :
    ∀ (l : List (List Char × List Char)) (p : St) (caps : List St) (r : St),
      firstSome (fun pr => (pmatch ps pr.2).map
        (fun cr => (pr.1 :: cr.1, cr.2))) l = some (p :: caps, r) →
      firstSome (fun pr => (pmatch ps pr.2).map
        (fun cr => ((c :: pr.1) :: cr.1, cr.2))) l =
        some ((c :: p) :: caps, r) := by
  intro l
  induction l with
  | nil => intro p caps r h; exact absurd h (by simp [firstSome])
  | cons a as ih =>
    intro p caps r h
    rw [firstSome] at h ⊢
    cases hpm : pmatch ps a.2 with
    | none =>
      rw [hpm] at h
      exact ih p caps r h
    | some cr =>
      obtain ⟨cr1, cr2⟩ := cr
      rw [hpm] at h
      have h' : ((a.1 :: cr1, cr2) : List St × St) = (p :: caps, r) := by
        injection (h : some ((a.1 :: cr1, cr2) : List St × St) =
          some (p :: caps, r))
      simp only [Prod.mk.injEq, List.cons.injEq] at h'
      obtain ⟨⟨h1, h2⟩, h3⟩ := h'
      subst h1
      subst h2
      subst h3
      rfl

/-- A star over a class-homogeneous token followed by a stopping state
takes the token whole as its capture. -/
theorem pmatch_star_token (cls : Char → Bool) (ps : List RPiece) :
    ∀ (t s : List Char) (caps : List St) (r : St),
      (∀ c ∈ t, cls c = true) → stopsCls cls s →
      pmatch ps s = some (caps, r) →
      pmatch (.star cls :: ps) (t ++ s) = some (t :: caps, r) := by
  intro t
  induction t with
  | nil =>
    intro s caps r _ hs h
    rw [List.nil_append, pmatch_star_stop cls ps s hs, h]
    rfl
  | cons c t ih =>
    intro s caps r ht hs h
    have hc : cls c = true := ht c (by simp)
    have hinner := ih s caps r (fun x hx => ht x (by simp [hx])) hs h
    show pmatch (.star cls :: ps) (c :: (t ++ s)) = some ((c :: t) :: caps, r)
    rw [pmatch]
    rw [show splitsDesc cls (c :: (t ++ s)) =
        ((splitsDesc cls (t ++ s)).map (fun pr => (c :: pr.1, pr.2))) ++
          [([], c :: (t ++ s))] from by simp [splitsDesc, hc]]
    rw [firstSome_append, firstSome_map]
    dsimp only
    rw [firstSome_cons_capture ps c (splitsDesc cls (t ++ s)) t caps r hinner]

/-- A plus over a single class character followed by a stopping state
consumes exactly that character. -/
theorem pmatch_plus_single (cls : Char → Bool) (ps : List RPiece) (c : Char)
    (s : List Char) (hc : cls c = true) (hs : stopsCls cls s) :
    pmatch (.plus cls :: ps) (c :: s) = pmatch ps s := by
  rw [pmatch]
  rw [show splitsDesc cls (c :: s) = [([c], s), ([], c :: s)] from by
    simp [splitsDesc, splitsDesc_stop cls s hs, hc]]
  simp only [firstSome]
  cases hpm : pmatch ps s with
  | some cr => simp
  | none => simp

/-! ## Number tokens and the coordinate patterns -/

/-- A number token: nonempty, all characters of the rendered-number
class. -/
def numTokP (t : List Char) : Prop :=
  t ≠ [] ∧ ∀ c ∈ t, numChar c = true

theorem decToString_numTokP (d : Dec) : numTokP (decToString d) :=
  ⟨decToString_ne_nil d, decToString_numChar d⟩

theorem stopsCls_nonWs_space (s : List Char) :
    stopsCls nonWs (' ' :: s) := by
  intro c hc
  injection hc with hc
  subst hc
  rfl

theorem stopsCls_ws_numTok (t : List Char) (rest : List Char)
    (h : numTokP t) : stopsCls isJsWs (t ++ rest) := by
  obtain ⟨hne, hcls⟩ := h
  cases t with
  | nil => exact absurd rfl hne
  | cons c cs =>
    intro x hx
    have hxc : x = c := (by simpa using hx : c = x).symm
    subst hxc
    exact (numChar_facts x (hcls x (by simp))).1

theorem stopsCls_delim (c : Char) (rest : List Char)
    (h : notWsCommaParen c = false) : stopsCls notWsCommaParen (c :: rest) := by
  intro x hx
  injection hx with hx
  subst hx
  exact h

theorem numTok_nonWs (t : List Char) (h : numTokP t) :
    ∀ c ∈ t, nonWs c = true := fun c hc =>
  (numChar_facts c (h.2 c hc)).2.1

theorem numTok_notWsCommaParen (t : List Char) (h : numTokP t) :
    ∀ c ∈ t, notWsCommaParen c = true := fun c hc =>
  (numChar_facts c (h.2 c hc)).2.2.1

theorem pmatch_coordPat2 (t1 t2 rest : List Char) (h1 : numTokP t1)
    (h2 : numTokP t2) (hstop : stopsCls notWsCommaParen rest) :
    pmatch coordPat2 (t1 ++ (' ' :: (t2 ++ rest))) = some ([t1, t2], rest) := by
  refine pmatch_star_token nonWs _ t1 _ [t2] rest (numTok_nonWs t1 h1)
    (stopsCls_nonWs_space _) ?_
  rw [pmatch_plus_single isJsWs _ ' ' (t2 ++ rest) rfl
    (stopsCls_ws_numTok t2 rest h2)]
  exact pmatch_star_token notWsCommaParen [] t2 rest [] rest
    (numTok_notWsCommaParen t2 h2) hstop rfl

theorem pmatch_coordPat3 (t1 t2 t3 rest : List Char) (h1 : numTokP t1)
    (h2 : numTokP t2) (h3 : numTokP t3)
    (hstop : stopsCls notWsCommaParen rest) :
    pmatch coordPat3 (t1 ++ (' ' :: (t2 ++ (' ' :: (t3 ++ rest))))) =
      some ([t1, t2, t3], rest) := by
  refine pmatch_star_token nonWs _ t1 _ [t2, t3] rest (numTok_nonWs t1 h1)
    (stopsCls_nonWs_space _) ?_
  rw [pmatch_plus_single isJsWs _ ' ' (t2 ++ (' ' :: (t3 ++ rest))) rfl
    (stopsCls_ws_numTok t2 _ h2)]
  refine pmatch_star_token nonWs _ t2 _ [t3] rest (numTok_nonWs t2 h2)
    (stopsCls_nonWs_space _) ?_
  rw [pmatch_plus_single isJsWs _ ' ' (t3 ++ rest) rfl
    (stopsCls_ws_numTok t3 rest h3)]
  exact pmatch_star_token notWsCommaParen [] t3 rest [] rest
    (numTok_notWsCommaParen t3 h3) hstop rfl

theorem pmatch_coordPat4 (t1 t2 t3 t4 rest : List Char) (h1 : numTokP t1)
    (h2 : numTokP t2) (h3 : numTokP t3) (h4 : numTokP t4)
    (hstop : stopsCls notWsCommaParen rest) :
    pmatch coordPat4
        (t1 ++ (' ' :: (t2 ++ (' ' :: (t3 ++ (' ' :: (t4 ++ rest))))))) =
      some ([t1, t2, t3, t4], rest) := by
  refine pmatch_star_token nonWs _ t1 _ [t2, t3, t4] rest (numTok_nonWs t1 h1)
    (stopsCls_nonWs_space _) ?_
  rw [pmatch_plus_single isJsWs _ ' ' _ rfl (stopsCls_ws_numTok t2 _ h2)]
  refine pmatch_star_token nonWs _ t2 _ [t3, t4] rest (numTok_nonWs t2 h2)
    (stopsCls_nonWs_space _) ?_
  rw [pmatch_plus_single isJsWs _ ' ' _ rfl (stopsCls_ws_numTok t3 _ h3)]
  refine pmatch_star_token nonWs _ t3 _ [t4] rest (numTok_nonWs t3 h3)
    (stopsCls_nonWs_space _) ?_
  rw [pmatch_plus_single isJsWs _ ' ' _ rfl (stopsCls_ws_numTok t4 rest h4)]
  exact pmatch_star_token notWsCommaParen [] t4 rest [] rest
    (numTok_notWsCommaParen t4 h4) hstop rfl

/-! ## Scanner states led by rendered tokens -/

theorem skipWhitespaces_cons (c : Char) (s : List Char)
    (h : (c == ' ') = false) : skipWhitespaces (c :: s) = c :: s := by
  simp [skipWhitespaces, List.dropWhile_cons, h]

theorem isMatch_false_head (t0 : Char) (tok : List Char) (c : Char)
    (s : List Char) (hws : (c == ' ') = false) (hne : (t0 == c) = false) :
    isMatch (t0 :: tok) (c :: s) = (false, c :: s) := by
  rw [isMatch, skipWhitespaces_cons c s hws]
  simp [startsWith, hne]

/-- The head character of a number-token state. -/
theorem numTok_head (t : List Char) (rest : List Char) (h : numTokP t) :
    ∃ c cs, t ++ rest = c :: cs ∧ numChar c = true := by
  obtain ⟨hne, hcls⟩ := h
  cases t with
  | nil => exact absurd rfl hne
  | cons c cs => exact ⟨c, cs ++ rest, rfl, hcls c (by simp)⟩

/-- `matchCoordinate` with no dimension flags and no SRID, on two
space-separated number tokens ended by a delimiter. -/
theorem matchCoordinate_two (o : WktOptions) (hz : o.hasZ = false)
    (hm : o.hasM = false) (hs : o.srid = none) (t1 t2 rest : List Char)
    (h1 : numTokP t1) (h2 : numTokP t2)
    (hstop : stopsCls notWsCommaParen rest) :
    matchCoordinate o (t1 ++ (' ' :: (t2 ++ rest))) =
      .ok ([parseFloat t1, parseFloat t2], rest) := by
  obtain ⟨c, cs, hcons, hc⟩ := numTok_head t1 (' ' :: (t2 ++ rest)) h1
  rw [matchCoordinate]
  simp only [hz, hm, hs, Bool.false_and, Bool.and_false, Bool.false_or,
    Bool.or_false, Bool.false_eq_true, if_false]
  rw [show skipWhitespaces (t1 ++ (' ' :: (t2 ++ rest))) =
      t1 ++ (' ' :: (t2 ++ rest)) from by
    rw [hcons]; exact skipWhitespaces_cons c cs (numChar_facts c hc).2.2.2.1]
  rw [pmatch_coordPat2 t1 t2 rest h1 h2 hstop]
  rfl

/-- `matchCoordinate` with `hasZ` (the `Z` form), on three tokens. -/
theorem matchCoordinate_three (o : WktOptions) (hz : o.hasZ = true)
    (hm : o.hasM = false) (hs : o.srid = none) (t1 t2 t3 rest : List Char)
    (h1 : numTokP t1) (h2 : numTokP t2) (h3 : numTokP t3)
    (hstop : stopsCls notWsCommaParen rest) :
    matchCoordinate o (t1 ++ (' ' :: (t2 ++ (' ' :: (t3 ++ rest))))) =
      .ok ([parseFloat t1, parseFloat t2, parseFloat t3], rest) := by
  obtain ⟨c, cs, hcons, hc⟩ := numTok_head t1 _ h1
  rw [matchCoordinate]
  simp only [hz, hm, hs, Bool.true_and, Bool.and_false, Bool.true_or,
    Bool.or_false, Bool.false_eq_true, Bool.true_eq_false, if_false,
    eq_self_iff_true, if_true]
  rw [show skipWhitespaces (t1 ++ (' ' :: (t2 ++ (' ' :: (t3 ++ rest))))) =
      t1 ++ (' ' :: (t2 ++ (' ' :: (t3 ++ rest)))) from by
    rw [hcons]; exact skipWhitespaces_cons c cs (numChar_facts c hc).2.2.2.1]
  rw [pmatch_coordPat3 t1 t2 t3 rest h1 h2 h3 hstop]
  rfl

/-! ## Rendered positions and coordinate lists -/

theorem stringifyCoordinate_two (d1 d2 : Dec) :
    stringifyCoordinate [.num d1, .num d2] =
      decToString d1 ++ (' ' :: decToString d2) := by
  show decToString d1 ++ [' '] ++ decToString d2 = _
  simp

theorem stringifyCoordinate_three (d1 d2 d3 : Dec) :
    stringifyCoordinate [.num d1, .num d2, .num d3] =
      decToString d1 ++ (' ' :: (decToString d2 ++ (' ' :: decToString d3))) := by
  show decToString d1 ++ [' '] ++ (decToString d2 ++ [' '] ++ decToString d3) = _
  simp

/-- Destructure a valid position of arity 2. -/
theorem posOk_two (p : Posn) (h : posOk 2 p = true) :
    ∃ d1 d2, p = [.num d1, .num d2] ∧ d1.canonical = true ∧
      d2.canonical = true := by
  match p, h with
  | [x1, x2], h =>
    simp only [posOk, List.all_cons, List.all_nil, Bool.and_true,
      Bool.and_eq_true, beq_iff_eq] at h
    obtain ⟨-, h1, h2⟩ := h
    match x1, x2, h1, h2 with
    | .num d1, .num d2, h1, h2 => exact ⟨d1, d2, rfl, by
        simpa [numOk] using h1, by simpa [numOk] using h2⟩

/-- Destructure a valid position of arity 3. -/
theorem posOk_three (p : Posn) (h : posOk 3 p = true) :
    ∃ d1 d2 d3, p = [.num d1, .num d2, .num d3] ∧ d1.canonical = true ∧
      d2.canonical = true ∧ d3.canonical = true := by
  match p, h with
  | [x1, x2, x3], h =>
    simp only [posOk, List.all_cons, List.all_nil, Bool.and_true,
      Bool.and_eq_true, beq_iff_eq] at h
    obtain ⟨-, h1, h2, h3⟩ := h
    match x1, x2, x3, h1, h2, h3 with
    | .num d1, .num d2, .num d3, h1, h2, h3 =>
      exact ⟨d1, d2, d3, rfl, by simpa [numOk] using h1,
        by simpa [numOk] using h2, by simpa [numOk] using h3⟩

/-- A valid position's rendering re-parses to the position itself
(arity 2, plain dimension flags). -/
theorem matchCoordinate_render2 (o : WktOptions) (hz : o.hasZ = false)
    (hm : o.hasM = false) (hs : o.srid = none) (p : Posn)
    (hp : posOk 2 p = true) (rest : List Char)
    (hstop : stopsCls notWsCommaParen rest) :
    matchCoordinate o (stringifyCoordinate p ++ rest) = .ok (p, rest) := by
  obtain ⟨d1, d2, rfl, hc1, hc2⟩ := posOk_two p hp
  rw [stringifyCoordinate_two, List.append_assoc, List.cons_append]
  rw [matchCoordinate_two o hz hm hs _ _ rest (decToString_numTokP d1)
    (decToString_numTokP d2) hstop]
  rw [parseFloat_decToString d1 hc1, parseFloat_decToString d2 hc2]

/-- Arity-3 version (the `Z` dimension). -/
theorem matchCoordinate_render3 (o : WktOptions) (hz : o.hasZ = true)
    (hm : o.hasM = false) (hs : o.srid = none) (p : Posn)
    (hp : posOk 3 p = true) (rest : List Char)
    (hstop : stopsCls notWsCommaParen rest) :
    matchCoordinate o (stringifyCoordinate p ++ rest) = .ok (p, rest) := by
  obtain ⟨d1, d2, d3, rfl, hc1, hc2, hc3⟩ := posOk_three p hp
  rw [stringifyCoordinate_three]
  rw [show (decToString d1 ++ (' ' :: (decToString d2 ++
      (' ' :: decToString d3)))) ++ rest =
    decToString d1 ++ (' ' :: (decToString d2 ++
      (' ' :: (decToString d3 ++ rest)))) from by simp]
  rw [matchCoordinate_three o hz hm hs _ _ _ rest (decToString_numTokP d1)
    (decToString_numTokP d2) (decToString_numTokP d3) hstop]
  rw [parseFloat_decToString d1 hc1, parseFloat_decToString d2 hc2,
    parseFloat_decToString d3 hc3]

/-- Hypothesis bundle: dimension flags consistent with arity `k`. -/
def arityFlags (k : Nat) (o : WktOptions) : Prop :=
  (k = 2 ∧ o.hasZ = false ∧ o.hasM = false) ∨
  (k = 3 ∧ o.hasZ = true ∧ o.hasM = false)

theorem matchCoordinate_render (k : Nat) (o : WktOptions)
    (ha : arityFlags k o) (hs : o.srid = none) (p : Posn)
    (hp : posOk k p = true) (rest : List Char)
    (hstop : stopsCls notWsCommaParen rest) :
    matchCoordinate o (stringifyCoordinate p ++ rest) = .ok (p, rest) := by
  rcases ha with ⟨hk, hz, hm⟩ | ⟨hk, hz, hm⟩
  · subst hk; exact matchCoordinate_render2 o hz hm hs p hp rest hstop
  · subst hk; exact matchCoordinate_render3 o hz hm hs p hp rest hstop

theorem render_head (k : Nat) (p : Posn) (hp : posOk k p = true)
    (hk : k = 2 ∨ k = 3) (x : List Char) :
    ∃ c cs, stringifyCoordinate p ++ x = c :: cs ∧ numChar c = true := by
  rcases hk with hk | hk
  · subst hk
    obtain ⟨d1, d2, rfl, -, -⟩ := posOk_two p hp
    rw [stringifyCoordinate_two]
    obtain ⟨c, cs, hcons, hc⟩ :=
      numTok_head (decToString d1) (' ' :: decToString d2 ++ x)
        (decToString_numTokP d1)
    exact ⟨c, cs, by rw [← hcons]; simp, hc⟩
  · subst hk
    obtain ⟨d1, d2, d3, rfl, -, -, -⟩ := posOk_three p hp
    rw [stringifyCoordinate_three]
    obtain ⟨c, cs, hcons, hc⟩ :=
      numTok_head (decToString d1)
        ((' ' :: (decToString d2 ++ (' ' :: decToString d3))) ++ x)
        (decToString_numTokP d1)
    exact ⟨c, cs, by rw [← hcons]; simp, hc⟩

theorem joinSep_cons2 (sep x y : List Char) (ys : List (List Char)) :
    joinSep sep (x :: y :: ys) = x ++ sep ++ joinSep sep (y :: ys) := rfl

/-- The coordinate-list loop on a rendered, comma-separated list of valid
positions terminated by `)`. -/
theorem matchCoordinatesLoop_render (k : Nat) (o : WktOptions)
    (ha : arityFlags k o) (hs : o.srid = none) :
    ∀ (ps : List Posn) (fuel : Nat) (acc : List Posn) (rest0 : List Char),
      ps ≠ [] → (∀ p ∈ ps, posOk k p = true) →
      (joinSep (",".data) (ps.map stringifyCoordinate)).length < fuel →
      matchCoordinatesLoop fuel o acc
          (joinSep (",".data) (ps.map stringifyCoordinate) ++ (')' :: rest0)) =
        .ok (acc ++ ps, ')' :: rest0) := by
  have hk2 : k = 2 ∨ k = 3 := by
    rcases ha with ⟨hk, -, -⟩ | ⟨hk, -, -⟩
    · exact Or.inl hk
    · exact Or.inr hk
  intro ps
  induction ps with
  | nil => intro fuel acc rest0 hne; exact absurd rfl hne
  | cons p ps ih =>
    intro fuel acc rest0 _ hall hfuel
    obtain ⟨fuel, rfl⟩ : ∃ f, fuel = f + 1 :=
      ⟨fuel - 1, by omega⟩
    have hp : posOk k p = true := hall p (by simp)
    cases ps with
    | nil =>
      simp only [List.map_cons, List.map_nil] at hfuel ⊢
      rw [show joinSep (",".data) [stringifyCoordinate p] =
        stringifyCoordinate p from rfl] at hfuel ⊢
      obtain ⟨c, cs, hcons, hc⟩ := render_head k p hp hk2 (')' :: rest0)
      rw [matchCoordinatesLoop]
      rw [show isMatch ("(".data)
          (stringifyCoordinate p ++ (')' :: rest0)) =
          (false, stringifyCoordinate p ++ (')' :: rest0)) from by
        rw [hcons]
        refine isMatch_false_head '(' [] c cs (numChar_facts c hc).2.2.2.1 ?_
        rcases numChar_cases c hc with h | h | h | h | h | h | h | h | h | h | h | h <;>
          subst h <;> rfl]
      rw [matchCoordinate_render k o ha hs p hp (')' :: rest0)
        (stopsCls_delim ')' rest0 rfl)]
      rfl
    | cons q qs =>
      simp only [List.map_cons] at hfuel ⊢
      rw [joinSep_cons2] at hfuel ⊢
      obtain ⟨c, cs, hcons, hc⟩ := render_head k p hp hk2
        (',' :: (joinSep (",".data)
          (stringifyCoordinate q :: qs.map stringifyCoordinate) ++
          (')' :: rest0)))
      rw [show (stringifyCoordinate p ++ (",".data) ++
          joinSep (",".data)
            (stringifyCoordinate q :: qs.map stringifyCoordinate)) ++
          (')' :: rest0) =
        stringifyCoordinate p ++ (',' :: (joinSep (",".data)
          (stringifyCoordinate q :: qs.map stringifyCoordinate) ++
          (')' :: rest0))) from by simp]
      rw [matchCoordinatesLoop]
      rw [show isMatch ("(".data)
          (stringifyCoordinate p ++ (',' :: (joinSep (",".data)
            (stringifyCoordinate q :: qs.map stringifyCoordinate) ++
            (')' :: rest0)))) =
          (false, stringifyCoordinate p ++ (',' :: (joinSep (",".data)
            (stringifyCoordinate q :: qs.map stringifyCoordinate) ++
            (')' :: rest0)))) from by
        rw [hcons]
        refine isMatch_false_head '(' [] c cs (numChar_facts c hc).2.2.2.1 ?_
        rcases numChar_cases c hc with h | h | h | h | h | h | h | h | h | h | h | h <;>
          subst h <;> rfl]
      rw [matchCoordinate_render k o ha hs p hp _
        (stopsCls_delim ',' _ rfl)]
      have hlen : stringifyCoordinate p ≠ [] := by
        obtain ⟨c0, cs0, hc0, -⟩ := render_head k p hp hk2 []
        intro hx
        rw [hx] at hc0
        simp at hc0
      have hfuel' : (joinSep (",".data)
          (stringifyCoordinate q :: qs.map stringifyCoordinate)).length < fuel := by
        have hpos : 0 < (stringifyCoordinate p).length :=
          List.length_pos.mpr hlen
        show (joinSep [','] (stringifyCoordinate q ::
          qs.map stringifyCoordinate)).length < fuel
        simp only [List.length_append] at hfuel
        omega
      have hih := ih fuel (acc ++ [p]) rest0 (by simp)
        (fun x hx => hall x (by simp [hx])) hfuel'
      simp only [List.map_cons] at hih
      show matchCoordinatesLoop fuel o (acc ++ [p])
          (joinSep (",".data)
            (stringifyCoordinate q :: qs.map stringifyCoordinate) ++
            (')' :: rest0)) =
        .ok (acc ++ p :: q :: qs, ')' :: rest0)
      rw [hih]
      simp

/-! ## Rendered ring/polygon bodies

Helper spellings (right-associated, cons-normal) of the serializer's
output, used to drive the loop lemmas. -/

/-- The coordinate list of one ring as the serializer renders it. -/
def coordsRender (r : List Posn) : St :=
  joinSep (",".data) (r.map stringifyCoordinate)

/-- `,(ring)` repeated — the state consumed by `ringsLoop`. -/
def ringsTail (rs : List (List Posn)) (rest : St) : St :=
  match rs with
  | [] => rest
  | r :: rs => ',' :: '(' :: (coordsRender r ++ (')' :: ringsTail rs rest))

/-- `(ring),(ring),…` — the state consumed by `mlsLoop` and by the
polygon production (first ring plus `ringsTail`). -/
def ringsBody (rs : List (List Posn)) (rest : St) : St :=
  match rs with
  | [] => rest
  | r :: rs => '(' :: (coordsRender r ++ (')' :: ringsTail rs rest))

/-- `(polygon),(polygon),…` — the state consumed by `mpolyLoop`. -/
def polysBody (ps : List (List (List Posn))) (rest : St) : St :=
  match ps with
  | [] => rest
  | [poly] => '(' :: ringsBody poly (')' :: rest)
  | poly :: ps => '(' :: ringsBody poly (')' :: (',' :: polysBody ps rest))

/-- The serializer's ring strings concatenate to `ringsBody`. -/
theorem joinSep_rings (rs : List (List Posn)) (X : St) (h : rs ≠ []) :
    joinSep (",".data)
        (rs.map (fun ring =>
          "(".data ++ joinSep (",".data) (ring.map stringifyCoordinate) ++
            ")".data)) ++ X = ringsBody rs X := by
  induction rs with
  | nil => exact absurd rfl h
  | cons r rs ih =>
    cases rs with
    | nil =>
      show ("(".data ++ joinSep (",".data) (r.map stringifyCoordinate) ++
        ")".data) ++ X = ringsBody [r] X
      rw [show ringsBody [r] X =
        '(' :: (coordsRender r ++ (')' :: X)) from rfl]
      simp [coordsRender]
    | cons r2 rs2 =>
      simp only [List.map_cons] at ih ⊢
      rw [joinSep_cons2]
      have hih := ih (by simp)
      rw [show ringsBody (r :: r2 :: rs2) X =
        '(' :: (coordsRender r ++ (')' :: (',' ::
          ringsBody (r2 :: rs2) X))) from rfl]
      rw [← hih]
      simp [coordsRender]

/-! ## Scanner-step kit: definitional evaluation on literal-headed states -/

theorem ok_bind {α β : Type} (a : α) (f : α → Except ParseErr β) :
    ((Except.ok a : Except ParseErr α) >>= f) = f a := rfl

theorem error_bind {α β : Type} (e : ParseErr)
    (f : α → Except ParseErr β) :
    ((Except.error e : Except ParseErr α) >>= f) = Except.error e := rfl

theorem expectGroupStart_lparen (X : St) :
    expectGroupStart ('(' :: X) = .ok ((), X) := rfl

theorem expectGroupEnd_rparen (X : St) :
    expectGroupEnd (')' :: X) = .ok ((), X) := rfl

theorem isMatch_comma_comma (X : St) :
    isMatch [','] (',' :: X) = (true, X) := rfl

theorem isMatch_comma_rparen (X : St) :
    isMatch [','] (')' :: X) = (false, ')' :: X) := rfl

theorem isMatch_lparen_lparen (X : St) :
    isMatch ['('] ('(' :: X) = (true, X) := rfl

/-! ## Lengths of rendered bodies -/

theorem ringsTail_length (rs : List (List Posn)) (X : St) :
    (ringsTail rs X).length = (ringsTail rs []).length + X.length := by
  induction rs with
  | nil => simp [ringsTail]
  | cons r rs ih =>
    show (',' :: '(' :: (coordsRender r ++ (')' :: ringsTail rs X))).length =
      (',' :: '(' :: (coordsRender r ++ (')' :: ringsTail rs []))).length +
        X.length
    simp only [List.length_cons, List.length_append, ih]
    omega

theorem ringsBody_length (rs : List (List Posn)) (X : St) :
    (ringsBody rs X).length = (ringsBody rs []).length + X.length := by
  cases rs with
  | nil => simp [ringsBody]
  | cons r rs =>
    show ('(' :: (coordsRender r ++ (')' :: ringsTail rs X))).length =
      ('(' :: (coordsRender r ++ (')' :: ringsTail rs []))).length + X.length
    have h1 := ringsTail_length rs X
    simp only [List.length_cons, List.length_append, List.length_nil, h1]
    omega

theorem polysBody_length (ps : List (List (List Posn))) (X : St) :
    (polysBody ps X).length = (polysBody ps []).length + X.length := by
  induction ps with
  | nil => simp [polysBody]
  | cons p ps ih =>
    cases ps with
    | nil =>
      show ('(' :: ringsBody p (')' :: X)).length =
        ('(' :: ringsBody p (')' :: ([] : St))).length + X.length
      have h1 := ringsBody_length p (')' :: X)
      have h2 := ringsBody_length p (')' :: ([] : St))
      simp only [List.length_cons, List.length_nil] at h1 h2 ⊢
      omega
    | cons q qs =>
      show ('(' :: ringsBody p
          (')' :: (',' :: polysBody (q :: qs) X))).length =
        ('(' :: ringsBody p
          (')' :: (',' :: polysBody (q :: qs) ([] : St)))).length + X.length
      have h1 := ringsBody_length p (')' :: (',' :: polysBody (q :: qs) X))
      have h2 := ringsBody_length p
        (')' :: (',' :: polysBody (q :: qs) ([] : St)))
      have h3 := ih
      simp only [List.length_cons, List.length_nil] at h1 h2 h3 ⊢
      omega

/-! ## The ring loops on rendered input -/

/-- `ringsLoop` consumes `,(ring)` groups until the closing `)`. -/
theorem ringsLoop_render (k : Nat) (o : WktOptions) (ha : arityFlags k o)
    (hs : o.srid = none) :
    ∀ (rs : List (List Posn)) (fuel : Nat) (acc : List (List Posn))
      (rest0 : St),
      (∀ r ∈ rs, r ≠ [] ∧ ∀ p ∈ r, posOk k p = true) →
      (ringsTail rs []).length < fuel →
      ringsLoop fuel o acc (ringsTail rs (')' :: rest0)) =
        .ok (acc ++ rs, ')' :: rest0) := by
  intro rs
  induction rs with
  | nil =>
    intro fuel acc rest0 _ hfuel
    obtain ⟨f, rfl⟩ : ∃ f, fuel = f + 1 := ⟨fuel - 1, by omega⟩
    rw [show ringsTail ([] : List (List Posn)) (')' :: rest0) =
      ')' :: rest0 from rfl]
    rw [show ringsLoop (f + 1) o acc (')' :: rest0) =
      .ok (acc, ')' :: rest0) from rfl]
    simp
  | cons r rs ih =>
    intro fuel acc rest0 hall hfuel
    obtain ⟨f, rfl⟩ : ∃ f, fuel = f + 1 := ⟨fuel - 1, by omega⟩
    obtain ⟨hrne, hrp⟩ := hall r (by simp)
    have hcoords : matchCoordinatesLoop f o []
        (coordsRender r ++ (')' :: ringsTail rs (')' :: rest0))) =
        .ok ([] ++ r, ')' :: ringsTail rs (')' :: rest0)) := by
      refine matchCoordinatesLoop_render k o ha hs r f [] _ hrne hrp ?_
      rw [ringsTail_length] at hfuel
      simp only [ringsTail, List.length_cons, List.length_append] at hfuel
      show (joinSep [','] (r.map stringifyCoordinate)).length < f
      simp only [coordsRender] at hfuel
      omega
    rw [List.nil_append] at hcoords
    have hih : ringsLoop f o (acc ++ [r]) (ringsTail rs (')' :: rest0)) =
        .ok ((acc ++ [r]) ++ rs, ')' :: rest0) := by
      refine ih f (acc ++ [r]) rest0 (fun x hx => hall x (by simp [hx])) ?_
      rw [ringsTail_length] at hfuel
      simp only [ringsTail, List.length_cons, List.length_append] at hfuel
      rw [ringsTail_length]
      simp
      omega
    rw [show ringsTail (r :: rs) (')' :: rest0) =
      ',' :: '(' :: (coordsRender r ++ (')' :: ringsTail rs (')' :: rest0)))
      from rfl]
    simp only [ringsLoop, isMatch_comma_comma, expectGroupStart_lparen,
      ok_bind, matchCoordinates, hcoords, expectGroupEnd_rparen]
    rw [hih]
    simp

/-- `mlsLoop` consumes `(ring)` then `,(ring)`s up to the closing `)`. -/
theorem mlsLoop_render (k : Nat) (o : WktOptions) (ha : arityFlags k o)
    (hs : o.srid = none) :
    ∀ (rs : List (List Posn)) (fuel : Nat) (acc : List (List Posn))
      (rest0 : St), rs ≠ [] →
      (∀ r ∈ rs, r ≠ [] ∧ ∀ p ∈ r, posOk k p = true) →
      (ringsBody rs []).length < fuel →
      mlsLoop fuel o acc (ringsBody rs (')' :: rest0)) =
        .ok (acc ++ rs, ')' :: rest0) := by
  intro rs
  induction rs with
  | nil => intro fuel acc rest0 hne; exact absurd rfl hne
  | cons r rs ih =>
    intro fuel acc rest0 _ hall hfuel
    obtain ⟨f, rfl⟩ : ∃ f, fuel = f + 1 := ⟨fuel - 1, by omega⟩
    obtain ⟨hrne, hrp⟩ := hall r (by simp)
    have hflen : (ringsBody (r :: rs) []).length =
        2 + (coordsRender r).length + (ringsTail rs []).length := by
      show ('(' :: (coordsRender r ++ (')' :: ringsTail rs []))).length = _
      simp only [List.length_cons, List.length_append]
      omega
    cases rs with
    | nil =>
      rw [show ringsBody [r] (')' :: rest0) =
        '(' :: (coordsRender r ++ (')' :: (')' :: rest0))) from rfl]
      have hcoords : matchCoordinatesLoop f o []
          (coordsRender r ++ (')' :: (')' :: rest0))) =
          .ok ([] ++ r, ')' :: (')' :: rest0)) := by
        refine matchCoordinatesLoop_render k o ha hs r f [] _ hrne hrp ?_
        rw [hflen] at hfuel
        show (joinSep [','] (r.map stringifyCoordinate)).length < f
        simp only [coordsRender] at hfuel
        omega
      rw [List.nil_append] at hcoords
      simp only [mlsLoop, expectGroupStart_lparen, ok_bind,
        matchCoordinates, hcoords, expectGroupEnd_rparen,
        isMatch_comma_rparen]
    | cons q qs =>
      rw [show ringsBody (r :: q :: qs) (')' :: rest0) =
        '(' :: (coordsRender r ++ (')' :: (',' ::
          ringsBody (q :: qs) (')' :: rest0)))) from rfl]
      have hcoords : matchCoordinatesLoop f o []
          (coordsRender r ++ (')' :: (',' ::
            ringsBody (q :: qs) (')' :: rest0)))) =
          .ok ([] ++ r, ')' :: (',' ::
            ringsBody (q :: qs) (')' :: rest0))) := by
        refine matchCoordinatesLoop_render k o ha hs r f [] _ hrne hrp ?_
        rw [hflen] at hfuel
        show (joinSep [','] (r.map stringifyCoordinate)).length < f
        simp only [coordsRender] at hfuel
        omega
      rw [List.nil_append] at hcoords
      have hih : mlsLoop f o (acc ++ [r])
          (ringsBody (q :: qs) (')' :: rest0)) =
          .ok ((acc ++ [r]) ++ (q :: qs), ')' :: rest0) := by
        refine ih f (acc ++ [r]) rest0 (by simp)
          (fun x hx => hall x (by simp [hx])) ?_
        rw [hflen] at hfuel
        have h1 : (ringsBody (q :: qs) ([] : St)).length =
            2 + (coordsRender q).length + (ringsTail qs []).length := by
          show ('(' :: (coordsRender q ++ (')' :: ringsTail qs []))).length = _
          simp only [List.length_cons, List.length_append]
          omega
        have h2 : (ringsTail (q :: qs) ([] : St)).length =
            3 + (coordsRender q).length + (ringsTail qs []).length := by
          show (',' :: '(' :: (coordsRender q ++
            (')' :: ringsTail qs []))).length = _
          simp only [List.length_cons, List.length_append]
          omega
        omega
      simp only [mlsLoop, expectGroupStart_lparen, ok_bind,
        matchCoordinates, hcoords, expectGroupEnd_rparen,
        isMatch_comma_comma]
      rw [hih]
      simp

/-- `mpolyLoop` consumes `((ring),(ring)…)` groups separated by commas. -/
theorem mpolyLoop_render (k : Nat) (o : WktOptions) (ha : arityFlags k o)
    (hs : o.srid = none) :
    ∀ (ps : List (List (List Posn))) (fuel : Nat)
      (acc : List (List (List Posn))) (rest0 : St), ps ≠ [] →
      (∀ poly ∈ ps, poly ≠ [] ∧
        ∀ r ∈ poly, r ≠ [] ∧ ∀ p ∈ r, posOk k p = true) →
      (polysBody ps []).length < fuel →
      mpolyLoop fuel o acc (polysBody ps (')' :: rest0)) =
        .ok (acc ++ ps, ')' :: rest0) := by
  intro ps
  induction ps with
  | nil => intro fuel acc rest0 hne; exact absurd rfl hne
  | cons poly ps ih =>
    intro fuel acc rest0 _ hall hfuel
    obtain ⟨f, rfl⟩ : ∃ f, fuel = f + 1 := ⟨fuel - 1, by omega⟩
    obtain ⟨hpne, hprings⟩ := hall poly (by simp)
    obtain ⟨ext, ints, rfl⟩ : ∃ e i, poly = e :: i := by
      cases hp : poly with
      | nil => exact absurd hp hpne
      | cons e i => exact ⟨e, i, rfl⟩
    obtain ⟨hextne, hextp⟩ := hprings ext (by simp)
    cases ps with
    | nil =>
      rw [show polysBody [ext :: ints] (')' :: rest0) =
        '(' :: '(' :: (coordsRender ext ++ (')' ::
          ringsTail ints (')' :: (')' :: rest0)))) from rfl]
      have hcoords : matchCoordinatesLoop f o []
          (coordsRender ext ++ (')' ::
            ringsTail ints (')' :: (')' :: rest0)))) =
          .ok ([] ++ ext, ')' ::
            ringsTail ints (')' :: (')' :: rest0))) := by
        refine matchCoordinatesLoop_render k o ha hs ext f [] _ hextne hextp ?_
        have h1 : (polysBody [ext :: ints] ([] : St)).length =
            4 + (coordsRender ext).length + (ringsTail ints []).length := by
          show ('(' :: '(' :: (coordsRender ext ++ (')' ::
            ringsTail ints [')']))).length = _
          simp only [List.length_cons, List.length_append,
            ringsTail_length ints [')'], List.length_singleton,
            List.length_nil]
          omega
        rw [h1] at hfuel
        show (joinSep [','] (ext.map stringifyCoordinate)).length < f
        simp only [coordsRender] at hfuel
        omega
      rw [List.nil_append] at hcoords
      have hrings : ringsLoop f o [ext]
          (ringsTail ints (')' :: (')' :: rest0))) =
          .ok ([ext] ++ ints, ')' :: (')' :: rest0)) := by
        refine ringsLoop_render k o ha hs ints f [ext] (')' :: rest0)
          (fun x hx => hprings x (by simp [hx])) ?_
        have h1 : (polysBody [ext :: ints] ([] : St)).length =
            4 + (coordsRender ext).length + (ringsTail ints []).length := by
          show ('(' :: '(' :: (coordsRender ext ++ (')' ::
            ringsTail ints [')']))).length = _
          simp only [List.length_cons, List.length_append,
            ringsTail_length ints [')'], List.length_singleton,
            List.length_nil]
          omega
        rw [h1] at hfuel
        omega
      simp only [mpolyLoop, expectGroupStart_lparen, ok_bind,
        matchCoordinates, hcoords, expectGroupEnd_rparen, hrings,
        isMatch_comma_rparen]
      simp
    | cons poly2 ps2 =>
      rw [show polysBody ((ext :: ints) :: poly2 :: ps2) (')' :: rest0) =
        '(' :: '(' :: (coordsRender ext ++ (')' ::
          ringsTail ints (')' :: (',' ::
            polysBody (poly2 :: ps2) (')' :: rest0))))) from rfl]
      have hlen1 : (polysBody ((ext :: ints) :: poly2 :: ps2)
          ([] : St)).length =
          5 + (coordsRender ext).length + (ringsTail ints []).length +
            (polysBody (poly2 :: ps2) []).length := by
        show ('(' :: '(' :: (coordsRender ext ++ (')' ::
          ringsTail ints (')' :: (',' ::
            polysBody (poly2 :: ps2) []))))).length = _
        simp only [List.length_cons, List.length_append,
          ringsTail_length ints (')' :: (',' ::
            polysBody (poly2 :: ps2) [])), List.length_nil]
        omega
      have hcoords : matchCoordinatesLoop f o []
          (coordsRender ext ++ (')' ::
            ringsTail ints (')' :: (',' ::
              polysBody (poly2 :: ps2) (')' :: rest0))))) =
          .ok ([] ++ ext, ')' ::
            ringsTail ints (')' :: (',' ::
              polysBody (poly2 :: ps2) (')' :: rest0)))) := by
        refine matchCoordinatesLoop_render k o ha hs ext f [] _ hextne hextp ?_
        rw [hlen1] at hfuel
        show (joinSep [','] (ext.map stringifyCoordinate)).length < f
        simp only [coordsRender] at hfuel
        omega
      rw [List.nil_append] at hcoords
      have hrings : ringsLoop f o [ext]
          (ringsTail ints (')' :: (',' ::
            polysBody (poly2 :: ps2) (')' :: rest0)))) =
          .ok ([ext] ++ ints, ')' :: (',' ::
            polysBody (poly2 :: ps2) (')' :: rest0))) := by
        refine ringsLoop_render k o ha hs ints f [ext] _
          (fun x hx => hprings x (by simp [hx])) ?_
        rw [hlen1] at hfuel
        omega
      have hih : mpolyLoop f o (acc ++ [ext :: ints])
          (polysBody (poly2 :: ps2) (')' :: rest0)) =
          .ok ((acc ++ [ext :: ints]) ++ (poly2 :: ps2), ')' :: rest0) := by
        refine ih f (acc ++ [ext :: ints]) rest0 (by simp)
          (fun x hx => hall x (by simp [hx])) ?_
        rw [hlen1] at hfuel
        omega
      simp only [mpolyLoop, expectGroupStart_lparen, ok_bind,
        matchCoordinates, hcoords, expectGroupEnd_rparen, hrings,
        isMatch_comma_comma, List.singleton_append]
      rw [hih]
      simp

/-! ## Linking the serializer strings to the cons-normal bodies -/

/-- The serializer's polygon strings concatenate to `polysBody`. -/
theorem joinSep_polys (ps : List (List (List Posn))) (X : St) (h : ps ≠ [])
    (hne : ∀ poly ∈ ps, poly ≠ []) :
    joinSep (",".data)
        (ps.map (fun poly =>
          "(".data ++
            joinSep (",".data)
              (poly.map (fun ring =>
                "(".data ++
                  joinSep (",".data) (ring.map stringifyCoordinate) ++
                  ")".data)) ++
            ")".data)) ++ X = polysBody ps X := by
  induction ps with
  | nil => exact absurd rfl h
  | cons p ps ih =>
    have hlink := joinSep_rings p
    cases ps with
    | nil =>
      show ("(".data ++ joinSep (",".data)
          (p.map (fun ring =>
            "(".data ++ joinSep (",".data) (ring.map stringifyCoordinate) ++
              ")".data)) ++ ")".data) ++ X = polysBody [p] X
      rw [show polysBody [p] X = '(' :: ringsBody p (')' :: X) from rfl]
      rw [← hlink (')' :: X) (hne p (by simp))]
      simp
    | cons q qs =>
      have hih := ih (by simp) (fun x hx => hne x (by simp [hx]))
      rw [show polysBody (p :: q :: qs) X =
        '(' :: ringsBody p (')' :: (',' :: polysBody (q :: qs) X)) from rfl]
      rw [← hih, ← hlink _ (hne p (by simp))]
      simp [joinSep_cons2]

/-- The serializer's collection-child strings concatenate to `gcBody`. -/
theorem joinSep_gc :
    ∀ (l : List (List Char)) (gs : GeometryList) (X : St),
      gcChildWkts gs = l →
      joinSep (",".data) (gcChildWkts gs) ++ X = gcBody gs X := by
  intro l
  induction l with
  | nil =>
    intro gs X h
    cases gs with
    | nil => simp [gcChildWkts, gcBody, joinSep]
    | cons g gs => simp [gcChildWkts] at h
  | cons x xs ih =>
    intro gs X h
    cases gs with
    | nil => simp [gcChildWkts] at h
    | cons g gs =>
      rw [show gcChildWkts (.cons g gs) = geoJSONToWkt g :: gcChildWkts gs
        from rfl] at h ⊢
      injection h with h1 h2
      cases gs with
      | nil =>
        rw [show gcChildWkts GeometryList.nil = [] from rfl]
        rw [show gcBody (.cons g .nil) X = geoJSONToWkt g ++ X from rfl]
        rfl
      | cons g2 gs2 =>
        rw [show gcBody (.cons g (.cons g2 gs2)) X =
          geoJSONToWkt g ++ (',' :: gcBody (.cons g2 gs2) X) from rfl]
        rw [← ih (.cons g2 gs2) X h2]
        rw [show gcChildWkts (.cons g2 gs2) =
          geoJSONToWkt g2 :: gcChildWkts gs2 from rfl]
        rw [joinSep_cons2]
        simp

/-- Rebuilding a collection from its child list is the identity. -/
theorem ofList_toList :
    ∀ (l : List Geometry) (gs : GeometryList), GeometryList.toList gs = l →
      GeometryList.ofList (GeometryList.toList gs) = gs := by
  intro l
  induction l with
  | nil =>
    intro gs h
    cases gs with
    | nil => rfl
    | cons g gs => simp [GeometryList.toList] at h
  | cons x xs ih =>
    intro gs h
    cases gs with
    | nil => simp [GeometryList.toList] at h
    | cons g gs =>
      rw [show GeometryList.toList (.cons g gs) =
        g :: GeometryList.toList gs from rfl] at h ⊢
      injection h with h1 h2
      rw [show GeometryList.ofList (g :: GeometryList.toList gs) =
        .cons g (GeometryList.ofList (GeometryList.toList gs)) from rfl]
      rw [ih gs h2]

/-! ## `EMPTY` never matches a rendered body -/

theorem isMatch_empty_lparen (X : St) :
    isMatch EMPTY ('(' :: X) = (false, '(' :: X) := rfl

theorem isMatch_empty_sp_lparen (X : St) :
    isMatch EMPTY (' ' :: '(' :: X) = (false, '(' :: X) := rfl

/-! ## The geometry productions on rendered input -/

/-- `parseWktPoint` on a rendered point body. -/
theorem parseWktPoint_render (k : Nat) (o : WktOptions) (ha : arityFlags k o)
    (hs : o.srid = none) (c : Posn) (hp : posOk k c = true) (st0 rest : St)
    (hempty : isMatch EMPTY st0 =
      (false, '(' :: (stringifyCoordinate c ++ (')' :: rest)))) :
    parseWktPoint o st0 = .ok (some (.point c), rest) := by
  have hc := matchCoordinate_render k o ha hs c hp (')' :: rest)
    (stopsCls_delim ')' rest rfl)
  simp only [parseWktPoint, hempty, expectGroupStart_lparen, ok_bind, hc,
    expectGroupEnd_rparen]

/-- `parseWktLineString` on a rendered coordinate list. -/
theorem parseWktLineString_render (k : Nat) (o : WktOptions)
    (ha : arityFlags k o) (hs : o.srid = none) (cs : List Posn) (f : Nat)
    (st0 rest : St) (hne : cs ≠ []) (hall : ∀ p ∈ cs, posOk k p = true)
    (hf : (coordsRender cs).length < f)
    (hempty : isMatch EMPTY st0 =
      (false, '(' :: (coordsRender cs ++ (')' :: rest)))) :
    parseWktLineString f o st0 = .ok (some (.lineString cs), rest) := by
  have hc : matchCoordinatesLoop f o [] (coordsRender cs ++ (')' :: rest)) =
      .ok ([] ++ cs, ')' :: rest) :=
    matchCoordinatesLoop_render k o ha hs cs f [] rest hne hall hf
  rw [List.nil_append] at hc
  simp only [parseWktLineString, hempty, expectGroupStart_lparen, ok_bind,
    matchCoordinates, hc, expectGroupEnd_rparen]

/-- `parseWktMultiPoint` on a rendered coordinate list. -/
theorem parseWktMultiPoint_render (k : Nat) (o : WktOptions)
    (ha : arityFlags k o) (hs : o.srid = none) (cs : List Posn) (f : Nat)
    (st0 rest : St) (hne : cs ≠ []) (hall : ∀ p ∈ cs, posOk k p = true)
    (hf : (coordsRender cs).length < f)
    (hempty : isMatch EMPTY st0 =
      (false, '(' :: (coordsRender cs ++ (')' :: rest)))) :
    parseWktMultiPoint f o st0 = .ok (some (.multiPoint cs), rest) := by
  have hc : matchCoordinatesLoop f o [] (coordsRender cs ++ (')' :: rest)) =
      .ok ([] ++ cs, ')' :: rest) :=
    matchCoordinatesLoop_render k o ha hs cs f [] rest hne hall hf
  rw [List.nil_append] at hc
  simp only [parseWktMultiPoint, hempty, expectGroupStart_lparen, ok_bind,
    matchCoordinates, hc, expectGroupEnd_rparen]

/-- `parseWktPolygon` on a rendered ring list. -/
theorem parseWktPolygon_render (k : Nat) (o : WktOptions)
    (ha : arityFlags k o) (hs : o.srid = none) (rs : List (List Posn))
    (f : Nat) (st0 rest : St) (hne : rs ≠ [])
    (hall : ∀ r ∈ rs, r ≠ [] ∧ ∀ p ∈ r, posOk k p = true)
    (hf : (ringsBody rs []).length < f)
    (hempty : isMatch EMPTY st0 =
      (false, '(' :: ringsBody rs (')' :: rest))) :
    parseWktPolygon f o st0 = .ok (some (.polygon rs), rest) := by
  obtain ⟨r1, rs1, rfl⟩ : ∃ a b, rs = a :: b := by
    cases hx : rs with
    | nil => exact absurd hx hne
    | cons a b => exact ⟨a, b, rfl⟩
  obtain ⟨h1ne, h1p⟩ := hall r1 (by simp)
  have hflen : (ringsBody (r1 :: rs1) ([] : St)).length =
      2 + (coordsRender r1).length + (ringsTail rs1 []).length := by
    show ('(' :: (coordsRender r1 ++ (')' :: ringsTail rs1 []))).length = _
    simp only [List.length_cons, List.length_append]
    omega
  rw [show ringsBody (r1 :: rs1) (')' :: rest) =
    '(' :: (coordsRender r1 ++ (')' :: ringsTail rs1 (')' :: rest)))
    from rfl] at hempty
  have hc : matchCoordinatesLoop f o []
      (coordsRender r1 ++ (')' :: ringsTail rs1 (')' :: rest))) =
      .ok ([] ++ r1, ')' :: ringsTail rs1 (')' :: rest)) := by
    refine matchCoordinatesLoop_render k o ha hs r1 f [] _ h1ne h1p ?_
    rw [hflen] at hf
    show (joinSep [','] (r1.map stringifyCoordinate)).length < f
    simp only [coordsRender] at hf
    omega
  rw [List.nil_append] at hc
  have hr : ringsLoop f o [r1] (ringsTail rs1 (')' :: rest)) =
      .ok ([r1] ++ rs1, ')' :: rest) := by
    refine ringsLoop_render k o ha hs rs1 f [r1] rest
      (fun x hx => hall x (by simp [hx])) ?_
    rw [hflen] at hf
    omega
  simp only [parseWktPolygon, hempty, expectGroupStart_lparen, ok_bind,
    matchCoordinates, hc, expectGroupEnd_rparen, hr, List.singleton_append]

/-- `parseWktMultiLineString` on a rendered line list. -/
theorem parseWktMultiLineString_render (k : Nat) (o : WktOptions)
    (ha : arityFlags k o) (hs : o.srid = none) (rs : List (List Posn))
    (f : Nat) (st0 rest : St) (hne : rs ≠ [])
    (hall : ∀ r ∈ rs, r ≠ [] ∧ ∀ p ∈ r, posOk k p = true)
    (hf : (ringsBody rs []).length < f)
    (hempty : isMatch EMPTY st0 =
      (false, '(' :: ringsBody rs (')' :: rest))) :
    parseWktMultiLineString f o st0 =
      .ok (some (.multiLineString rs), rest) := by
  have hm : mlsLoop f o [] (ringsBody rs (')' :: rest)) =
      .ok ([] ++ rs, ')' :: rest) :=
    mlsLoop_render k o ha hs rs f [] rest hne hall hf
  rw [List.nil_append] at hm
  simp only [parseWktMultiLineString, hempty, expectGroupStart_lparen,
    ok_bind, hm, expectGroupEnd_rparen]

/-- `parseWktMultiPolygon` on a rendered polygon list. -/
theorem parseWktMultiPolygon_render (k : Nat) (o : WktOptions)
    (ha : arityFlags k o) (hs : o.srid = none)
    (ps : List (List (List Posn))) (f : Nat) (st0 rest : St) (hne : ps ≠ [])
    (hall : ∀ poly ∈ ps, poly ≠ [] ∧
      ∀ r ∈ poly, r ≠ [] ∧ ∀ p ∈ r, posOk k p = true)
    (hf : (polysBody ps []).length < f)
    (hempty : isMatch EMPTY st0 =
      (false, '(' :: polysBody ps (')' :: rest))) :
    parseWktMultiPolygon f o st0 = .ok (some (.multiPolygon ps), rest) := by
  have hm : mpolyLoop f o [] (polysBody ps (')' :: rest)) =
      .ok ([] ++ ps, ')' :: rest) :=
    mpolyLoop_render k o ha hs ps f [] rest hne hall hf
  rw [List.nil_append] at hm
  simp only [parseWktMultiPolygon, hempty, expectGroupStart_lparen,
    ok_bind, hm, expectGroupEnd_rparen]

/-! ## `wktToGeoJSONinner` on one rendered geometry

The header (no SRID prefix, the keyword, the dimension token, the
dispatch) reduces definitionally on the cons-normal rendering; the body is
handled by the production lemmas above. -/

theorem posOk_length (k : Nat) (p : Posn) (h : posOk k p = true) :
    p.length = k := by
  simp only [posOk, Bool.and_eq_true, beq_iff_eq] at h
  exact h.1

/-- Parsing the rendering of a valid point. -/
theorem inner_render_point (uo : WktUserOptions) (c : Posn)
    (hv : geomValid (.point c) = true) (f : Nat) (rest : St) :
    wktToGeoJSONinner (f + 1) uo (geoJSONToWkt (.point c) ++ rest) =
      .ok (some (.point c), rest) := by
  have hv2 : posOk 2 c = true ∨ posOk 3 c = true := by
    simpa only [geomValid, Bool.or_eq_true] using hv
  rcases hv2 with hp | hp
  · have hlen := posOk_length 2 c hp
    have hrender : geoJSONToWkt (Geometry.point c) ++ rest =
        'P' :: 'O' :: 'I' :: 'N' :: 'T' :: ' ' :: '(' ::
          (stringifyCoordinate c ++ (')' :: rest)) := by
      show stringifyPoint c ++ rest = _
      rw [stringifyPoint, if_neg (by omega)]
      rw [show stringifyZM (some c) =
        (if c.length = 3 then " Z ".data else " ".data) from rfl,
        if_neg (by omega)]
      simp
    rw [hrender]
    rw [show wktToGeoJSONinner (f + 1) uo
        ('P' :: 'O' :: 'I' :: 'N' :: 'T' :: ' ' :: '(' ::
          (stringifyCoordinate c ++ (')' :: rest))) =
      parseWktPoint
        { toWktUserOptions := uo, srid := none, hasZ := false,
          hasM := false }
        ('(' :: (stringifyCoordinate c ++ (')' :: rest))) from rfl]
    exact parseWktPoint_render 2 _ (Or.inl ⟨rfl, rfl, rfl⟩) rfl c hp _ rest
      rfl
  · have hlen := posOk_length 3 c hp
    have hrender : geoJSONToWkt (Geometry.point c) ++ rest =
        'P' :: 'O' :: 'I' :: 'N' :: 'T' :: ' ' :: 'Z' :: ' ' :: '(' ::
          (stringifyCoordinate c ++ (')' :: rest)) := by
      show stringifyPoint c ++ rest = _
      rw [stringifyPoint, if_neg (by omega)]
      rw [show stringifyZM (some c) =
        (if c.length = 3 then " Z ".data else " ".data) from rfl,
        if_pos hlen]
      simp
    rw [hrender]
    rw [show wktToGeoJSONinner (f + 1) uo
        ('P' :: 'O' :: 'I' :: 'N' :: 'T' :: ' ' :: 'Z' :: ' ' :: '(' ::
          (stringifyCoordinate c ++ (')' :: rest))) =
      parseWktPoint
        { toWktUserOptions := uo, srid := none, hasZ := true,
          hasM := false }
        (' ' :: '(' :: (stringifyCoordinate c ++ (')' :: rest))) from rfl]
    exact parseWktPoint_render 3 _ (Or.inr ⟨rfl, rfl, rfl⟩) rfl c hp _ rest
      rfl

/-- Parsing the rendering of a valid line string. -/
theorem inner_render_linestring (uo : WktUserOptions) (cs : List Posn)
    (hv : geomValid (.lineString cs) = true) (f : Nat) (rest : St)
    (hfuel : (geoJSONToWkt (.lineString cs)).length < f + 1) :
    wktToGeoJSONinner (f + 1) uo (geoJSONToWkt (.lineString cs) ++ rest) =
      .ok (some (.lineString cs), rest) := by
  simp only [geomValid, Bool.and_eq_true, Bool.or_eq_true,
    Bool.not_eq_true', List.all_eq_true] at hv
  obtain ⟨hv1, hv2⟩ := hv
  obtain ⟨c0, cs', rfl⟩ : ∃ a b, cs = a :: b := by
    cases hx : cs with
    | nil => rw [hx] at hv1; simp [List.isEmpty] at hv1
    | cons a b => exact ⟨a, b, rfl⟩
  rcases hv2 with hall | hall
  · have hlen0 := posOk_length 2 c0 (hall c0 (by simp))
    have hrender : ∀ R : St,
        geoJSONToWkt (Geometry.lineString (c0 :: cs')) ++ R =
        'L' :: 'I' :: 'N' :: 'E' :: 'S' :: 'T' :: 'R' :: 'I' :: 'N' ::
          'G' :: ' ' :: '(' :: (coordsRender (c0 :: cs') ++ (')' :: R)) := by
      intro R
      show stringifyLineString (c0 :: cs') ++ R = _
      rw [stringifyLineString, if_neg (by simp)]
      rw [show (c0 :: cs').head? = some c0 from rfl]
      rw [show stringifyZM (some c0) =
        (if c0.length = 3 then " Z ".data else " ".data) from rfl,
        if_neg (by omega)]
      simp [coordsRender]
    have hlen2 := congrArg List.length (hrender [])
    simp only [List.length_append, List.length_cons, List.length_nil]
      at hlen2
    have hf : (coordsRender (c0 :: cs')).length < f := by omega
    rw [hrender rest]
    rw [show wktToGeoJSONinner (f + 1) uo
        ('L' :: 'I' :: 'N' :: 'E' :: 'S' :: 'T' :: 'R' :: 'I' :: 'N' ::
          'G' :: ' ' :: '(' ::
          (coordsRender (c0 :: cs') ++ (')' :: rest))) =
      parseWktLineString f
        { toWktUserOptions := uo, srid := none, hasZ := false,
          hasM := false }
        ('(' :: (coordsRender (c0 :: cs') ++ (')' :: rest))) from rfl]
    exact parseWktLineString_render 2 _ (Or.inl ⟨rfl, rfl, rfl⟩) rfl
      (c0 :: cs') f _ rest (by simp) hall hf rfl
  · have hlen0 := posOk_length 3 c0 (hall c0 (by simp))
    have hrender : ∀ R : St,
        geoJSONToWkt (Geometry.lineString (c0 :: cs')) ++ R =
        'L' :: 'I' :: 'N' :: 'E' :: 'S' :: 'T' :: 'R' :: 'I' :: 'N' ::
          'G' :: ' ' :: 'Z' :: ' ' :: '(' ::
          (coordsRender (c0 :: cs') ++ (')' :: R)) := by
      intro R
      show stringifyLineString (c0 :: cs') ++ R = _
      rw [stringifyLineString, if_neg (by simp)]
      rw [show (c0 :: cs').head? = some c0 from rfl]
      rw [show stringifyZM (some c0) =
        (if c0.length = 3 then " Z ".data else " ".data) from rfl,
        if_pos hlen0]
      simp [coordsRender]
    have hlen2 := congrArg List.length (hrender [])
    simp only [List.length_append, List.length_cons, List.length_nil]
      at hlen2
    have hf : (coordsRender (c0 :: cs')).length < f := by omega
    rw [hrender rest]
    rw [show wktToGeoJSONinner (f + 1) uo
        ('L' :: 'I' :: 'N' :: 'E' :: 'S' :: 'T' :: 'R' :: 'I' :: 'N' ::
          'G' :: ' ' :: 'Z' :: ' ' :: '(' ::
          (coordsRender (c0 :: cs') ++ (')' :: rest))) =
      parseWktLineString f
        { toWktUserOptions := uo, srid := none, hasZ := true,
          hasM := false }
        (' ' :: '(' :: (coordsRender (c0 :: cs') ++ (')' :: rest)))
        from rfl]
    exact parseWktLineString_render 3 _ (Or.inr ⟨rfl, rfl, rfl⟩) rfl
      (c0 :: cs') f _ rest (by simp) hall hf rfl

/-- Parsing the rendering of a valid multi-point. -/
theorem inner_render_multipoint (uo : WktUserOptions) (cs : List Posn)
    (hv : geomValid (.multiPoint cs) = true) (f : Nat) (rest : St)
    (hfuel : (geoJSONToWkt (.multiPoint cs)).length < f + 1) :
    wktToGeoJSONinner (f + 1) uo (geoJSONToWkt (.multiPoint cs) ++ rest) =
      .ok (some (.multiPoint cs), rest) := by
  simp only [geomValid, Bool.and_eq_true, Bool.or_eq_true,
    Bool.not_eq_true', List.all_eq_true] at hv
  obtain ⟨hv1, hv2⟩ := hv
  obtain ⟨c0, cs', rfl⟩ : ∃ a b, cs = a :: b := by
    cases hx : cs with
    | nil => rw [hx] at hv1; simp [List.isEmpty] at hv1
    | cons a b => exact ⟨a, b, rfl⟩
  rcases hv2 with hall | hall
  · have hlen0 := posOk_length 2 c0 (hall c0 (by simp))
    have hrender : ∀ R : St,
        geoJSONToWkt (Geometry.multiPoint (c0 :: cs')) ++ R =
        'M' :: 'U' :: 'L' :: 'T' :: 'I' :: 'P' :: 'O' :: 'I' :: 'N' ::
          'T' :: ' ' :: '(' :: (coordsRender (c0 :: cs') ++ (')' :: R)) := by
      intro R
      show stringifyMultiPoint (c0 :: cs') ++ R = _
      rw [stringifyMultiPoint, if_neg (by simp)]
      rw [show (c0 :: cs').head? = some c0 from rfl]
      rw [show stringifyZM (some c0) =
        (if c0.length = 3 then " Z ".data else " ".data) from rfl,
        if_neg (by omega)]
      simp [coordsRender]
    have hlen2 := congrArg List.length (hrender [])
    simp only [List.length_append, List.length_cons, List.length_nil]
      at hlen2
    have hf : (coordsRender (c0 :: cs')).length < f := by omega
    rw [hrender rest]
    rw [show wktToGeoJSONinner (f + 1) uo
        ('M' :: 'U' :: 'L' :: 'T' :: 'I' :: 'P' :: 'O' :: 'I' :: 'N' ::
          'T' :: ' ' :: '(' ::
          (coordsRender (c0 :: cs') ++ (')' :: rest))) =
      parseWktMultiPoint f
        { toWktUserOptions := uo, srid := none, hasZ := false,
          hasM := false }
        ('(' :: (coordsRender (c0 :: cs') ++ (')' :: rest))) from rfl]
    exact parseWktMultiPoint_render 2 _ (Or.inl ⟨rfl, rfl, rfl⟩) rfl
      (c0 :: cs') f _ rest (by simp) hall hf rfl
  · have hlen0 := posOk_length 3 c0 (hall c0 (by simp))
    have hrender : ∀ R : St,
        geoJSONToWkt (Geometry.multiPoint (c0 :: cs')) ++ R =
        'M' :: 'U' :: 'L' :: 'T' :: 'I' :: 'P' :: 'O' :: 'I' :: 'N' ::
          'T' :: ' ' :: 'Z' :: ' ' :: '(' ::
          (coordsRender (c0 :: cs') ++ (')' :: R)) := by
      intro R
      show stringifyMultiPoint (c0 :: cs') ++ R = _
      rw [stringifyMultiPoint, if_neg (by simp)]
      rw [show (c0 :: cs').head? = some c0 from rfl]
      rw [show stringifyZM (some c0) =
        (if c0.length = 3 then " Z ".data else " ".data) from rfl,
        if_pos hlen0]
      simp [coordsRender]
    have hlen2 := congrArg List.length (hrender [])
    simp only [List.length_append, List.length_cons, List.length_nil]
      at hlen2
    have hf : (coordsRender (c0 :: cs')).length < f := by omega
    rw [hrender rest]
    rw [show wktToGeoJSONinner (f + 1) uo
        ('M' :: 'U' :: 'L' :: 'T' :: 'I' :: 'P' :: 'O' :: 'I' :: 'N' ::
          'T' :: ' ' :: 'Z' :: ' ' :: '(' ::
          (coordsRender (c0 :: cs') ++ (')' :: rest))) =
      parseWktMultiPoint f
        { toWktUserOptions := uo, srid := none, hasZ := true,
          hasM := false }
        (' ' :: '(' :: (coordsRender (c0 :: cs') ++ (')' :: rest)))
        from rfl]
    exact parseWktMultiPoint_render 3 _ (Or.inr ⟨rfl, rfl, rfl⟩) rfl
      (c0 :: cs') f _ rest (by simp) hall hf rfl

theorem ne_nil_of_isEmpty_false {α : Type} (l : List α)
    (h : l.isEmpty = false) : l ≠ [] := by
  cases l with
  | nil => simp [List.isEmpty] at h
  | cons a l => simp

/-- Parsing the rendering of a valid polygon. -/
theorem inner_render_polygon (uo : WktUserOptions) (rs : List (List Posn))
    (hv : geomValid (.polygon rs) = true) (f : Nat) (rest : St)
    (hfuel : (geoJSONToWkt (.polygon rs)).length < f + 1) :
    wktToGeoJSONinner (f + 1) uo (geoJSONToWkt (.polygon rs) ++ rest) =
      .ok (some (.polygon rs), rest) := by
  simp only [geomValid, Bool.and_eq_true, Bool.or_eq_true,
    Bool.not_eq_true', List.all_eq_true] at hv
  obtain ⟨⟨hv1, hv2⟩, hv3⟩ := hv
  obtain ⟨r0, rs', rfl⟩ : ∃ a b, rs = a :: b := by
    cases hx : rs with
    | nil => rw [hx] at hv1; simp [List.isEmpty] at hv1
    | cons a b => exact ⟨a, b, rfl⟩
  obtain ⟨c0, r0', rfl⟩ : ∃ a b, r0 = a :: b := by
    cases hx : r0 with
    | nil =>
      have := hv2 r0 (by simp)
      rw [hx] at this; simp [List.isEmpty] at this
    | cons a b => exact ⟨a, b, rfl⟩
  rcases hv3 with hall | hall
  · have hallk : ∀ r ∈ (c0 :: r0') :: rs', r ≠ [] ∧
        ∀ p ∈ r, posOk 2 p = true :=
      fun r hr => ⟨ne_nil_of_isEmpty_false r (hv2 r hr), hall r hr⟩
    have hlen0 := posOk_length 2 c0
      ((hallk (c0 :: r0') (by simp)).2 c0 (by simp))
    have hrender : ∀ R : St,
        geoJSONToWkt (Geometry.polygon ((c0 :: r0') :: rs')) ++ R =
        'P' :: 'O' :: 'L' :: 'Y' :: 'G' :: 'O' :: 'N' :: ' ' :: '(' ::
          ringsBody ((c0 :: r0') :: rs') (')' :: R) := by
      intro R
      show stringifyPolygon ((c0 :: r0') :: rs') ++ R = _
      rw [stringifyPolygon, if_neg (by simp)]
      rw [show stringifyZM (((c0 :: r0') :: rs').head?.bind List.head?) =
        (if c0.length = 3 then " Z ".data else " ".data) from rfl,
        if_neg (by omega)]
      rw [← joinSep_rings ((c0 :: r0') :: rs') (')' :: R) (by simp)]
      simp
    have hlen2 := congrArg List.length (hrender [])
    simp only [List.length_append, List.length_cons, List.length_nil]
      at hlen2
    have h3 := ringsBody_length ((c0 :: r0') :: rs') (')' :: ([] : St))
    simp only [List.length_cons, List.length_nil] at h3
    have hf : (ringsBody ((c0 :: r0') :: rs') []).length < f := by omega
    rw [hrender rest]
    rw [show wktToGeoJSONinner (f + 1) uo
        ('P' :: 'O' :: 'L' :: 'Y' :: 'G' :: 'O' :: 'N' :: ' ' :: '(' ::
          ringsBody ((c0 :: r0') :: rs') (')' :: rest)) =
      parseWktPolygon f
        { toWktUserOptions := uo, srid := none, hasZ := false,
          hasM := false }
        ('(' :: ringsBody ((c0 :: r0') :: rs') (')' :: rest)) from rfl]
    exact parseWktPolygon_render 2 _ (Or.inl ⟨rfl, rfl, rfl⟩) rfl
      ((c0 :: r0') :: rs') f _ rest (by simp) hallk hf rfl
  · have hallk : ∀ r ∈ (c0 :: r0') :: rs', r ≠ [] ∧
        ∀ p ∈ r, posOk 3 p = true :=
      fun r hr => ⟨ne_nil_of_isEmpty_false r (hv2 r hr), hall r hr⟩
    have hlen0 := posOk_length 3 c0
      ((hallk (c0 :: r0') (by simp)).2 c0 (by simp))
    have hrender : ∀ R : St,
        geoJSONToWkt (Geometry.polygon ((c0 :: r0') :: rs')) ++ R =
        'P' :: 'O' :: 'L' :: 'Y' :: 'G' :: 'O' :: 'N' :: ' ' :: 'Z' ::
          ' ' :: '(' :: ringsBody ((c0 :: r0') :: rs') (')' :: R) := by
      intro R
      show stringifyPolygon ((c0 :: r0') :: rs') ++ R = _
      rw [stringifyPolygon, if_neg (by simp)]
      rw [show stringifyZM (((c0 :: r0') :: rs').head?.bind List.head?) =
        (if c0.length = 3 then " Z ".data else " ".data) from rfl,
        if_pos hlen0]
      rw [← joinSep_rings ((c0 :: r0') :: rs') (')' :: R) (by simp)]
      simp
    have hlen2 := congrArg List.length (hrender [])
    simp only [List.length_append, List.length_cons, List.length_nil]
      at hlen2
    have h3 := ringsBody_length ((c0 :: r0') :: rs') (')' :: ([] : St))
    simp only [List.length_cons, List.length_nil] at h3
    have hf : (ringsBody ((c0 :: r0') :: rs') []).length < f := by omega
    rw [hrender rest]
    rw [show wktToGeoJSONinner (f + 1) uo
        ('P' :: 'O' :: 'L' :: 'Y' :: 'G' :: 'O' :: 'N' :: ' ' :: 'Z' ::
          ' ' :: '(' :: ringsBody ((c0 :: r0') :: rs') (')' :: rest)) =
      parseWktPolygon f
        { toWktUserOptions := uo, srid := none, hasZ := true,
          hasM := false }
        (' ' :: '(' :: ringsBody ((c0 :: r0') :: rs') (')' :: rest))
        from rfl]
    exact parseWktPolygon_render 3 _ (Or.inr ⟨rfl, rfl, rfl⟩) rfl
      ((c0 :: r0') :: rs') f _ rest (by simp) hallk hf rfl

/-- Parsing the rendering of a valid multi-line-string. -/
theorem inner_render_mls (uo : WktUserOptions) (rs : List (List Posn))
    (hv : geomValid (.multiLineString rs) = true) (f : Nat) (rest : St)
    (hfuel : (geoJSONToWkt (.multiLineString rs)).length < f + 1) :
    wktToGeoJSONinner (f + 1) uo
        (geoJSONToWkt (.multiLineString rs) ++ rest) =
      .ok (some (.multiLineString rs), rest) := by
  simp only [geomValid, Bool.and_eq_true, Bool.or_eq_true,
    Bool.not_eq_true', List.all_eq_true] at hv
  obtain ⟨⟨hv1, hv2⟩, hv3⟩ := hv
  obtain ⟨r0, rs', rfl⟩ : ∃ a b, rs = a :: b := by
    cases hx : rs with
    | nil => rw [hx] at hv1; simp [List.isEmpty] at hv1
    | cons a b => exact ⟨a, b, rfl⟩
  obtain ⟨c0, r0', rfl⟩ : ∃ a b, r0 = a :: b := by
    cases hx : r0 with
    | nil =>
      have := hv2 r0 (by simp)
      rw [hx] at this; simp [List.isEmpty] at this
    | cons a b => exact ⟨a, b, rfl⟩
  rcases hv3 with hall | hall
  · have hallk : ∀ r ∈ (c0 :: r0') :: rs', r ≠ [] ∧
        ∀ p ∈ r, posOk 2 p = true :=
      fun r hr => ⟨ne_nil_of_isEmpty_false r (hv2 r hr), hall r hr⟩
    have hlen0 := posOk_length 2 c0
      ((hallk (c0 :: r0') (by simp)).2 c0 (by simp))
    have hrender : ∀ R : St,
        geoJSONToWkt (Geometry.multiLineString ((c0 :: r0') :: rs')) ++ R =
        'M' :: 'U' :: 'L' :: 'T' :: 'I' :: 'L' :: 'I' :: 'N' :: 'E' ::
          'S' :: 'T' :: 'R' :: 'I' :: 'N' :: 'G' :: ' ' :: '(' ::
          ringsBody ((c0 :: r0') :: rs') (')' :: R) := by
      intro R
      show stringifyMultiLineString ((c0 :: r0') :: rs') ++ R = _
      rw [stringifyMultiLineString, if_neg (by simp)]
      rw [show stringifyZM (((c0 :: r0') :: rs').head?.bind List.head?) =
        (if c0.length = 3 then " Z ".data else " ".data) from rfl,
        if_neg (by omega)]
      rw [← joinSep_rings ((c0 :: r0') :: rs') (')' :: R) (by simp)]
      simp
    have hlen2 := congrArg List.length (hrender [])
    simp only [List.length_append, List.length_cons, List.length_nil]
      at hlen2
    have h3 := ringsBody_length ((c0 :: r0') :: rs') (')' :: ([] : St))
    simp only [List.length_cons, List.length_nil] at h3
    have hf : (ringsBody ((c0 :: r0') :: rs') []).length < f := by omega
    rw [hrender rest]
    rw [show wktToGeoJSONinner (f + 1) uo
        ('M' :: 'U' :: 'L' :: 'T' :: 'I' :: 'L' :: 'I' :: 'N' :: 'E' ::
          'S' :: 'T' :: 'R' :: 'I' :: 'N' :: 'G' :: ' ' :: '(' ::
          ringsBody ((c0 :: r0') :: rs') (')' :: rest)) =
      parseWktMultiLineString f
        { toWktUserOptions := uo, srid := none, hasZ := false,
          hasM := false }
        ('(' :: ringsBody ((c0 :: r0') :: rs') (')' :: rest)) from rfl]
    exact parseWktMultiLineString_render 2 _ (Or.inl ⟨rfl, rfl, rfl⟩) rfl
      ((c0 :: r0') :: rs') f _ rest (by simp) hallk hf rfl
  · have hallk : ∀ r ∈ (c0 :: r0') :: rs', r ≠ [] ∧
        ∀ p ∈ r, posOk 3 p = true :=
      fun r hr => ⟨ne_nil_of_isEmpty_false r (hv2 r hr), hall r hr⟩
    have hlen0 := posOk_length 3 c0
      ((hallk (c0 :: r0') (by simp)).2 c0 (by simp))
    have hrender : ∀ R : St,
        geoJSONToWkt (Geometry.multiLineString ((c0 :: r0') :: rs')) ++ R =
        'M' :: 'U' :: 'L' :: 'T' :: 'I' :: 'L' :: 'I' :: 'N' :: 'E' ::
          'S' :: 'T' :: 'R' :: 'I' :: 'N' :: 'G' :: ' ' :: 'Z' :: ' ' ::
          '(' :: ringsBody ((c0 :: r0') :: rs') (')' :: R) := by
      intro R
      show stringifyMultiLineString ((c0 :: r0') :: rs') ++ R = _
      rw [stringifyMultiLineString, if_neg (by simp)]
      rw [show stringifyZM (((c0 :: r0') :: rs').head?.bind List.head?) =
        (if c0.length = 3 then " Z ".data else " ".data) from rfl,
        if_pos hlen0]
      rw [← joinSep_rings ((c0 :: r0') :: rs') (')' :: R) (by simp)]
      simp
    have hlen2 := congrArg List.length (hrender [])
    simp only [List.length_append, List.length_cons, List.length_nil]
      at hlen2
    have h3 := ringsBody_length ((c0 :: r0') :: rs') (')' :: ([] : St))
    simp only [List.length_cons, List.length_nil] at h3
    have hf : (ringsBody ((c0 :: r0') :: rs') []).length < f := by omega
    rw [hrender rest]
    rw [show wktToGeoJSONinner (f + 1) uo
        ('M' :: 'U' :: 'L' :: 'T' :: 'I' :: 'L' :: 'I' :: 'N' :: 'E' ::
          'S' :: 'T' :: 'R' :: 'I' :: 'N' :: 'G' :: ' ' :: 'Z' :: ' ' ::
          '(' :: ringsBody ((c0 :: r0') :: rs') (')' :: rest)) =
      parseWktMultiLineString f
        { toWktUserOptions := uo, srid := none, hasZ := true,
          hasM := false }
        (' ' :: '(' :: ringsBody ((c0 :: r0') :: rs') (')' :: rest))
        from rfl]
    exact parseWktMultiLineString_render 3 _ (Or.inr ⟨rfl, rfl, rfl⟩) rfl
      ((c0 :: r0') :: rs') f _ rest (by simp) hallk hf rfl

/-- Parsing the rendering of a valid multi-polygon. -/
theorem inner_render_mpoly (uo : WktUserOptions)
    (ps : List (List (List Posn)))
    (hv : geomValid (.multiPolygon ps) = true) (f : Nat) (rest : St)
    (hfuel : (geoJSONToWkt (.multiPolygon ps)).length < f + 1) :
    wktToGeoJSONinner (f + 1) uo
        (geoJSONToWkt (.multiPolygon ps) ++ rest) =
      .ok (some (.multiPolygon ps), rest) := by
  simp only [geomValid, Bool.and_eq_true, Bool.or_eq_true,
    Bool.not_eq_true', List.all_eq_true] at hv
  obtain ⟨⟨hv1, hv2⟩, hv3⟩ := hv
  obtain ⟨p0, ps', rfl⟩ : ∃ a b, ps = a :: b := by
    cases hx : ps with
    | nil => rw [hx] at hv1; simp [List.isEmpty] at hv1
    | cons a b => exact ⟨a, b, rfl⟩
  obtain ⟨r0, p0', rfl⟩ : ∃ a b, p0 = a :: b := by
    cases hx : p0 with
    | nil =>
      have := (hv2 p0 (by simp)).1
      rw [hx] at this; simp [List.isEmpty] at this
    | cons a b => exact ⟨a, b, rfl⟩
  obtain ⟨c0, r0', rfl⟩ : ∃ a b, r0 = a :: b := by
    cases hx : r0 with
    | nil =>
      have := (hv2 (r0 :: p0') (by simp)).2 r0 (by simp)
      rw [hx] at this; simp [List.isEmpty] at this
    | cons a b => exact ⟨a, b, rfl⟩
  rcases hv3 with hall | hall
  · have hallk : ∀ poly ∈ ((c0 :: r0') :: p0') :: ps', poly ≠ [] ∧
        ∀ r ∈ poly, r ≠ [] ∧ ∀ p ∈ r, posOk 2 p = true :=
      fun poly hpoly =>
        ⟨ne_nil_of_isEmpty_false poly (hv2 poly hpoly).1,
         fun r hr =>
           ⟨ne_nil_of_isEmpty_false r ((hv2 poly hpoly).2 r hr),
            hall poly hpoly r hr⟩⟩
    have hlen0 := posOk_length 2 c0
      (((hallk ((c0 :: r0') :: p0') (by simp)).2 (c0 :: r0')
        (by simp)).2 c0 (by simp))
    have hrender : ∀ R : St,
        geoJSONToWkt
            (Geometry.multiPolygon (((c0 :: r0') :: p0') :: ps')) ++ R =
        'M' :: 'U' :: 'L' :: 'T' :: 'I' :: 'P' :: 'O' :: 'L' :: 'Y' ::
          'G' :: 'O' :: 'N' :: ' ' :: '(' ::
          polysBody (((c0 :: r0') :: p0') :: ps') (')' :: R) := by
      intro R
      show stringifyMultiPolygon (((c0 :: r0') :: p0') :: ps') ++ R = _
      rw [stringifyMultiPolygon, if_neg (by simp)]
      rw [show stringifyZM
          (((((c0 :: r0') :: p0') :: ps').head?.bind
            List.head?).bind List.head?) =
        (if c0.length = 3 then " Z ".data else " ".data) from rfl,
        if_neg (by omega)]
      rw [← joinSep_polys (((c0 :: r0') :: p0') :: ps') (')' :: R)
        (by simp) (fun x hx => (hallk x hx).1)]
      simp
    have hlen2 := congrArg List.length (hrender [])
    simp only [List.length_append, List.length_cons, List.length_nil]
      at hlen2
    have h3 := polysBody_length (((c0 :: r0') :: p0') :: ps')
      (')' :: ([] : St))
    simp only [List.length_cons, List.length_nil] at h3
    have hf : (polysBody (((c0 :: r0') :: p0') :: ps') []).length < f := by
      omega
    rw [hrender rest]
    rw [show wktToGeoJSONinner (f + 1) uo
        ('M' :: 'U' :: 'L' :: 'T' :: 'I' :: 'P' :: 'O' :: 'L' :: 'Y' ::
          'G' :: 'O' :: 'N' :: ' ' :: '(' ::
          polysBody (((c0 :: r0') :: p0') :: ps') (')' :: rest)) =
      parseWktMultiPolygon f
        { toWktUserOptions := uo, srid := none, hasZ := false,
          hasM := false }
        ('(' :: polysBody (((c0 :: r0') :: p0') :: ps') (')' :: rest))
        from rfl]
    exact parseWktMultiPolygon_render 2 _ (Or.inl ⟨rfl, rfl, rfl⟩) rfl
      (((c0 :: r0') :: p0') :: ps') f _ rest (by simp) hallk hf rfl
  · have hallk : ∀ poly ∈ ((c0 :: r0') :: p0') :: ps', poly ≠ [] ∧
        ∀ r ∈ poly, r ≠ [] ∧ ∀ p ∈ r, posOk 3 p = true :=
      fun poly hpoly =>
        ⟨ne_nil_of_isEmpty_false poly (hv2 poly hpoly).1,
         fun r hr =>
           ⟨ne_nil_of_isEmpty_false r ((hv2 poly hpoly).2 r hr),
            hall poly hpoly r hr⟩⟩
    have hlen0 := posOk_length 3 c0
      (((hallk ((c0 :: r0') :: p0') (by simp)).2 (c0 :: r0')
        (by simp)).2 c0 (by simp))
    have hrender : ∀ R : St,
        geoJSONToWkt
            (Geometry.multiPolygon (((c0 :: r0') :: p0') :: ps')) ++ R =
        'M' :: 'U' :: 'L' :: 'T' :: 'I' :: 'P' :: 'O' :: 'L' :: 'Y' ::
          'G' :: 'O' :: 'N' :: ' ' :: 'Z' :: ' ' :: '(' ::
          polysBody (((c0 :: r0') :: p0') :: ps') (')' :: R) := by
      intro R
      show stringifyMultiPolygon (((c0 :: r0') :: p0') :: ps') ++ R = _
      rw [stringifyMultiPolygon, if_neg (by simp)]
      rw [show stringifyZM
          (((((c0 :: r0') :: p0') :: ps').head?.bind
            List.head?).bind List.head?) =
        (if c0.length = 3 then " Z ".data else " ".data) from rfl,
        if_pos hlen0]
      rw [← joinSep_polys (((c0 :: r0') :: p0') :: ps') (')' :: R)
        (by simp) (fun x hx => (hallk x hx).1)]
      simp
    have hlen2 := congrArg List.length (hrender [])
    simp only [List.length_append, List.length_cons, List.length_nil]
      at hlen2
    have h3 := polysBody_length (((c0 :: r0') :: p0') :: ps')
      (')' :: ([] : St))
    simp only [List.length_cons, List.length_nil] at h3
    have hf : (polysBody (((c0 :: r0') :: p0') :: ps') []).length < f := by
      omega
    rw [hrender rest]
    rw [show wktToGeoJSONinner (f + 1) uo
        ('M' :: 'U' :: 'L' :: 'T' :: 'I' :: 'P' :: 'O' :: 'L' :: 'Y' ::
          'G' :: 'O' :: 'N' :: ' ' :: 'Z' :: ' ' :: '(' ::
          polysBody (((c0 :: r0') :: p0') :: ps') (')' :: rest)) =
      parseWktMultiPolygon f
        { toWktUserOptions := uo, srid := none, hasZ := true,
          hasM := false }
        (' ' :: '(' ::
          polysBody (((c0 :: r0') :: p0') :: ps') (')' :: rest))
        from rfl]
    exact parseWktMultiPolygon_render 3 _ (Or.inr ⟨rfl, rfl, rfl⟩) rfl
      (((c0 :: r0') :: p0') :: ps') f _ rest (by simp) hallk hf rfl

theorem gcBody_length (gs : GeometryList) (X : St) :
    (gcBody gs X).length = (gcBody gs []).length + X.length := by
  have e1 := congrArg List.length (joinSep_gc (gcChildWkts gs) gs X rfl)
  have e2 := congrArg List.length
    (joinSep_gc (gcChildWkts gs) gs ([] : St) rfl)
  simp only [List.length_append, List.length_nil] at e1 e2
  omega

/-- The collection loop on a rendered child list, given that smaller fuels
already parse any rendered valid geometry. -/
theorem gcLoop_render (o : WktOptions) (F : Nat)
    (IH : ∀ f2, f2 < F → ∀ (uo2 : WktUserOptions) (g2 : Geometry)
      (rest2 : St), geomValid g2 = true →
      (geoJSONToWkt g2).length < f2 →
      wktToGeoJSONinner f2 uo2 (geoJSONToWkt g2 ++ rest2) =
        .ok (some g2, rest2)) :
    ∀ (fuel : Nat), fuel ≤ F → ∀ (gs : GeometryList) (acc : List Geometry)
      (rest0 : St), gs ≠ .nil → glValid gs = true →
      (gcBody gs []).length + 1 < fuel →
      gcLoop fuel o acc (gcBody gs (')' :: rest0)) =
        .ok (acc ++ GeometryList.toList gs, ')' :: rest0) := by
  intro fuel
  induction fuel with
  | zero => intro _ gs _ _ _ _ hlen; omega
  | succ f ihf =>
    intro hF gs acc rest0 hne hval hlen
    cases gs with
    | nil => exact absurd rfl hne
    | cons g gs =>
      have hval2 : geomValid g = true ∧ glValid gs = true := by
        simpa only [glValid, Bool.and_eq_true] using hval
      cases gs with
      | nil =>
        rw [show gcBody (.cons g .nil) (')' :: rest0) =
          geoJSONToWkt g ++ (')' :: rest0) from rfl]
        have hlen1 : (geoJSONToWkt g).length < f := by
          rw [show gcBody (.cons g .nil) ([] : St) =
            geoJSONToWkt g ++ ([] : St) from rfl] at hlen
          simp only [List.length_append, List.length_nil] at hlen
          omega
        have hinner := IH f (by omega) o.toWktUserOptions g (')' :: rest0)
          hval2.1 hlen1
        simp only [gcLoop, hinner, ok_bind, isMatch_comma_rparen]
        simp [GeometryList.toList]
      | cons g2 gs2 =>
        rw [show gcBody (.cons g (.cons g2 gs2)) (')' :: rest0) =
          geoJSONToWkt g ++ (',' :: gcBody (.cons g2 gs2) (')' :: rest0))
          from rfl]
        have hlenEq : (gcBody (.cons g (.cons g2 gs2)) ([] : St)).length =
            (geoJSONToWkt g).length + 1 +
              (gcBody (.cons g2 gs2) ([] : St)).length := by
          rw [show gcBody (.cons g (.cons g2 gs2)) ([] : St) =
            geoJSONToWkt g ++ (',' :: gcBody (.cons g2 gs2) ([] : St))
            from rfl]
          simp only [List.length_append, List.length_cons]
          omega
        have hlen1 : (geoJSONToWkt g).length < f := by
          rw [hlenEq] at hlen; omega
        have hinner := IH f (by omega) o.toWktUserOptions g
          (',' :: gcBody (.cons g2 gs2) (')' :: rest0)) hval2.1 hlen1
        have hih := ihf (by omega) (.cons g2 gs2) (acc ++ [g]) rest0
          (by intro h; exact GeometryList.noConfusion h) hval2.2
          (by rw [hlenEq] at hlen; omega)
        simp only [gcLoop, hinner, ok_bind, isMatch_comma_comma]
        rw [hih]
        simp [GeometryList.toList]

/-- Parsing the rendering of a valid, non-empty geometry collection. -/
theorem inner_render_gc (uo : WktUserOptions) (gs : GeometryList)
    (hv : geomValid (.geometryCollection gs) = true) (f : Nat) (rest : St)
    (hfuel : (geoJSONToWkt (.geometryCollection gs)).length < f + 1)
    (IH : ∀ f2, f2 < f + 1 → ∀ (uo2 : WktUserOptions) (g2 : Geometry)
      (rest2 : St), geomValid g2 = true →
      (geoJSONToWkt g2).length < f2 →
      wktToGeoJSONinner f2 uo2 (geoJSONToWkt g2 ++ rest2) =
        .ok (some g2, rest2)) :
    wktToGeoJSONinner (f + 1) uo
        (geoJSONToWkt (.geometryCollection gs) ++ rest) =
      .ok (some (.geometryCollection gs), rest) := by
  have hv2 : gs.isEmpty = false ∧ glValid gs = true := by
    simpa only [geomValid, Bool.and_eq_true, Bool.not_eq_true'] using hv
  have hne : gs ≠ .nil := by
    intro h
    rw [h] at hv2
    exact absurd hv2.1 (by simp [GeometryList.isEmpty])
  have hrender : ∀ R : St,
      geoJSONToWkt (Geometry.geometryCollection gs) ++ R =
      'G' :: 'E' :: 'O' :: 'M' :: 'E' :: 'T' :: 'R' :: 'Y' :: 'C' :: 'O' ::
        'L' :: 'L' :: 'E' :: 'C' :: 'T' :: 'I' :: 'O' :: 'N' :: '(' ::
        gcBody gs (')' :: R) := by
    intro R
    show (if gs.isEmpty then "GEOMETRYCOLLECTION EMPTY".data
      else "GEOMETRYCOLLECTION".data ++ "(".data ++
        joinSep (",".data) (gcChildWkts gs) ++ ")".data) ++ R = _
    rw [if_neg (by simp [hv2.1])]
    rw [← joinSep_gc (gcChildWkts gs) gs (')' :: R) rfl]
    simp
  have hlen2 := congrArg List.length (hrender [])
  simp only [List.length_append, List.length_cons, List.length_nil]
    at hlen2
  have h3 := gcBody_length gs (')' :: ([] : St))
  simp only [List.length_cons, List.length_nil] at h3
  obtain ⟨f2, rfl⟩ : ∃ f2, f = f2 + 1 := ⟨f - 1, by omega⟩
  have hloop : gcLoop f2
      { toWktUserOptions := uo, srid := none, hasZ := false,
        hasM := false } [] (gcBody gs (')' :: rest)) =
      .ok ([] ++ GeometryList.toList gs, ')' :: rest) := by
    refine gcLoop_render _ (f2 + 1 + 1) IH f2 (by omega) gs [] rest hne
      hv2.2 (by omega)
  rw [List.nil_append] at hloop
  rw [hrender rest]
  rw [show wktToGeoJSONinner (f2 + 1 + 1) uo
      ('G' :: 'E' :: 'O' :: 'M' :: 'E' :: 'T' :: 'R' :: 'Y' :: 'C' ::
        'O' :: 'L' :: 'L' :: 'E' :: 'C' :: 'T' :: 'I' :: 'O' :: 'N' ::
        '(' :: gcBody gs (')' :: rest)) =
    parseWktGeometryCollection (f2 + 1)
      { toWktUserOptions := uo, srid := none, hasZ := false,
        hasM := false }
      ('(' :: gcBody gs (')' :: rest)) from rfl]
  simp only [parseWktGeometryCollection, isMatch_empty_lparen,
    expectGroupStart_lparen, ok_bind, hloop, expectGroupEnd_rparen]
  rw [ofList_toList (GeometryList.toList gs) gs rfl]

/-- Parsing inverts rendering: on the WKT rendering of any structurally
valid GeoJSON geometry (followed by arbitrary text), the parser
reconstructs exactly that geometry and leaves the trailing text
unconsumed. -/
theorem parse_render :
    ∀ (fuel : Nat) (uo : WktUserOptions) (g : Geometry) (rest : St),
      geomValid g = true → (geoJSONToWkt g).length < fuel →
      wktToGeoJSONinner fuel uo (geoJSONToWkt g ++ rest) =
        .ok (some g, rest) := by
  intro fuel
  induction fuel using Nat.strong_induction_on with
  | h fuel IH =>
    intro uo g rest hv hlen
    obtain ⟨f, rfl⟩ : ∃ f, fuel = f + 1 := ⟨fuel - 1, by omega⟩
    cases g with
    | point c => exact inner_render_point uo c hv f rest
    | lineString cs => exact inner_render_linestring uo cs hv f rest hlen
    | polygon rs => exact inner_render_polygon uo rs hv f rest hlen
    | multiPoint cs => exact inner_render_multipoint uo cs hv f rest hlen
    | multiLineString rs => exact inner_render_mls uo rs hv f rest hlen
    | multiPolygon ps => exact inner_render_mpoly uo ps hv f rest hlen
    | geometryCollection gs => exact inner_render_gc uo gs hv f rest hlen IH

/-- `matchCoordinate` with `hasM` only: three tokens consumed, two
stored. -/
theorem matchCoordinate_m (o : WktOptions) (hz : o.hasZ = false)
    (hm : o.hasM = true) (hs : o.srid = none) (t1 t2 t3 rest : List Char)
    (h1 : numTokP t1) (h2 : numTokP t2) (h3 : numTokP t3)
    (hstop : stopsCls notWsCommaParen rest) :
    matchCoordinate o (t1 ++ (' ' :: (t2 ++ (' ' :: (t3 ++ rest))))) =
      .ok ([parseFloat t1, parseFloat t2], rest) := by
  obtain ⟨c, cs, hcons, hc⟩ := numTok_head t1 _ h1
  rw [matchCoordinate]
  simp only [hz, hm, hs, Bool.false_and, Bool.and_false, Bool.false_or,
    Bool.or_true, Bool.true_or, Bool.false_eq_true, Bool.true_eq_false,
    if_false, if_true, eq_self_iff_true]
  rw [show skipWhitespaces (t1 ++ (' ' :: (t2 ++ (' ' :: (t3 ++ rest))))) =
      t1 ++ (' ' :: (t2 ++ (' ' :: (t3 ++ rest)))) from by
    rw [hcons]; exact skipWhitespaces_cons c cs (numChar_facts c hc).2.2.2.1]
  rw [pmatch_coordPat3 t1 t2 t3 rest h1 h2 h3 hstop]
  rfl

/-- Spec-model coordinate production on two rendered tokens. -/
theorem matchCoordinateSpec_two (o : SpecOptions) (hz : o.hasZ = false)
    (hm : o.hasM = false) (t1 t2 rest : List Char)
    (h1 : numTokP t1) (h2 : numTokP t2)
    (hstop : stopsCls notWsCommaParen rest) :
    matchCoordinateSpec o (t1 ++ (' ' :: (t2 ++ rest))) =
      (match resolveCrsSpec o [parseFloat t1, parseFloat t2] with
        | .ok p => .ok (p, rest)
        | .error e => .error e) := by
  obtain ⟨c, cs, hcons, hc⟩ := numTok_head t1 (' ' :: (t2 ++ rest)) h1
  rw [matchCoordinateSpec]
  simp only [hz, hm, Bool.false_and, Bool.and_false, Bool.false_or,
    Bool.or_false, Bool.false_eq_true, if_false]
  rw [show skipWhitespaces (t1 ++ (' ' :: (t2 ++ rest))) =
      t1 ++ (' ' :: (t2 ++ rest)) from by
    rw [hcons]; exact skipWhitespaces_cons c cs (numChar_facts c hc).2.2.2.1]
  rw [pmatch_coordPat2 t1 t2 rest h1 h2 hstop]
  rfl

/-! # The claims -/

/-- C1 (amended): for every structurally valid GeoJSON geometry with
non-empty coordinate arrays at every level, all-finite coordinates and a
uniform position arity of 2 or 3, parsing the serialized form returns
exactly the same value, under every options value.  (The claim's arity-4
case and its empty-array instances are refuted by
`C1_round_trip_counterexample`.) -/
theorem C1_round_trip (g : Geometry) (uo : WktUserOptions)
    (hv : geomValid g = true) :
    wktToGeoJSON (geoJSONToWkt g) uo = .ok (some g) := by
  have h := parse_render ((geoJSONToWkt g).length + 1) uo g [] hv (by omega)
  rw [List.append_nil] at h
  show (wktToGeoJSONinner ((geoJSONToWkt g).length + 1) uo
    (geoJSONToWkt g)).map (fun r => r.1) = .ok (some g)
  rw [h]
  rfl

theorem C1_round_trip_witness :
    geomValid (Geometry.point [jnum 1 0, jnum 20 0]) = true ∧
    wktToGeoJSON (geoJSONToWkt (Geometry.point [jnum 1 0, jnum 20 0]))
        defaultWktUserOptions =
      .ok (some (Geometry.point [jnum 1 0, jnum 20 0])) :=
  ⟨rfl, C1_round_trip (Geometry.point [jnum 1 0, jnum 20 0])
    defaultWktUserOptions rfl⟩

/-- A structurally valid arity-4 point does not round-trip (the
serializer emits no `ZM` token, so re-parsing reads the four numbers with
the two-number pattern and fails), and an empty multi-point round-trips to
`null` under the default options, not to itself. -/
theorem C1_round_trip_counterexample :
    wktToGeoJSON
        (geoJSONToWkt (Geometry.point [jnum 1 0, jnum 2 0, jnum 3 0,
          jnum 4 0])) defaultWktUserOptions =
      .error (.err "Expected group end") ∧
    wktToGeoJSON (geoJSONToWkt (Geometry.multiPoint []))
        defaultWktUserOptions = .ok none :=
  ⟨rfl, rfl⟩

/-- C2: the revision under test matches keywords case-sensitively: the
repository's own lower-case test input `point (-1.5 20.5)` throws
`Expected geometry type`, while the upper-case spelling parses. -/
theorem C2_case_sensitive_keyword :
    wktToGeoJSON ("point (-1.5 20.5)".data) defaultWktUserOptions =
        .error (.err "Expected geometry type") ∧
      wktToGeoJSON ("POINT (-1.5 20.5)".data) defaultWktUserOptions =
        .ok (some (.point [jnum (-15) (-1), jnum 205 (-1)])) :=
  ⟨rfl, rfl⟩

/-- C3 (amended): the CRS prefix is re-read per nested geometry, not once
per invocation: an outer `SRID=3857;` on a GeometryCollection is dropped
for the children (they parse unchanged under every options value, no
`proj` needed), while an `SRID=3857;` prefix on a child inside the
collection body is consumed there and reprojects that child. -/
theorem C3_crs_per_child :
    (∀ uo : WktUserOptions,
      wktToGeoJSON ("SRID=3857;GEOMETRYCOLLECTION(POINT(1 2))".data) uo =
        .ok (some (.geometryCollection
          (.cons (.point [jnum 1 0, jnum 2 0]) .nil)))) ∧
    (∀ f : String → String → Posn → Posn,
      wktToGeoJSON ("GEOMETRYCOLLECTION(SRID=3857;POINT(1 2))".data)
          { emptyAsNull := some true, proj := some f } =
        .ok (some (.geometryCollection
          (.cons (.point (f "EPSG:3857" "EPSG:4326" [jnum 1 0, jnum 2 0]))
            .nil)))) := by
  refine ⟨fun uo => rfl, fun f => ?_⟩
  rw [show ("EPSG:3857" : String) = "EPSG:" ++ toString (3857 : Nat)
    from rfl]
  rfl

/-- An outer non-4326 SRID on a GeometryCollection body parses without a
`proj` callback and without reprojection — the claim predicts an error
here. -/
theorem C3_crs_counterexample :
    wktToGeoJSON ("SRID=3857;GEOMETRYCOLLECTION(POINT(1 2))".data)
        defaultWktUserOptions =
      .ok (some (.geometryCollection
        (.cons (.point [jnum 1 0, jnum 2 0]) .nil))) := rfl

/-- C4 (amended): for every kind, `<K> EMPTY` parses to `null` when the
options argument is omitted (default `{emptyAsNull: true}`) and to the
typed empty geometry under `{emptyAsNull: false}`.  (An options value
that leaves `emptyAsNull` unset does not fall back to the default — see
`C4_empty_counterexample`.) -/
theorem C4_empty_handling :
    wktToGeoJSON ("POINT EMPTY".data) = .ok none ∧
    wktToGeoJSON ("LINESTRING EMPTY".data) = .ok none ∧
    wktToGeoJSON ("POLYGON EMPTY".data) = .ok none ∧
    wktToGeoJSON ("MULTIPOINT EMPTY".data) = .ok none ∧
    wktToGeoJSON ("MULTILINESTRING EMPTY".data) = .ok none ∧
    wktToGeoJSON ("MULTIPOLYGON EMPTY".data) = .ok none ∧
    wktToGeoJSON ("GEOMETRYCOLLECTION EMPTY".data) = .ok none ∧
    wktToGeoJSON ("POINT EMPTY".data)
      { emptyAsNull := some false, proj := none } =
        .ok (some (.point [])) ∧
    wktToGeoJSON ("LINESTRING EMPTY".data)
      { emptyAsNull := some false, proj := none } =
        .ok (some (.lineString [])) ∧
    wktToGeoJSON ("POLYGON EMPTY".data)
      { emptyAsNull := some false, proj := none } =
        .ok (some (.polygon [])) ∧
    wktToGeoJSON ("MULTIPOINT EMPTY".data)
      { emptyAsNull := some false, proj := none } =
        .ok (some (.multiPoint [])) ∧
    wktToGeoJSON ("MULTILINESTRING EMPTY".data)
      { emptyAsNull := some false, proj := none } =
        .ok (some (.multiLineString [])) ∧
    wktToGeoJSON ("MULTIPOLYGON EMPTY".data)
      { emptyAsNull := some false, proj := none } =
        .ok (some (.multiPolygon [])) ∧
    wktToGeoJSON ("GEOMETRYCOLLECTION EMPTY".data)
      { emptyAsNull := some false, proj := none } =
        .ok (some (.geometryCollection .nil)) :=
  ⟨rfl, rfl, rfl, rfl, rfl, rfl, rfl, rfl, rfl, rfl, rfl, rfl, rfl, rfl⟩

/-- Passing an options object that leaves `emptyAsNull` unset (the JS
`{}`) yields the typed empty geometry, not `null`: the default applies
only when the argument is omitted entirely. -/
theorem C4_empty_counterexample :
    wktToGeoJSON ("POINT EMPTY".data)
        { emptyAsNull := none, proj := none } =
      .ok (some (.point [])) := rfl

/-- C5 (amended): the SRID gate of `matchCoordinate` is applied per
geometry, to every coordinate parsed under that geometry's own `SRID=`
prefix (a collection child re-reads its own prefix, so an outer SRID does
not govern it — see C3).  Under an SRID `n` with `n` neither 0 nor 4326:
with `proj` absent no coordinate can be produced, so the parse of that
geometry fails at its first coordinate with the unknown-SRID error; with
`proj` supplied, every successfully parsed position is the return value
of `proj("EPSG:<n>", "EPSG:4326", ·)`.  With no prefix, `SRID=4326`, or
the falsy `SRID=0`, coordinate parsing equals the CRS-free parse —
positions pass through unchanged and `proj` is never consulted — and
the end-to-end instances at the bottom ground each regime. -/
theorem C5_srid_resolution :
    (∀ (o : WktOptions) (n : Nat) (st : St) (c : Posn) (st2 : St),
      o.srid = some n → n ≠ 0 → n ≠ 4326 → o.proj = none →
      matchCoordinate o st ≠ .ok (c, st2)) ∧
    (∀ (o : WktOptions) (n : Nat) (f : String → String → Posn → Posn)
      (st : St) (c : Posn) (st2 : St),
      o.srid = some n → n ≠ 0 → n ≠ 4326 → o.proj = some f →
      matchCoordinate o st = .ok (c, st2) →
      ∃ pos, c = f ("EPSG:" ++ toString n) "EPSG:4326" pos) ∧
    (∀ (o : WktOptions) (st : St),
      o.srid = none ∨ o.srid = some 0 ∨ o.srid = some 4326 →
      matchCoordinate o st =
        matchCoordinate
          { toWktUserOptions :=
              { emptyAsNull := o.emptyAsNull, proj := none },
            srid := none, hasZ := o.hasZ, hasM := o.hasM } st) ∧
    (∀ f : String → String → Posn → Posn,
      wktToGeoJSON ("SRID=3857;POINT(1 2)".data)
          { emptyAsNull := some true, proj := some f } =
        .ok (some (.point (f "EPSG:3857" "EPSG:4326"
          [jnum 1 0, jnum 2 0])))) ∧
    wktToGeoJSON ("SRID=3857;POINT(1 2)".data) defaultWktUserOptions =
      .error (.err
        "EWKT data in an unknown SRID (3857) was provided, but a proj function was not") ∧
    (∀ f : String → String → Posn → Posn,
      wktToGeoJSON ("SRID=4326;POINT(-44.3 60.1)".data)
          { emptyAsNull := some true, proj := some f } =
        .ok (some (.point [jnum (-443) (-1), jnum 601 (-1)]))) ∧
    (∀ f : String → String → Posn → Posn,
      wktToGeoJSON ("POINT(1 2)".data)
          { emptyAsNull := some true, proj := some f } =
        .ok (some (.point [jnum 1 0, jnum 2 0]))) := by
  refine ⟨?_, ?_, ?_, fun f => ?_, rfl, fun f => rfl, fun f => rfl⟩
  · intro o n st c st2 hsrid h0 h4 hproj
    rw [matchCoordinate]
    dsimp only
    split
    · simp
    · simp only [hsrid, hproj]
      have hgate : (n != 0 && n != 4326) = true := by
        simp only [Bool.and_eq_true, bne_iff_ne, ne_eq]
        exact ⟨h0, h4⟩
      rw [if_pos hgate]
      simp
  · intro o n f st c st2 hsrid h0 h4 hproj h
    rw [matchCoordinate] at h
    dsimp only at h
    split at h
    · exact absurd h (by simp)
    · simp only [hsrid, hproj] at h
      have hgate : (n != 0 && n != 4326) = true := by
        simp only [Bool.and_eq_true, bne_iff_ne, ne_eq]
        exact ⟨h0, h4⟩
      rw [if_pos hgate] at h
      simp only [Option.getD_some] at h
      injection h with h1
      injection h1 with h2 h3
      exact ⟨_, h2.symm⟩
  · intro o st hs
    rw [matchCoordinate, matchCoordinate]
    dsimp only
    cases hp : pmatch
        (if o.hasZ && o.hasM then coordPat4
          else if o.hasZ || o.hasM then coordPat3 else coordPat2)
        (skipWhitespaces st) with
    | none => rfl
    | some r =>
      obtain ⟨caps, st2⟩ := r
      rcases hs with hs | hs | hs <;> rw [hs] <;> rfl
  · rw [show ("EPSG:3857" : String) = "EPSG:" ++ toString (3857 : Nat)
      from rfl]
    rfl

theorem C5_srid_resolution_witness :
    matchCoordinate
        { toWktUserOptions := { emptyAsNull := some true, proj := none },
          srid := some 3857, hasZ := false, hasM := false }
        ("1 2)".data) ≠
      .ok ([jnum 1 0, jnum 2 0], ")".data) :=
  C5_srid_resolution.1
    { toWktUserOptions := { emptyAsNull := some true, proj := none },
      srid := some 3857, hasZ := false, hasM := false }
    3857 ("1 2)".data) [jnum 1 0, jnum 2 0] (")".data) rfl
    (by decide) (by decide) rfl

/-- `SRID=0` is a numeric SRID other than 4326, yet it neither invokes
`proj` nor errors without one: JavaScript truthiness makes 0 pass
through. -/
theorem C5_srid_counterexample :
    wktToGeoJSON ("SRID=0;POINT(1 2)".data) defaultWktUserOptions =
      .ok (some (.point [jnum 1 0, jnum 2 0])) := rfl

/-- C6 (spec model): an input carrying the GeoSPARQL IRI prefix for
EPSG:4326 parses without `proj`, and the two leading coordinate values of
each position are swapped relative to their order in the input text. -/
theorem C6_iri4326_swap (uo : WktUserOptions) (t1 t2 : List Char)
    (h1 : numTokP t1) (h2 : numTokP t2) :
    wktToGeoJSONSpec
        ("<http://www.opengis.net/def/crs/EPSG/0/4326> POINT(".data ++
          (t1 ++ (' ' :: (t2 ++ [')'])))) uo =
      .ok (some (.point [parseFloat t2, parseFloat t1])) := by
  rw [show "<http://www.opengis.net/def/crs/EPSG/0/4326> POINT(".data ++
      (t1 ++ (' ' :: (t2 ++ [')']))) =
    '<' :: 'h' :: 't' :: 't' :: 'p' :: ':' :: '/' :: '/' :: 'w' :: 'w' ::
      'w' :: '.' :: 'o' :: 'p' :: 'e' :: 'n' :: 'g' :: 'i' :: 's' :: '.' ::
      'n' :: 'e' :: 't' :: '/' :: 'd' :: 'e' :: 'f' :: '/' :: 'c' :: 'r' ::
      's' :: '/' :: 'E' :: 'P' :: 'S' :: 'G' :: '/' :: '0' :: '/' :: '4' ::
      '3' :: '2' :: '6' :: '>' :: ' ' :: 'P' :: 'O' :: 'I' :: 'N' :: 'T' ::
      '(' :: (t1 ++ (' ' :: (t2 ++ [')']))) from by simp]
  have hc2 : matchCoordinateSpec
      { crs := CrsSpec.iriCrs
          ("http://www.opengis.net/def/crs/EPSG/0/4326".data),
        emptyAsNull := uo.emptyAsNull, proj := uo.proj,
        hasZ := false, hasM := false }
      (t1 ++ (' ' :: (t2 ++ [')']))) =
      .ok ([parseFloat t2, parseFloat t1], [')']) := by
    rw [matchCoordinateSpec_two _ rfl rfl t1 t2 [')'] h1 h2
      (stopsCls_delim ')' [] rfl)]
    rfl
  show (parseGeometrySpec
      (('<' :: 'h' :: 't' :: 't' :: 'p' :: ':' :: '/' :: '/' :: 'w' :: 'w' ::
        'w' :: '.' :: 'o' :: 'p' :: 'e' :: 'n' :: 'g' :: 'i' :: 's' :: '.' ::
        'n' :: 'e' :: 't' :: '/' :: 'd' :: 'e' :: 'f' :: '/' :: 'c' :: 'r' ::
        's' :: '/' :: 'E' :: 'P' :: 'S' :: 'G' :: '/' :: '0' :: '/' :: '4' ::
        '3' :: '2' :: '6' :: '>' :: ' ' :: 'P' :: 'O' :: 'I' :: 'N' :: 'T' ::
        '(' :: (t1 ++ (' ' :: (t2 ++ [')'])))).length + 1)
      { crs := CrsSpec.iriCrs
          ("http://www.opengis.net/def/crs/EPSG/0/4326".data),
        emptyAsNull := uo.emptyAsNull, proj := uo.proj,
        hasZ := false, hasM := false }
      (' ' :: 'P' :: 'O' :: 'I' :: 'N' :: 'T' ::
        '(' :: (t1 ++ (' ' :: (t2 ++ [')']))))).map (fun r => r.1) =
    .ok (some (.point [parseFloat t2, parseFloat t1]))
  rw [show parseGeometrySpec
      (('<' :: 'h' :: 't' :: 't' :: 'p' :: ':' :: '/' :: '/' :: 'w' :: 'w' ::
        'w' :: '.' :: 'o' :: 'p' :: 'e' :: 'n' :: 'g' :: 'i' :: 's' :: '.' ::
        'n' :: 'e' :: 't' :: '/' :: 'd' :: 'e' :: 'f' :: '/' :: 'c' :: 'r' ::
        's' :: '/' :: 'E' :: 'P' :: 'S' :: 'G' :: '/' :: '0' :: '/' :: '4' ::
        '3' :: '2' :: '6' :: '>' :: ' ' :: 'P' :: 'O' :: 'I' :: 'N' :: 'T' ::
        '(' :: (t1 ++ (' ' :: (t2 ++ [')'])))).length + 1)
      { crs := CrsSpec.iriCrs
          ("http://www.opengis.net/def/crs/EPSG/0/4326".data),
        emptyAsNull := uo.emptyAsNull, proj := uo.proj,
        hasZ := false, hasM := false }
      (' ' :: 'P' :: 'O' :: 'I' :: 'N' :: 'T' ::
        '(' :: (t1 ++ (' ' :: (t2 ++ [')'])))) =
    (do
      let (c, st5) ← matchCoordinateSpec
        { crs := CrsSpec.iriCrs
            ("http://www.opengis.net/def/crs/EPSG/0/4326".data),
          emptyAsNull := uo.emptyAsNull, proj := uo.proj,
          hasZ := false, hasM := false }
        (t1 ++ (' ' :: (t2 ++ [')'])))
      let (_, st6) ← expectGroupEnd st5
      (.ok (some (.point c), st6) :
        Except ParseErr (Option Geometry × St))) from rfl]
  simp only [hc2, ok_bind, expectGroupEnd_rparen]
  rfl

theorem C6_iri4326_swap_witness :
    numTokP ("33.95".data) ∧ numTokP ("-83.38".data) ∧
    wktToGeoJSONSpec
        ("<http://www.opengis.net/def/crs/EPSG/0/4326> POINT(33.95 -83.38)".data)
        defaultWktUserOptions =
      .ok (some (.point [jnum (-8338) (-2), jnum 3395 (-2)])) := by
  have h1 : numTokP ("33.95".data) := ⟨by decide, by decide⟩
  have h2 : numTokP ("-83.38".data) := ⟨by decide, by decide⟩
  refine ⟨h1, h2, ?_⟩
  rw [show
    ("<http://www.opengis.net/def/crs/EPSG/0/4326> POINT(33.95 -83.38)".data
      : St) =
    "<http://www.opengis.net/def/crs/EPSG/0/4326> POINT(".data ++
      ("33.95".data ++ (' ' :: ("-83.38".data ++ [')']))) from rfl]
  rw [show (jnum 3395 (-2) : JsNum) = parseFloat ("33.95".data) from rfl,
    show (jnum (-8338) (-2) : JsNum) = parseFloat ("-83.38".data) from rfl]
  exact C6_iri4326_swap defaultWktUserOptions _ _ h1 h2

/-- C7 (amended): non-numeric tokens inside a coordinate group do not
make the parse throw — `parseFloat` yields NaN and the geometry is
returned with NaN entries; the parser throws only on structural faults
such as a missing group delimiter. -/
theorem C7_nonnumeric_nan :
    wktToGeoJSON ("POINT (a b)".data) defaultWktUserOptions =
        .ok (some (.point [.nan, .nan])) ∧
      parseFloat ("a".data) = JsNum.nan ∧
      wktToGeoJSON ("POINT [1 2]".data) defaultWktUserOptions =
        .error (.err "Expected group start") :=
  ⟨rfl, rfl, rfl⟩

/-- The claim's own example input `POINT (a b)` parses successfully to a
geometry whose entries are NaN — not an error, and not finite numbers. -/
theorem C7_nonnumeric_counterexample :
    wktToGeoJSON ("POINT (a b)".data) defaultWktUserOptions =
        .ok (some (.point [.nan, .nan])) ∧
      numOk JsNum.nan = false :=
  ⟨rfl, rfl⟩

/-- C8: with dimension token `M` alone, three number tokens are consumed
from the group but only the first two are stored in the position. -/
theorem C8_m_only_discards_third (uo : WktUserOptions)
    (t1 t2 t3 : List Char)
    (h1 : numTokP t1) (h2 : numTokP t2) (h3 : numTokP t3) :
    wktToGeoJSON
        ("POINT M (".data ++
          (t1 ++ (' ' :: (t2 ++ (' ' :: (t3 ++ [')'])))))) uo =
      .ok (some (.point [parseFloat t1, parseFloat t2])) := by
  rw [show "POINT M (".data ++
      (t1 ++ (' ' :: (t2 ++ (' ' :: (t3 ++ [')']))))) =
    'P' :: 'O' :: 'I' :: 'N' :: 'T' :: ' ' :: 'M' :: ' ' :: '(' ::
      (t1 ++ (' ' :: (t2 ++ (' ' :: (t3 ++ [')']))))) from by simp]
  have hc := matchCoordinate_m
    { toWktUserOptions := uo, srid := none, hasZ := false, hasM := true }
    rfl rfl rfl t1 t2 t3 [')'] h1 h2 h3 (stopsCls_delim ')' [] rfl)
  show (wktToGeoJSONinner
      (('P' :: 'O' :: 'I' :: 'N' :: 'T' :: ' ' :: 'M' :: ' ' :: '(' ::
        (t1 ++ (' ' :: (t2 ++ (' ' :: (t3 ++ [')'])))))).length + 1) uo
      ('P' :: 'O' :: 'I' :: 'N' :: 'T' :: ' ' :: 'M' :: ' ' :: '(' ::
        (t1 ++ (' ' :: (t2 ++ (' ' :: (t3 ++ [')']))))))).map
      (fun r => r.1) = .ok (some (.point [parseFloat t1, parseFloat t2]))
  rw [show wktToGeoJSONinner
      (('P' :: 'O' :: 'I' :: 'N' :: 'T' :: ' ' :: 'M' :: ' ' :: '(' ::
        (t1 ++ (' ' :: (t2 ++ (' ' :: (t3 ++ [')'])))))).length + 1) uo
      ('P' :: 'O' :: 'I' :: 'N' :: 'T' :: ' ' :: 'M' :: ' ' :: '(' ::
        (t1 ++ (' ' :: (t2 ++ (' ' :: (t3 ++ [')'])))))) =
    parseWktPoint
      { toWktUserOptions := uo, srid := none, hasZ := false, hasM := true }
      (' ' :: '(' :: (t1 ++ (' ' :: (t2 ++ (' ' :: (t3 ++ [')']))))))
    from rfl]
  simp only [parseWktPoint, isMatch_empty_sp_lparen, expectGroupStart_lparen,
    ok_bind, hc, expectGroupEnd_rparen]
  rfl

theorem C8_m_only_witness :
    numTokP ("1".data) ∧ numTokP ("2".data) ∧ numTokP ("3".data) ∧
    wktToGeoJSON ("POINT M (1 2 3)".data) defaultWktUserOptions =
      .ok (some (.point [jnum 1 0, jnum 2 0])) := by
  have h1 : numTokP ("1".data) := ⟨by decide, by decide⟩
  have h2 : numTokP ("2".data) := ⟨by decide, by decide⟩
  have h3 : numTokP ("3".data) := ⟨by decide, by decide⟩
  refine ⟨h1, h2, h3, ?_⟩
  rw [show ("POINT M (1 2 3)".data : St) =
    "POINT M (".data ++
      ("1".data ++ (' ' :: ("2".data ++ (' ' :: ("3".data ++ [')'])))))
    from rfl]
  rw [show (jnum 1 0 : JsNum) = parseFloat ("1".data) from rfl,
    show (jnum 2 0 : JsNum) = parseFloat ("2".data) from rfl]
  exact C8_m_only_discards_third defaultWktUserOptions _ _ _ h1 h2 h3

/-- C9 (amended): for the rendering of any structurally valid geometry
(arity 2 or 3, non-empty levels), arbitrary trailing characters after the
complete geometry are silently ignored and the same geometry is returned.
(For general successfully-parsing inputs the claim fails —
`C9_trailing_counterexample` backtracks into the trailing text.) -/
theorem C9_trailing_ignored (g : Geometry) (uo : WktUserOptions) (t : St)
    (hv : geomValid g = true) :
    wktToGeoJSON (geoJSONToWkt g ++ t) uo = .ok (some g) := by
  have h := parse_render ((geoJSONToWkt g ++ t).length + 1) uo g t hv
    (by simp only [List.length_append]; omega)
  show (wktToGeoJSONinner ((geoJSONToWkt g ++ t).length + 1) uo
    (geoJSONToWkt g ++ t)).map (fun r => r.1) = .ok (some g)
  rw [h]
  rfl

theorem C9_trailing_ignored_witness :
    geomValid (Geometry.point [jnum 1 0, jnum 2 0]) = true ∧
    wktToGeoJSON ("POINT (1 2)POINT (3 4)".data) defaultWktUserOptions =
      .ok (some (Geometry.point [jnum 1 0, jnum 2 0])) := by
  refine ⟨rfl, ?_⟩
  rw [show ("POINT (1 2)POINT (3 4)".data : St) =
    geoJSONToWkt (Geometry.point [jnum 1 0, jnum 2 0]) ++
      "POINT (3 4)".data from rfl]
  exact C9_trailing_ignored (Geometry.point [jnum 1 0, jnum 2 0])
    defaultWktUserOptions ("POINT (3 4)".data) rfl

/-- `POINT Z (a  b)` parses to a geometry (three NaN entries via
backtracking across the double space), but appending ` c` makes the same
prefix unparseable: the greedy `\S*` groups re-split and the parse
throws, so trailing text is not always ignored. -/
theorem C9_trailing_counterexample :
    wktToGeoJSON ("POINT Z (a  b)".data) defaultWktUserOptions =
        .ok (some (.point [.nan, .nan, .nan])) ∧
      wktToGeoJSON ("POINT Z (a  b) c".data) defaultWktUserOptions =
        .error (.err "Expected group end") :=
  ⟨rfl, rfl⟩

/-! # Termination: the scanner never exhausts its fuel

Every scanner operation leaves a state no longer than its input, and every
loop iteration strictly consumes; with the fuel `wkt.length + 1` that
`wktToGeoJSON` supplies, `fuelOut` is unreachable. -/

theorem skipWhitespaces_le (st : St) :
    (skipWhitespaces st).length ≤ st.length := by
  rw [skipWhitespaces]
  induction st with
  | nil => simp
  | cons c cs ih =>
    rw [List.dropWhile_cons]
    split
    · simp only [List.length_cons]
      omega
    · simp

theorem isMatch_le (tok : List Char) (st : St) :
    (isMatch tok st).2.length ≤ st.length := by
  rw [isMatch]
  cases h : startsWith tok (skipWhitespaces st) with
  | true =>
    simp only [h, if_true]
    calc ((skipWhitespaces st).drop tok.length).length
        ≤ (skipWhitespaces st).length := by
          rw [List.length_drop]; omega
      _ ≤ st.length := skipWhitespaces_le st
  | false =>
    simp only [h, Bool.false_eq_true, if_false]
    exact skipWhitespaces_le st

theorem startsWith_length (t : List Char) :
    ∀ st : St, startsWith t st = true → t.length ≤ st.length := by
  induction t with
  | nil => intro st _; simp
  | cons c cs ih =>
    intro st h
    cases st with
    | nil => simp [startsWith] at h
    | cons d ds =>
      simp only [startsWith, Bool.and_eq_true] at h
      have := ih ds h.2
      simp only [List.length_cons]
      omega

theorem isMatch_true_lt (tok : List Char) (ht : tok ≠ []) (st : St)
    (h : (isMatch tok st).1 = true) :
    (isMatch tok st).2.length < st.length := by
  rw [isMatch] at h ⊢
  cases hs : startsWith tok (skipWhitespaces st) with
  | false => rw [hs] at h; simp at h
  | true =>
    simp only [hs, if_true]
    have h1 := startsWith_length tok (skipWhitespaces st) hs
    have h2 := skipWhitespaces_le st
    have h3 : 1 ≤ tok.length := by
      cases tok with
      | nil => exact absurd rfl ht
      | cons a as => simp
    rw [List.length_drop]
    omega

theorem matchTokens_le (toks : List (List Char)) (st : St) :
    (matchTokens toks st).2.length ≤ st.length := by
  rw [matchTokens]
  cases h : findTok toks (skipWhitespaces st) with
  | none => simpa [h] using skipWhitespaces_le st
  | some t =>
    simp only [h]
    calc ((skipWhitespaces st).drop t.length).length
        ≤ (skipWhitespaces st).length := by rw [List.length_drop]; omega
      _ ≤ st.length := skipWhitespaces_le st

theorem findTok_startsWith (toks : List (List Char)) (st : St)
    (t : List Char) (h : findTok toks st = some t) :
    startsWith t st = true ∧ t ∈ toks := by
  induction toks with
  | nil => simp [findTok] at h
  | cons x xs ih =>
    rw [findTok] at h
    by_cases hx : startsWith x st = true
    · rw [if_pos hx] at h
      injection h with h
      subst h
      exact ⟨hx, by simp⟩
    · rw [if_neg hx] at h
      obtain ⟨h1, h2⟩ := ih h
      exact ⟨h1, by simp [h2]⟩

theorem matchTokens_some (toks : List (List Char)) (st : St)
    (t : List Char) (st2 : St) (h : matchTokens toks st = (some t, st2)) :
    t ∈ toks ∧ st2.length + t.length ≤ st.length := by
  rw [matchTokens] at h
  cases hf : findTok toks (skipWhitespaces st) with
  | none => rw [hf] at h; simp at h
  | some u =>
    rw [hf] at h
    injection h with h1 h2
    injection h1 with h1
    subst h1
    subst h2
    obtain ⟨hs, hm⟩ := findTok_startsWith toks (skipWhitespaces st) u hf
    have h3 := startsWith_length u (skipWhitespaces st) hs
    have h4 := skipWhitespaces_le st
    refine ⟨hm, ?_⟩
    rw [List.length_drop]
    omega

theorem matchSrid_le (st : St) : (matchSrid st).2.length ≤ st.length := by
  have h2 := skipWhitespaces_le st
  rw [matchSrid]
  split
  · dsimp only
    split
    · split
      · exact h2
      · rename_i rest heq _
        have h3 := congrArg List.length heq
        simp only [List.length_drop, List.length_cons] at h3
        show rest.length ≤ st.length
        omega
    · exact h2
  · exact h2

theorem matchType_shape (st : St) :
    matchType st = .error (.err "Expected geometry type") ∨
    ∃ t st2, matchType st = .ok (t, st2) ∧ t ∈ WKT_GEOMETRY_TYPES ∧
      st2.length + t.length ≤ st.length := by
  rw [matchType]
  cases h : matchTokens WKT_GEOMETRY_TYPES st with
  | mk t? st2 =>
    cases t? with
    | none => exact Or.inl rfl
    | some t =>
      obtain ⟨hm, hl⟩ := matchTokens_some WKT_GEOMETRY_TYPES st t st2 h
      exact Or.inr ⟨t, st2, rfl, hm, hl⟩

theorem matchDimension_le (st : St) :
    (matchDimension st).2.length ≤ st.length := by
  have h := matchTokens_le ZZM st
  rw [matchDimension]
  cases hm : matchTokens ZZM st with
  | mk t? st1 =>
    rw [hm] at h
    cases t? with
    | none => exact h
    | some t =>
      dsimp only
      split
      · exact h
      · split
        · exact h
        · exact h

theorem expectGroupStart_shape (st : St) :
    expectGroupStart st = .error (.err "Expected group start") ∨
    ∃ st2, expectGroupStart st = .ok ((), st2) ∧ st2.length < st.length := by
  rw [expectGroupStart]
  cases h : isMatch ("(".data) st with
  | mk b st1 =>
    cases b with
    | false => exact Or.inl rfl
    | true =>
      refine Or.inr ⟨st1, rfl, ?_⟩
      have := isMatch_true_lt ("(".data) (by simp) st (by rw [h])
      rw [h] at this
      exact this

theorem expectGroupEnd_shape (st : St) :
    expectGroupEnd st = .error (.err "Expected group end") ∨
    ∃ st2, expectGroupEnd st = .ok ((), st2) ∧ st2.length < st.length := by
  rw [expectGroupEnd]
  cases h : isMatch (")".data) st with
  | mk b st1 =>
    cases b with
    | false => exact Or.inl rfl
    | true =>
      refine Or.inr ⟨st1, rfl, ?_⟩
      have := isMatch_true_lt (")".data) (by simp) st (by rw [h])
      rw [h] at this
      exact this

/-! ## The regex engine only moves forward -/

theorem firstSome_eq_some {α β : Type} (f : α → Option β) (l : List α)
    (b : β) (h : firstSome f l = some b) : ∃ a ∈ l, f a = some b := by
  induction l with
  | nil => simp [firstSome] at h
  | cons x xs ih =>
    rw [firstSome] at h
    cases hx : f x with
    | some y =>
      rw [hx] at h
      injection h with h
      subst h
      exact ⟨x, by simp, hx⟩
    | none =>
      rw [hx] at h
      obtain ⟨a, ha, hfa⟩ := ih h
      exact ⟨a, by simp [ha], hfa⟩

theorem splitsDesc_snd_le (cls : Char → Bool) :
    ∀ (s : St) (pr : St × St), pr ∈ splitsDesc cls s →
      pr.2.length ≤ s.length := by
  intro s
  induction s with
  | nil =>
    intro pr hpr
    simp only [splitsDesc, List.mem_singleton] at hpr
    subst hpr
    simp
  | cons c cs ih =>
    intro pr hpr
    rw [splitsDesc] at hpr
    split at hpr
    · rw [List.mem_append] at hpr
      rcases hpr with hpr | hpr
      · rw [List.mem_map] at hpr
        obtain ⟨q, hq, hpq⟩ := hpr
        have := ih q hq
        rw [← hpq]
        simp only [List.length_cons]
        omega
      · rw [List.mem_singleton] at hpr
        subst hpr
        simp
    · rw [List.mem_singleton] at hpr
      subst hpr
      simp

theorem pmatch_rest_le (ps : List RPiece) :
    ∀ (s : St) (caps : List St) (rest : St),
      pmatch ps s = some (caps, rest) → rest.length ≤ s.length := by
  induction ps with
  | nil =>
    intro s caps rest h
    rw [pmatch] at h
    injection h with h
    injection h with h1 h2
    subst h2
    exact le_refl _
  | cons p ps ih =>
    intro s caps rest h
    cases p with
    | star cls =>
      rw [pmatch] at h
      obtain ⟨pr, hpr, hf⟩ := firstSome_eq_some _ _ _ h
      rw [Option.map_eq_some'] at hf
      obtain ⟨cr, hcr, hcr2⟩ := hf
      injection hcr2 with e1 e2
      subst e2
      have h1 := ih pr.2 cr.1 cr.2 hcr
      have h2 := splitsDesc_snd_le cls s pr hpr
      omega
    | plus cls =>
      rw [pmatch] at h
      obtain ⟨pr, hpr, hf⟩ := firstSome_eq_some _ _ _ h
      split at hf
      · exact absurd hf (by simp)
      · rw [Option.map_eq_some'] at hf
        obtain ⟨cr, hcr, hcr2⟩ := hf
        injection hcr2 with e1 e2
        subst e2
        have h1 := ih pr.2 cr.1 cr.2 hcr
        have h2 := splitsDesc_snd_le cls s pr hpr
        omega

theorem matchCoordinate_shape (o : WktOptions) (st : St) :
    (∃ msg, matchCoordinate o st = .error (.err msg)) ∨
    ∃ c st2, matchCoordinate o st = .ok (c, st2) ∧
      st2.length ≤ st.length := by
  rw [matchCoordinate]
  dsimp only
  split
  · exact Or.inl ⟨_, rfl⟩
  · rename_i caps st2 heq
    have hle : st2.length ≤ st.length :=
      le_trans (pmatch_rest_le _ _ _ _ heq) (skipWhitespaces_le st)
    split
    · split
      · exact Or.inr ⟨_, st2, rfl, hle⟩
      · exact Or.inl ⟨_, rfl⟩
    · exact Or.inr ⟨_, st2, rfl, hle⟩

theorem pure_bind_ex {α β : Type} (a : α) (f : α → Except ParseErr β) :
    ((pure a : Except ParseErr α) >>= f) = f a := rfl

/-! ## The loops on arbitrary input: an error message or a shorter state -/

theorem matchCoordinatesLoop_shape :
    ∀ (fuel : Nat) (o : WktOptions) (acc : List Posn) (st : St),
      st.length < fuel →
      (∃ msg, matchCoordinatesLoop fuel o acc st = .error (.err msg)) ∨
      ∃ cs st2, matchCoordinatesLoop fuel o acc st = .ok (cs, st2) ∧
        st2.length ≤ st.length := by
  intro fuel
  induction fuel with
  | zero => intro o acc st h; omega
  | succ f ih =>
    intro o acc st hlen
    have hsb := isMatch_le ['('] st
    rcases matchCoordinate_shape o (isMatch ['('] st).2 with
      ⟨msg, hm⟩ | ⟨c, st2, hm, hle2⟩
    · exact Or.inl ⟨msg, by
        simp only [matchCoordinatesLoop, hm, error_bind]⟩
    · have hst2 : st2.length ≤ st.length := le_trans hle2 hsb
      cases hb : (isMatch ['('] st).1 with
      | false =>
        cases hcm : (isMatch [','] st2).1 with
        | true =>
          have hlt := isMatch_true_lt [','] (by simp) st2 hcm
          rcases ih o (acc ++ [c]) (isMatch [','] st2).2 (by omega) with
            ⟨msg, hrec⟩ | ⟨cs, st3, hrec, hle3⟩
          · exact Or.inl ⟨msg, by
              simp only [matchCoordinatesLoop, hm, ok_bind, hb,
                Bool.false_eq_true, if_false, pure_bind_ex, hcm, if_true,
                hrec]⟩
          · exact Or.inr ⟨cs, st3, by
              simp only [matchCoordinatesLoop, hm, ok_bind, hb,
                Bool.false_eq_true, if_false, pure_bind_ex, hcm, if_true,
                hrec], by omega⟩
        | false =>
          have hle4 := isMatch_le [','] st2
          exact Or.inr ⟨acc ++ [c], (isMatch [','] st2).2, by
            simp only [matchCoordinatesLoop, hm, ok_bind, hb,
              Bool.false_eq_true, if_false, pure_bind_ex, hcm],
            by omega⟩
      | true =>
        rcases expectGroupEnd_shape st2 with ⟨hge⟩ | ⟨st2e, hge, hlt2⟩
        · exact Or.inl ⟨"Expected group end", by
            simp only [matchCoordinatesLoop, hm, ok_bind, hb, if_true,
              hge, error_bind]⟩
        · cases hcm : (isMatch [','] st2e).1 with
          | true =>
            have hlt := isMatch_true_lt [','] (by simp) st2e hcm
            rcases ih o (acc ++ [c]) (isMatch [','] st2e).2 (by omega) with
              ⟨msg, hrec⟩ | ⟨cs, st3, hrec, hle3⟩
            · exact Or.inl ⟨msg, by
                simp only [matchCoordinatesLoop, hm, ok_bind, hb, if_true,
                  hge, pure_bind_ex, hcm, hrec]⟩
            · exact Or.inr ⟨cs, st3, by
                simp only [matchCoordinatesLoop, hm, ok_bind, hb, if_true,
                  hge, pure_bind_ex, hcm, hrec], by omega⟩
          | false =>
            have hle4 := isMatch_le [','] st2e
            exact Or.inr ⟨acc ++ [c], (isMatch [','] st2e).2, by
              simp only [matchCoordinatesLoop, hm, ok_bind, hb, if_true,
                hge, pure_bind_ex, hcm, Bool.false_eq_true, if_false],
              by omega⟩

theorem ringsLoop_shape :
    ∀ (fuel : Nat) (o : WktOptions) (acc : List (List Posn)) (st : St),
      st.length < fuel →
      (∃ msg, ringsLoop fuel o acc st = .error (.err msg)) ∨
      ∃ rs st2, ringsLoop fuel o acc st = .ok (rs, st2) ∧
        st2.length ≤ st.length := by
  intro fuel
  induction fuel with
  | zero => intro o acc st h; omega
  | succ f ih =>
    intro o acc st hlen
    have hle1 := isMatch_le [','] st
    rcases hpair : isMatch [','] st with ⟨b, st1⟩
    rw [hpair] at hle1
    cases b with
    | false =>
      exact Or.inr ⟨acc, st1, by simp only [ringsLoop, hpair], hle1⟩
    | true =>
      have hlt1 : st1.length < st.length := by
        have := isMatch_true_lt [','] (by simp) st (by rw [hpair])
        rw [hpair] at this
        exact this
      rcases expectGroupStart_shape st1 with
        ⟨hgs⟩ | ⟨stA, hgs, hltA⟩
      · exact Or.inl ⟨"Expected group start", by
          simp only [ringsLoop, hpair, hgs, error_bind]⟩
      · rcases matchCoordinatesLoop_shape f o [] stA (by omega) with
          ⟨msg, hmc⟩ | ⟨ring, stB, hmc, hleB⟩
        · exact Or.inl ⟨msg, by
            simp only [ringsLoop, hpair, hgs, ok_bind, matchCoordinates,
              hmc, error_bind]⟩
        · rcases expectGroupEnd_shape stB with ⟨hge⟩ | ⟨stC, hge, hltC⟩
          · exact Or.inl ⟨"Expected group end", by
              simp only [ringsLoop, hpair, hgs, ok_bind, matchCoordinates,
                hmc, hge, error_bind]⟩
          · rcases ih o (acc ++ [ring]) stC (by omega) with
              ⟨msg, hrec⟩ | ⟨rs, stD, hrec, hleD⟩
            · exact Or.inl ⟨msg, by
                simp only [ringsLoop, hpair, hgs, ok_bind,
                  matchCoordinates, hmc, hge, hrec]⟩
            · exact Or.inr ⟨rs, stD, by
                simp only [ringsLoop, hpair, hgs, ok_bind,
                  matchCoordinates, hmc, hge, hrec], by omega⟩

theorem mlsLoop_shape :
    ∀ (fuel : Nat) (o : WktOptions) (acc : List (List Posn)) (st : St),
      st.length < fuel →
      (∃ msg, mlsLoop fuel o acc st = .error (.err msg)) ∨
      ∃ rs st2, mlsLoop fuel o acc st = .ok (rs, st2) ∧
        st2.length ≤ st.length := by
  intro fuel
  induction fuel with
  | zero => intro o acc st h; omega
  | succ f ih =>
    intro o acc st hlen
    rcases expectGroupStart_shape st with ⟨hgs⟩ | ⟨stA, hgs, hltA⟩
    · exact Or.inl ⟨"Expected group start", by
        simp only [mlsLoop, hgs, error_bind]⟩
    · rcases matchCoordinatesLoop_shape f o [] stA (by omega) with
        ⟨msg, hmc⟩ | ⟨line, stB, hmc, hleB⟩
      · exact Or.inl ⟨msg, by
          simp only [mlsLoop, hgs, ok_bind, matchCoordinates, hmc,
            error_bind]⟩
      · rcases expectGroupEnd_shape stB with ⟨hge⟩ | ⟨stC, hge, hltC⟩
        · exact Or.inl ⟨"Expected group end", by
            simp only [mlsLoop, hgs, ok_bind, matchCoordinates, hmc, hge,
              error_bind]⟩
        · rcases hpair : isMatch [','] stC with ⟨b, stC2⟩
          have hle4 : stC2.length ≤ stC.length := by
            have := isMatch_le [','] stC
            rw [hpair] at this
            exact this
          cases b with
          | false =>
            exact Or.inr ⟨acc ++ [line], stC2, by
              simp only [mlsLoop, hgs, ok_bind, matchCoordinates, hmc,
                hge, hpair], by omega⟩
          | true =>
            have hlt4 : stC2.length < stC.length := by
              have := isMatch_true_lt [','] (by simp) stC (by rw [hpair])
              rw [hpair] at this
              exact this
            rcases ih o (acc ++ [line]) stC2 (by omega)
              with ⟨msg, hrec⟩ | ⟨rs, stD, hrec, hleD⟩
            · exact Or.inl ⟨msg, by
                simp only [mlsLoop, hgs, ok_bind, matchCoordinates, hmc,
                  hge, hpair, hrec]⟩
            · exact Or.inr ⟨rs, stD, by
                simp only [mlsLoop, hgs, ok_bind, matchCoordinates, hmc,
                  hge, hpair, hrec], by omega⟩

theorem mpolyLoop_shape :
    ∀ (fuel : Nat) (o : WktOptions) (acc : List (List (List Posn)))
      (st : St), st.length < fuel →
      (∃ msg, mpolyLoop fuel o acc st = .error (.err msg)) ∨
      ∃ ps st2, mpolyLoop fuel o acc st = .ok (ps, st2) ∧
        st2.length ≤ st.length := by
  intro fuel
  induction fuel with
  | zero => intro o acc st h; omega
  | succ f ih =>
    intro o acc st hlen
    rcases expectGroupStart_shape st with ⟨hgs⟩ | ⟨stA, hgs, hltA⟩
    · exact Or.inl ⟨"Expected group start", by
        simp only [mpolyLoop, hgs, error_bind]⟩
    · rcases expectGroupStart_shape stA with ⟨hgs2⟩ | ⟨stB, hgs2, hltB⟩
      · exact Or.inl ⟨"Expected group start", by
          simp only [mpolyLoop, hgs, ok_bind, hgs2, error_bind]⟩
      · rcases matchCoordinatesLoop_shape f o [] stB (by omega) with
          ⟨msg, hmc⟩ | ⟨ext, stC, hmc, hleC⟩
        · exact Or.inl ⟨msg, by
            simp only [mpolyLoop, hgs, ok_bind, hgs2, matchCoordinates,
              hmc, error_bind]⟩
        · rcases expectGroupEnd_shape stC with ⟨hge⟩ | ⟨stD, hge, hltD⟩
          · exact Or.inl ⟨"Expected group end", by
              simp only [mpolyLoop, hgs, ok_bind, hgs2, matchCoordinates,
                hmc, hge, error_bind]⟩
          · rcases ringsLoop_shape f o [ext] stD (by omega) with
              ⟨msg, hrl⟩ | ⟨rings, stE, hrl, hleE⟩
            · exact Or.inl ⟨msg, by
                simp only [mpolyLoop, hgs, ok_bind, hgs2, matchCoordinates,
                  hmc, hge, hrl, error_bind]⟩
            · rcases expectGroupEnd_shape stE with
                ⟨hge2⟩ | ⟨stF, hge2, hltF⟩
              · exact Or.inl ⟨"Expected group end", by
                  simp only [mpolyLoop, hgs, ok_bind, hgs2,
                    matchCoordinates, hmc, hge, hrl, hge2, error_bind]⟩
              · rcases hpair : isMatch [','] stF with ⟨b, stF2⟩
                have hle4 : stF2.length ≤ stF.length := by
                  have := isMatch_le [','] stF
                  rw [hpair] at this
                  exact this
                cases b with
                | false =>
                  exact Or.inr ⟨acc ++ [rings], stF2, by
                    simp only [mpolyLoop, hgs, ok_bind, hgs2,
                      matchCoordinates, hmc, hge, hrl, hge2, hpair],
                    by omega⟩
                | true =>
                  have hlt4 : stF2.length < stF.length := by
                    have := isMatch_true_lt [','] (by simp) stF
                      (by rw [hpair])
                    rw [hpair] at this
                    exact this
                  rcases ih o (acc ++ [rings]) stF2
                    (by omega) with ⟨msg, hrec⟩ | ⟨ps, stG, hrec, hleG⟩
                  · exact Or.inl ⟨msg, by
                      simp only [mpolyLoop, hgs, ok_bind, hgs2,
                        matchCoordinates, hmc, hge, hrl, hge2, hpair,
                        hrec]⟩
                  · exact Or.inr ⟨ps, stG, by
                      simp only [mpolyLoop, hgs, ok_bind, hgs2,
                        matchCoordinates, hmc, hge, hrl, hge2, hpair,
                        hrec], by omega⟩

/-! ## The geometry productions on arbitrary input -/

theorem parseWktPoint_shape (o : WktOptions) (st : St) :
    (∃ msg, parseWktPoint o st = .error (.err msg)) ∨
    ∃ g? st2, parseWktPoint o st = .ok (g?, st2) ∧
      st2.length ≤ st.length := by
  rcases hpair : isMatch EMPTY st with ⟨b, st1⟩
  have hle1 : st1.length ≤ st.length := by
    have := isMatch_le EMPTY st
    rw [hpair] at this
    exact this
  cases b with
  | true =>
    cases he : emptyAsNullTruthy o.toWktUserOptions with
    | true =>
      exact Or.inr ⟨none, st1, by
        simp only [parseWktPoint, hpair, he, if_true], hle1⟩
    | false =>
      exact Or.inr ⟨some (.point []), st1, by
        simp only [parseWktPoint, hpair, he, Bool.false_eq_true,
          if_false], hle1⟩
  | false =>
    rcases expectGroupStart_shape st1 with ⟨hgs⟩ | ⟨stA, hgs, hltA⟩
    · exact Or.inl ⟨"Expected group start", by
        simp only [parseWktPoint, hpair, hgs, error_bind]⟩
    · rcases matchCoordinate_shape o stA with
        ⟨msg, hm⟩ | ⟨c, stB, hm, hleB⟩
      · exact Or.inl ⟨msg, by
          simp only [parseWktPoint, hpair, hgs, ok_bind, hm, error_bind]⟩
      · rcases expectGroupEnd_shape stB with ⟨hge⟩ | ⟨stC, hge, hltC⟩
        · exact Or.inl ⟨"Expected group end", by
            simp only [parseWktPoint, hpair, hgs, ok_bind, hm, hge,
              error_bind]⟩
        · exact Or.inr ⟨some (.point c), stC, by
            simp only [parseWktPoint, hpair, hgs, ok_bind, hm, hge],
            by omega⟩

theorem parseWktLineString_shape (fuel : Nat) (o : WktOptions) (st : St)
    (hf : st.length ≤ fuel) :
    (∃ msg, parseWktLineString fuel o st = .error (.err msg)) ∨
    ∃ g? st2, parseWktLineString fuel o st = .ok (g?, st2) ∧
      st2.length ≤ st.length := by
  rcases hpair : isMatch EMPTY st with ⟨b, st1⟩
  have hle1 : st1.length ≤ st.length := by
    have := isMatch_le EMPTY st
    rw [hpair] at this
    exact this
  cases b with
  | true =>
    cases he : emptyAsNullTruthy o.toWktUserOptions with
    | true =>
      exact Or.inr ⟨none, st1, by
        simp only [parseWktLineString, hpair, he, if_true], hle1⟩
    | false =>
      exact Or.inr ⟨some (.lineString []), st1, by
        simp only [parseWktLineString, hpair, he, Bool.false_eq_true,
          if_false], hle1⟩
  | false =>
    rcases expectGroupStart_shape st1 with ⟨hgs⟩ | ⟨stA, hgs, hltA⟩
    · exact Or.inl ⟨"Expected group start", by
        simp only [parseWktLineString, hpair, hgs, error_bind]⟩
    · rcases matchCoordinatesLoop_shape fuel o [] stA (by omega) with
        ⟨msg, hm⟩ | ⟨cs, stB, hm, hleB⟩
      · exact Or.inl ⟨msg, by
          simp only [parseWktLineString, hpair, hgs, ok_bind,
            matchCoordinates, hm, error_bind]⟩
      · rcases expectGroupEnd_shape stB with ⟨hge⟩ | ⟨stC, hge, hltC⟩
        · exact Or.inl ⟨"Expected group end", by
            simp only [parseWktLineString, hpair, hgs, ok_bind,
              matchCoordinates, hm, hge, error_bind]⟩
        · exact Or.inr ⟨some (.lineString cs), stC, by
            simp only [parseWktLineString, hpair, hgs, ok_bind,
              matchCoordinates, hm, hge], by omega⟩

theorem parseWktMultiPoint_shape (fuel : Nat) (o : WktOptions) (st : St)
    (hf : st.length ≤ fuel) :
    (∃ msg, parseWktMultiPoint fuel o st = .error (.err msg)) ∨
    ∃ g? st2, parseWktMultiPoint fuel o st = .ok (g?, st2) ∧
      st2.length ≤ st.length := by
  rcases hpair : isMatch EMPTY st with ⟨b, st1⟩
  have hle1 : st1.length ≤ st.length := by
    have := isMatch_le EMPTY st
    rw [hpair] at this
    exact this
  cases b with
  | true =>
    cases he : emptyAsNullTruthy o.toWktUserOptions with
    | true =>
      exact Or.inr ⟨none, st1, by
        simp only [parseWktMultiPoint, hpair, he, if_true], hle1⟩
    | false =>
      exact Or.inr ⟨some (.multiPoint []), st1, by
        simp only [parseWktMultiPoint, hpair, he, Bool.false_eq_true,
          if_false], hle1⟩
  | false =>
    rcases expectGroupStart_shape st1 with ⟨hgs⟩ | ⟨stA, hgs, hltA⟩
    · exact Or.inl ⟨"Expected group start", by
        simp only [parseWktMultiPoint, hpair, hgs, error_bind]⟩
    · rcases matchCoordinatesLoop_shape fuel o [] stA (by omega) with
        ⟨msg, hm⟩ | ⟨cs, stB, hm, hleB⟩
      · exact Or.inl ⟨msg, by
          simp only [parseWktMultiPoint, hpair, hgs, ok_bind,
            matchCoordinates, hm, error_bind]⟩
      · rcases expectGroupEnd_shape stB with ⟨hge⟩ | ⟨stC, hge, hltC⟩
        · exact Or.inl ⟨"Expected group end", by
            simp only [parseWktMultiPoint, hpair, hgs, ok_bind,
              matchCoordinates, hm, hge, error_bind]⟩
        · exact Or.inr ⟨some (.multiPoint cs), stC, by
            simp only [parseWktMultiPoint, hpair, hgs, ok_bind,
              matchCoordinates, hm, hge], by omega⟩

theorem parseWktPolygon_shape (fuel : Nat) (o : WktOptions) (st : St)
    (hf : st.length ≤ fuel) :
    (∃ msg, parseWktPolygon fuel o st = .error (.err msg)) ∨
    ∃ g? st2, parseWktPolygon fuel o st = .ok (g?, st2) ∧
      st2.length ≤ st.length := by
  rcases hpair : isMatch EMPTY st with ⟨b, st1⟩
  have hle1 : st1.length ≤ st.length := by
    have := isMatch_le EMPTY st
    rw [hpair] at this
    exact this
  cases b with
  | true =>
    cases he : emptyAsNullTruthy o.toWktUserOptions with
    | true =>
      exact Or.inr ⟨none, st1, by
        simp only [parseWktPolygon, hpair, he, if_true], hle1⟩
    | false =>
      exact Or.inr ⟨some (.polygon []), st1, by
        simp only [parseWktPolygon, hpair, he, Bool.false_eq_true,
          if_false], hle1⟩
  | false =>
    rcases expectGroupStart_shape st1 with ⟨hgs⟩ | ⟨stA, hgs, hltA⟩
    · exact Or.inl ⟨"Expected group start", by
        simp only [parseWktPolygon, hpair, hgs, error_bind]⟩
    · rcases expectGroupStart_shape stA with ⟨hgs2⟩ | ⟨stB, hgs2, hltB⟩
      · exact Or.inl ⟨"Expected group start", by
          simp only [parseWktPolygon, hpair, hgs, ok_bind, hgs2,
            error_bind]⟩
      · rcases matchCoordinatesLoop_shape fuel o [] stB (by omega) with
          ⟨msg, hm⟩ | ⟨ring1, stC, hm, hleC⟩
        · exact Or.inl ⟨msg, by
            simp only [parseWktPolygon, hpair, hgs, ok_bind, hgs2,
              matchCoordinates, hm, error_bind]⟩
        · rcases expectGroupEnd_shape stC with ⟨hge⟩ | ⟨stD, hge, hltD⟩
          · exact Or.inl ⟨"Expected group end", by
              simp only [parseWktPolygon, hpair, hgs, ok_bind, hgs2,
                matchCoordinates, hm, hge, error_bind]⟩
          · rcases ringsLoop_shape fuel o [ring1] stD (by omega) with
              ⟨msg, hrl⟩ | ⟨rings, stE, hrl, hleE⟩
            · exact Or.inl ⟨msg, by
                simp only [parseWktPolygon, hpair, hgs, ok_bind, hgs2,
                  matchCoordinates, hm, hge, hrl, error_bind]⟩
            · rcases expectGroupEnd_shape stE with
                ⟨hge2⟩ | ⟨stF, hge2, hltF⟩
              · exact Or.inl ⟨"Expected group end", by
                  simp only [parseWktPolygon, hpair, hgs, ok_bind, hgs2,
                    matchCoordinates, hm, hge, hrl, hge2, error_bind]⟩
              · exact Or.inr ⟨some (.polygon rings), stF, by
                  simp only [parseWktPolygon, hpair, hgs, ok_bind, hgs2,
                    matchCoordinates, hm, hge, hrl, hge2], by omega⟩

theorem parseWktMultiLineString_shape (fuel : Nat) (o : WktOptions)
    (st : St) (hf : st.length ≤ fuel) :
    (∃ msg, parseWktMultiLineString fuel o st = .error (.err msg)) ∨
    ∃ g? st2, parseWktMultiLineString fuel o st = .ok (g?, st2) ∧
      st2.length ≤ st.length := by
  rcases hpair : isMatch EMPTY st with ⟨b, st1⟩
  have hle1 : st1.length ≤ st.length := by
    have := isMatch_le EMPTY st
    rw [hpair] at this
    exact this
  cases b with
  | true =>
    cases he : emptyAsNullTruthy o.toWktUserOptions with
    | true =>
      exact Or.inr ⟨none, st1, by
        simp only [parseWktMultiLineString, hpair, he, if_true], hle1⟩
    | false =>
      exact Or.inr ⟨some (.multiLineString []), st1, by
        simp only [parseWktMultiLineString, hpair, he,
          Bool.false_eq_true, if_false], hle1⟩
  | false =>
    rcases expectGroupStart_shape st1 with ⟨hgs⟩ | ⟨stA, hgs, hltA⟩
    · exact Or.inl ⟨"Expected group start", by
        simp only [parseWktMultiLineString, hpair, hgs, error_bind]⟩
    · rcases mlsLoop_shape fuel o [] stA (by omega) with
        ⟨msg, hm⟩ | ⟨lines, stB, hm, hleB⟩
      · exact Or.inl ⟨msg, by
          simp only [parseWktMultiLineString, hpair, hgs, ok_bind, hm,
            error_bind]⟩
      · rcases expectGroupEnd_shape stB with ⟨hge⟩ | ⟨stC, hge, hltC⟩
        · exact Or.inl ⟨"Expected group end", by
            simp only [parseWktMultiLineString, hpair, hgs, ok_bind, hm,
              hge, error_bind]⟩
        · exact Or.inr ⟨some (.multiLineString lines), stC, by
            simp only [parseWktMultiLineString, hpair, hgs, ok_bind, hm,
              hge], by omega⟩

theorem parseWktMultiPolygon_shape (fuel : Nat) (o : WktOptions)
    (st : St) (hf : st.length ≤ fuel) :
    (∃ msg, parseWktMultiPolygon fuel o st = .error (.err msg)) ∨
    ∃ g? st2, parseWktMultiPolygon fuel o st = .ok (g?, st2) ∧
      st2.length ≤ st.length := by
  rcases hpair : isMatch EMPTY st with ⟨b, st1⟩
  have hle1 : st1.length ≤ st.length := by
    have := isMatch_le EMPTY st
    rw [hpair] at this
    exact this
  cases b with
  | true =>
    cases he : emptyAsNullTruthy o.toWktUserOptions with
    | true =>
      exact Or.inr ⟨none, st1, by
        simp only [parseWktMultiPolygon, hpair, he, if_true], hle1⟩
    | false =>
      exact Or.inr ⟨some (.multiPolygon []), st1, by
        simp only [parseWktMultiPolygon, hpair, he, Bool.false_eq_true,
          if_false], hle1⟩
  | false =>
    rcases expectGroupStart_shape st1 with ⟨hgs⟩ | ⟨stA, hgs, hltA⟩
    · exact Or.inl ⟨"Expected group start", by
        simp only [parseWktMultiPolygon, hpair, hgs, error_bind]⟩
    · rcases mpolyLoop_shape fuel o [] stA (by omega) with
        ⟨msg, hm⟩ | ⟨polys, stB, hm, hleB⟩
      · exact Or.inl ⟨msg, by
          simp only [parseWktMultiPolygon, hpair, hgs, ok_bind, hm,
            error_bind]⟩
      · rcases expectGroupEnd_shape stB with ⟨hge⟩ | ⟨stC, hge, hltC⟩
        · exact Or.inl ⟨"Expected group end", by
            simp only [parseWktMultiPolygon, hpair, hgs, ok_bind, hm,
              hge, error_bind]⟩
        · exact Or.inr ⟨some (.multiPolygon polys), stC, by
            simp only [parseWktMultiPolygon, hpair, hgs, ok_bind, hm,
              hge], by omega⟩

/-- The header of `wktToGeoJSONinner` as a first-class dispatch. -/
theorem inner_unfold (f : Nat) (uo : WktUserOptions) (st : St) :
    wktToGeoJSONinner (f + 1) uo st =
      match matchType (matchSrid st).2 with
      | .error e => .error e
      | .ok (t, st2) =>
        let o : WktOptions :=
          { toWktUserOptions := uo, srid := (matchSrid st).1,
            hasZ := (matchDimension st2).1.hasZ,
            hasM := (matchDimension st2).1.hasM }
        if t = "POINT".data then
          parseWktPoint o (matchDimension st2).2
        else if t = "LINESTRING".data then
          parseWktLineString f o (matchDimension st2).2
        else if t = "POLYGON".data then
          parseWktPolygon f o (matchDimension st2).2
        else if t = "MULTIPOINT".data then
          parseWktMultiPoint f o (matchDimension st2).2
        else if t = "MULTILINESTRING".data then
          parseWktMultiLineString f o (matchDimension st2).2
        else if t = "MULTIPOLYGON".data then
          parseWktMultiPolygon f o (matchDimension st2).2
        else parseWktGeometryCollection f o (matchDimension st2).2 := by
  rw [wktToGeoJSONinner]
  cases matchType (matchSrid st).2 with
  | error e => rfl
  | ok r => cases r with | mk t st2 => rfl

/-- Every run of the parser family either throws a source error or
returns with a state no longer than its input; `fuelOut` is unreachable
within the stated fuel bounds. -/
theorem parser_shape :
    ∀ fuel : Nat,
      (∀ (uo : WktUserOptions) (st : St), st.length < fuel →
        (∃ msg, wktToGeoJSONinner fuel uo st = .error (.err msg)) ∨
        ∃ g? st2, wktToGeoJSONinner fuel uo st = .ok (g?, st2) ∧
          st2.length ≤ st.length) ∧
      (∀ (o : WktOptions) (st : St), st.length + 1 < fuel →
        (∃ msg, parseWktGeometryCollection fuel o st =
          .error (.err msg)) ∨
        ∃ g? st2, parseWktGeometryCollection fuel o st = .ok (g?, st2) ∧
          st2.length ≤ st.length) ∧
      (∀ (o : WktOptions) (acc : List Geometry) (st : St),
        st.length + 1 < fuel →
        (∃ msg, gcLoop fuel o acc st = .error (.err msg)) ∨
        ∃ gs st2, gcLoop fuel o acc st = .ok (gs, st2) ∧
          st2.length ≤ st.length) := by
  intro fuel
  induction fuel using Nat.strong_induction_on with
  | h fuel IH =>
    cases fuel with
    | zero =>
      refine ⟨fun uo st h => ?_, fun o st h => ?_, fun o acc st h => ?_⟩
        <;> omega
    | succ f =>
      refine ⟨?_, ?_, ?_⟩
      · -- wktToGeoJSONinner
        intro uo st hlen
        have hsr := matchSrid_le st
        rcases matchType_shape (matchSrid st).2 with
          hT | ⟨t, stT, hT, htmem, htlen⟩
        · exact Or.inl ⟨"Expected geometry type", by
            rw [inner_unfold, hT]⟩
        · have hdim := matchDimension_le stT
          simp only [WKT_GEOMETRY_TYPES, List.mem_cons,
            List.not_mem_nil, or_false] at htmem
          rcases htmem with rfl | rfl | rfl | rfl | rfl | rfl | rfl
          · -- POINT
            have hUnf : wktToGeoJSONinner (f + 1) uo st =
                parseWktPoint
                  { toWktUserOptions := uo, srid := (matchSrid st).1,
                    hasZ := (matchDimension stT).1.hasZ,
                    hasM := (matchDimension stT).1.hasM }
                  (matchDimension stT).2 := by
              rw [inner_unfold, hT]
              rfl
            rcases parseWktPoint_shape _ (matchDimension stT).2 with
              ⟨msg, hP⟩ | ⟨g?, stR, hP, hleR⟩
            · exact Or.inl ⟨msg, by rw [hUnf]; exact hP⟩
            · exact Or.inr ⟨g?, stR, by rw [hUnf]; exact hP, by omega⟩
          · -- LINESTRING
            have hUnf : wktToGeoJSONinner (f + 1) uo st =
                parseWktLineString f
                  { toWktUserOptions := uo, srid := (matchSrid st).1,
                    hasZ := (matchDimension stT).1.hasZ,
                    hasM := (matchDimension stT).1.hasM }
                  (matchDimension stT).2 := by
              rw [inner_unfold, hT]
              rfl
            have hlen10 : ("LINESTRING".data).length = 10 := rfl
            rcases parseWktLineString_shape f _ (matchDimension stT).2
              (by omega) with ⟨msg, hP⟩ | ⟨g?, stR, hP, hleR⟩
            · exact Or.inl ⟨msg, by rw [hUnf]; exact hP⟩
            · exact Or.inr ⟨g?, stR, by rw [hUnf]; exact hP, by omega⟩
          · -- POLYGON
            have hUnf : wktToGeoJSONinner (f + 1) uo st =
                parseWktPolygon f
                  { toWktUserOptions := uo, srid := (matchSrid st).1,
                    hasZ := (matchDimension stT).1.hasZ,
                    hasM := (matchDimension stT).1.hasM }
                  (matchDimension stT).2 := by
              rw [inner_unfold, hT]
              rfl
            have hlen7 : ("POLYGON".data).length = 7 := rfl
            rcases parseWktPolygon_shape f _ (matchDimension stT).2
              (by omega) with ⟨msg, hP⟩ | ⟨g?, stR, hP, hleR⟩
            · exact Or.inl ⟨msg, by rw [hUnf]; exact hP⟩
            · exact Or.inr ⟨g?, stR, by rw [hUnf]; exact hP, by omega⟩
          · -- MULTIPOINT
            have hUnf : wktToGeoJSONinner (f + 1) uo st =
                parseWktMultiPoint f
                  { toWktUserOptions := uo, srid := (matchSrid st).1,
                    hasZ := (matchDimension stT).1.hasZ,
                    hasM := (matchDimension stT).1.hasM }
                  (matchDimension stT).2 := by
              rw [inner_unfold, hT]
              rfl
            have hlen10 : ("MULTIPOINT".data).length = 10 := rfl
            rcases parseWktMultiPoint_shape f _ (matchDimension stT).2
              (by omega) with ⟨msg, hP⟩ | ⟨g?, stR, hP, hleR⟩
            · exact Or.inl ⟨msg, by rw [hUnf]; exact hP⟩
            · exact Or.inr ⟨g?, stR, by rw [hUnf]; exact hP, by omega⟩
          · -- MULTILINESTRING
            have hUnf : wktToGeoJSONinner (f + 1) uo st =
                parseWktMultiLineString f
                  { toWktUserOptions := uo, srid := (matchSrid st).1,
                    hasZ := (matchDimension stT).1.hasZ,
                    hasM := (matchDimension stT).1.hasM }
                  (matchDimension stT).2 := by
              rw [inner_unfold, hT]
              rfl
            have hlen15 : ("MULTILINESTRING".data).length = 15 := rfl
            rcases parseWktMultiLineString_shape f _
              (matchDimension stT).2 (by omega) with
              ⟨msg, hP⟩ | ⟨g?, stR, hP, hleR⟩
            · exact Or.inl ⟨msg, by rw [hUnf]; exact hP⟩
            · exact Or.inr ⟨g?, stR, by rw [hUnf]; exact hP, by omega⟩
          · -- MULTIPOLYGON
            have hUnf : wktToGeoJSONinner (f + 1) uo st =
                parseWktMultiPolygon f
                  { toWktUserOptions := uo, srid := (matchSrid st).1,
                    hasZ := (matchDimension stT).1.hasZ,
                    hasM := (matchDimension stT).1.hasM }
                  (matchDimension stT).2 := by
              rw [inner_unfold, hT]
              rfl
            have hlen12 : ("MULTIPOLYGON".data).length = 12 := rfl
            rcases parseWktMultiPolygon_shape f _ (matchDimension stT).2
              (by omega) with ⟨msg, hP⟩ | ⟨g?, stR, hP, hleR⟩
            · exact Or.inl ⟨msg, by rw [hUnf]; exact hP⟩
            · exact Or.inr ⟨g?, stR, by rw [hUnf]; exact hP, by omega⟩
          · -- GEOMETRYCOLLECTION
            have hUnf : wktToGeoJSONinner (f + 1) uo st =
                parseWktGeometryCollection f
                  { toWktUserOptions := uo, srid := (matchSrid st).1,
                    hasZ := (matchDimension stT).1.hasZ,
                    hasM := (matchDimension stT).1.hasM }
                  (matchDimension stT).2 := by
              rw [inner_unfold, hT]
              rfl
            simp only [List.length_cons, List.length_nil] at htlen
            rcases (IH f (by omega)).2.1 _ (matchDimension stT).2
              (by omega) with ⟨msg, hP⟩ | ⟨g?, stR, hP, hleR⟩
            · exact Or.inl ⟨msg, by rw [hUnf]; exact hP⟩
            · exact Or.inr ⟨g?, stR, by rw [hUnf]; exact hP, by omega⟩
      · -- parseWktGeometryCollection
        intro o st hlen
        rcases hpair : isMatch EMPTY st with ⟨b, st1⟩
        have hle1 : st1.length ≤ st.length := by
          have := isMatch_le EMPTY st
          rw [hpair] at this
          exact this
        cases b with
        | true =>
          cases he : emptyAsNullTruthy o.toWktUserOptions with
          | true =>
            exact Or.inr ⟨none, st1, by
              simp only [parseWktGeometryCollection, hpair, he, if_true],
              hle1⟩
          | false =>
            exact Or.inr ⟨some (.geometryCollection .nil), st1, by
              simp only [parseWktGeometryCollection, hpair, he,
                Bool.false_eq_true, if_false], hle1⟩
        | false =>
          rcases expectGroupStart_shape st1 with ⟨hgs⟩ | ⟨stA, hgs, hltA⟩
          · exact Or.inl ⟨"Expected group start", by
              simp only [parseWktGeometryCollection, hpair, hgs,
                error_bind]⟩
          · rcases (IH f (by omega)).2.2 o [] stA (by omega) with
              ⟨msg, hgc⟩ | ⟨gs, stB, hgc, hleB⟩
            · exact Or.inl ⟨msg, by
                simp only [parseWktGeometryCollection, hpair, hgs,
                  ok_bind, hgc, error_bind]⟩
            · rcases expectGroupEnd_shape stB with
                ⟨hge⟩ | ⟨stC, hge, hltC⟩
              · exact Or.inl ⟨"Expected group end", by
                  simp only [parseWktGeometryCollection, hpair, hgs,
                    ok_bind, hgc, hge, error_bind]⟩
              · exact Or.inr
                  ⟨some (.geometryCollection (GeometryList.ofList gs)),
                    stC, by
                    simp only [parseWktGeometryCollection, hpair, hgs,
                      ok_bind, hgc, hge], by omega⟩
      · -- gcLoop
        intro o acc st hlen
        rcases (IH f (by omega)).1 o.toWktUserOptions st (by omega) with
          ⟨msg, hin⟩ | ⟨g?, st1, hin, hle1⟩
        · exact Or.inl ⟨msg, by
            simp only [gcLoop, hin, error_bind]⟩
        · rcases hpair : isMatch [','] st1 with ⟨b, stB⟩
          have hleB : stB.length ≤ st1.length := by
            have := isMatch_le [','] st1
            rw [hpair] at this
            exact this
          cases g? with
          | none =>
            cases b with
            | false =>
              exact Or.inr ⟨acc, stB, by
                simp only [gcLoop, hin, ok_bind, hpair], by omega⟩
            | true =>
              have hltB : stB.length < st1.length := by
                have := isMatch_true_lt [','] (by simp) st1
                  (by rw [hpair])
                rw [hpair] at this
                exact this
              rcases (IH f (by omega)).2.2 o acc stB (by omega) with
                ⟨msg, hrec⟩ | ⟨gs, stC, hrec, hleC⟩
              · exact Or.inl ⟨msg, by
                  simp only [gcLoop, hin, ok_bind, hpair, hrec]⟩
              · exact Or.inr ⟨gs, stC, by
                  simp only [gcLoop, hin, ok_bind, hpair, hrec],
                  by omega⟩
          | some g =>
            cases b with
            | false =>
              exact Or.inr ⟨acc ++ [g], stB, by
                simp only [gcLoop, hin, ok_bind, hpair], by omega⟩
            | true =>
              have hltB : stB.length < st1.length := by
                have := isMatch_true_lt [','] (by simp) st1
                  (by rw [hpair])
                rw [hpair] at this
                exact this
              rcases (IH f (by omega)).2.2 o (acc ++ [g]) stB
                (by omega) with ⟨msg, hrec⟩ | ⟨gs, stC, hrec, hleC⟩
              · exact Or.inl ⟨msg, by
                  simp only [gcLoop, hin, ok_bind, hpair, hrec]⟩
              · exact Or.inr ⟨gs, stC, by
                  simp only [gcLoop, hin, ok_bind, hpair, hrec],
                  by omega⟩

/-- C10: the parser terminates on every finite input and options value —
the run either returns a geometry-or-null or throws one of the source's
errors; the fuel `wkt.length + 1` (each loop iteration strictly consumes
input) is never exhausted. -/
theorem C10_terminates (wkt : List Char) (uo : WktUserOptions) :
    (∃ g?, wktToGeoJSON wkt uo = .ok g?) ∨
    (∃ msg, wktToGeoJSON wkt uo = .error (.err msg)) := by
  rcases (parser_shape (wkt.length + 1)).1 uo wkt (by omega) with
    ⟨msg, h⟩ | ⟨g?, st2, h, hle⟩
  · refine Or.inr ⟨msg, ?_⟩
    show (wktToGeoJSONinner (wkt.length + 1) uo wkt).map
      (fun r => r.1) = _
    rw [h]
    rfl
  · refine Or.inl ⟨g?, ?_⟩
    show (wktToGeoJSONinner (wkt.length + 1) uo wkt).map
      (fun r => r.1) = _
    rw [h]
    rfl

theorem C10_terminates_witness :
    (∃ g?, wktToGeoJSON ("POINT (5 6)".data) defaultWktUserOptions =
      .ok g?) ∨
    (∃ msg, wktToGeoJSON ("POINT (5 6)".data) defaultWktUserOptions =
      .error (.err msg)) :=
  C10_terminates ("POINT (5 6)".data) defaultWktUserOptions

end Betterknown
